import Mathlib

/-!
# Bank queue simulation: a shallow embedding of `数据结构.c`

The C program keeps its whole state in globals.  Here the globals become the
fields of one `State` record and every C function becomes a function on
`State`.

Modelling conventions
* `double` values are rationals (`ℚ`); `+`, `-` and the comparisons on them
  stand for the `double` operations, whose results are taken unrounded.  Where
  the rounding decides a branch, in the threshold
  `(int)(priority_ratio * 100)`, it is modelled explicitly (`round_double`).
  `int` values are `Int` (all counters stay far below the 32-bit range for the
  sizes the program admits).
* The arrays `windows[MAX_WINDOWS]` and `customers[MAX_CUSTOMERS]` are total
  maps from the `int` index to the element, so `customers[customer.id - 1]`
  is written exactly as in C.
* The linked list of a `Queue` is the list of the customers stored in its
  nodes, from `front` to `rear`; the `size` field is kept separately, as the
  code tests `size == 0` and never `front == NULL`.
* `rand()` reads the next element of a stream `rng : Nat → Nat`; the state
  counts how many values have been consumed.
* `printf`/`fprintf` calls do not change the state and are left out.
-/

namespace BankQueue

/-! ## Constants and types -/

def MAX_CUSTOMERS : Nat := 1000
def MAX_WINDOWS : Nat := 20

structure Customer where
  id : Int
  type : Int
  vip_level : Int
  arrival_time : ℚ
  service_time : ℚ
  start_time : ℚ
  finish_time : ℚ
  waiting_time : ℚ
  served_by : Int
deriving DecidableEq

structure Window where
  id : Int
  is_open : Bool
  is_busy : Bool
  current_customer : Customer
  busy_start : ℚ
  busy_end : ℚ
  total_busy_time : ℚ
  total_idle_time : ℚ
  served_count : Int
deriving DecidableEq

/-- The queue: `nodes` is the chain of nodes from `front` to `rear`. -/
structure Queue where
  nodes : List Customer
  size : Int
  priority : Int
deriving DecidableEq

structure SimulationParams where
  initial_windows : Int
  max_windows : Int
  min_windows : Int
  open_threshold : Int
  close_threshold : Int
  priority_ratio : ℚ
  simulation_time : Int
  customer_count : Int
deriving DecidableEq

structure Statistics where
  avg_wait_time : Int → ℚ
  max_wait_time : Int → ℚ
  window_utilization : Int → ℚ
  window_idle_rate : Int → ℚ
  total_served : Int
  throughput : ℚ
  total_wait_time : Int → ℚ
  served_count : Int → Int

/-- The global variables of the program. -/
structure State where
  priority_queue : Queue
  normal_queue : Queue
  windows : Int → Window
  params : SimulationParams
  stats : Statistics
  customers : Int → Customer
  active_windows : Int
  current_time : ℚ
  rand_calls : Nat

/-- The value of `Customer empty = {0}`. -/
def Customer.zero : Customer :=
  { id := 0, type := 0, vip_level := 0, arrival_time := 0, service_time := 0,
    start_time := 0, finish_time := 0, waiting_time := 0, served_by := 0 }

/-- The conversion `(int)x` of a `double`: truncation towards zero. -/
def c_int_cast (x : ℚ) : Int := Int.tdiv x.num x.den

/-- The integer nearest to `a / b`, the even one of the two when `a / b` lies
halfway between them. -/
def round_half_even (a b : Nat) : Nat :=
  if 2 * (a % b) < b then a / b
  else if b < 2 * (a % b) then a / b + 1
  else if (a / b) % 2 = 0 then a / b else a / b + 1

/-- The number of binary digits of `n`, found with at most `fuel` halvings. -/
def binary_digits : Nat → Nat → Nat
  | 0, _ => 0
  | fuel + 1, n => if n = 0 then 0 else binary_digits fuel (n / 2) + 1

/-- The `double` nearest to `a / b`: with `2 ^ e ≤ a / b < 2 ^ (e + 1)` the
doubles around `a / b` are the multiples of `2 ^ (e - 52)` (of `2 ^ (-1074)` in
the subnormal range), and `a / b` is rounded to the nearest of them, ties to the
even multiple.  Values of `2 ^ 1024` and more, which a `double` rounds to
infinity, do not occur in the program's products. -/
def round_magnitude (a b : Nat) : ℚ :=
  if a = 0 then 0
  else
    let d : Int := (binary_digits a a : Int) - (binary_digits b b : Int)
    let e : Int := if b * 2 ^ d.toNat ≤ a * 2 ^ (-d).toNat then d else d - 1
    let q : Int := max (e - 52) (-1074)
    ((round_half_even (a * 2 ^ (-q).toNat) (b * 2 ^ q.toNat) : Nat) : ℚ) * 2 ^ q.toNat
      / 2 ^ (-q).toNat

/-- Rounding of an exact value to `double` (IEEE 754 binary64, round to nearest,
ties to even). -/
def round_double (x : ℚ) : ℚ :=
  if x < 0 then - round_magnitude x.num.natAbs x.den
  else round_magnitude x.num.natAbs x.den

/-- The product `x * y` of two `double` values as the machine computes it: the
exact product, rounded to `double`. -/
def double_mul (x y : ℚ) : ℚ := round_double (x * y)

/-! ## Queue operations -/

def init_queue (_q : Queue) (priority : Int) : Queue :=
  { nodes := [], size := 0, priority := priority }

def is_queue_empty (q : Queue) : Bool := q.size == 0

def enqueue (q : Queue) (customer : Customer) : Queue :=
  { q with nodes := q.nodes ++ [customer], size := q.size + 1 }

/-- The function `dequeue`.  With `size != 0` and no node the C code
dereferences `NULL`; that case never arises for a queue built by
`init_queue`/`enqueue`/`dequeue` and is given the result of the empty case. -/
def dequeue (q : Queue) : Customer × Queue :=
  if is_queue_empty q then (Customer.zero, q)
  else
    match q.nodes with
    | [] => (Customer.zero, q)
    | customer :: rest => (customer, { q with nodes := rest, size := q.size - 1 })

def peek_queue (q : Queue) : Customer :=
  if is_queue_empty q then Customer.zero
  else
    match q.nodes with
    | [] => Customer.zero
    | customer :: _ => customer

def queue_size (q : Queue) : Int := q.size

/-! ## Window management -/

def init_windows (s : State) : State :=
  { s with
    windows := fun i =>
      if 0 ≤ i ∧ i < MAX_WINDOWS then
        { s.windows i with
          id := i
          is_open := decide (i < s.params.initial_windows)
          is_busy := false
          total_busy_time := 0
          total_idle_time := 0
          served_count := 0
          busy_start := 0 }
      else s.windows i
    active_windows := s.params.initial_windows }

def open_window (s : State) (window_id : Int) : State :=
  if window_id < MAX_WINDOWS ∧ (s.windows window_id).is_open = false
      ∧ s.active_windows < s.params.max_windows then
    { s with
      windows := Function.update s.windows window_id
        { s.windows window_id with is_open := true }
      active_windows := s.active_windows + 1 }
  else s

def close_window (s : State) (window_id : Int) : State :=
  if window_id < MAX_WINDOWS ∧ (s.windows window_id).is_open = true
      ∧ (s.windows window_id).is_busy = false
      ∧ s.active_windows > s.params.min_windows then
    { s with
      windows := Function.update s.windows window_id
        { s.windows window_id with is_open := false }
      active_windows := s.active_windows - 1 }
  else s

def find_idle_window (s : State) : Int :=
  match (List.range MAX_WINDOWS).find?
      (fun (i : Nat) => (s.windows i).is_open && !(s.windows i).is_busy) with
  | some i => i
  | none => -1

/-! ## Customer scheduling -/

/-- The function `get_next_customer`.  The threshold `(int)(priority_ratio * 100)`
is the truncation of the `double` product, with its rounding; the factor
`priority_ratio` is the `double` that holds the parameter, that is the `double`
nearest to it (the parameter itself when it is a `double` value).  In the last
branch the C code sets only `customer.id = -1`; the other fields of the returned
record are indeterminate and are given as zero. -/
def get_next_customer (rng : Nat → Nat) (s : State) : Customer × State :=
  if !is_queue_empty s.priority_queue && !is_queue_empty s.normal_queue then
    let s1 := { s with rand_calls := s.rand_calls + 1 }
    if ((rng s.rand_calls % 100 : Nat) : Int)
        < c_int_cast (double_mul (round_double s.params.priority_ratio) 100) then
      ((dequeue s.priority_queue).1, { s1 with priority_queue := (dequeue s.priority_queue).2 })
    else
      ((dequeue s.normal_queue).1, { s1 with normal_queue := (dequeue s.normal_queue).2 })
  else if !is_queue_empty s.priority_queue then
    ((dequeue s.priority_queue).1, { s with priority_queue := (dequeue s.priority_queue).2 })
  else if !is_queue_empty s.normal_queue then
    ((dequeue s.normal_queue).1, { s with normal_queue := (dequeue s.normal_queue).2 })
  else
    ({ Customer.zero with id := -1 }, s)

def assign_customer_to_window (s : State) (window_id : Int) (customer : Customer) : State :=
  if window_id ≥ 0 ∧ window_id < MAX_WINDOWS then
    { s with
      windows := Function.update s.windows window_id
        { s.windows window_id with
          is_busy := true
          current_customer := customer
          busy_start := s.current_time
          served_count := (s.windows window_id).served_count + 1 }
      customers := Function.update s.customers (customer.id - 1)
        { s.customers (customer.id - 1) with
          start_time := s.current_time
          waiting_time := s.current_time - customer.arrival_time
          served_by := window_id } }
  else s

def finish_service (s : State) (window_id : Int) : State :=
  if window_id ≥ 0 ∧ window_id < MAX_WINDOWS ∧ (s.windows window_id).is_busy = true then
    let customer := (s.windows window_id).current_customer
    let service_duration := s.current_time - (s.windows window_id).busy_start
    { s with
      windows := Function.update s.windows window_id
        { s.windows window_id with
          is_busy := false
          total_busy_time := (s.windows window_id).total_busy_time + service_duration
          busy_end := s.current_time }
      customers := Function.update s.customers (customer.id - 1)
        { s.customers (customer.id - 1) with finish_time := s.current_time } }
  else s

/-! ## Dynamic window adjustment -/

def adjust_windows (s : State) : State :=
  let total_queue_size := queue_size s.normal_queue + queue_size s.priority_queue
  if total_queue_size > s.params.open_threshold then
    match (List.range s.params.max_windows.toNat).find?
        (fun (i : Nat) => !(s.windows i).is_open) with
    | some i => open_window s i
    | none => s
  else if total_queue_size < s.params.close_threshold then
    match (List.range s.params.max_windows.toNat).find?
        (fun (i : Nat) => (s.windows i).is_open && !(s.windows i).is_busy) with
    | some i => close_window s i
    | none => s
  else s

/-! ## Customer arrival -/

/-- First part of `customer_arrival`: the customer joins the queue of its type. -/
def arrival_enqueue (s : State) (customer : Customer) : State :=
  if customer.type = 1 then
    { s with priority_queue := enqueue s.priority_queue customer }
  else
    { s with normal_queue := enqueue s.normal_queue customer }

/-- Second part of `customer_arrival`: try to hand a customer to an idle window. -/
def arrival_dispatch (rng : Nat → Nat) (s : State) : State :=
  let idle_window := find_idle_window s
  if idle_window ≠ -1 then
    let next_customer := (get_next_customer rng s).1
    if next_customer.id ≠ -1 then
      assign_customer_to_window (get_next_customer rng s).2 idle_window next_customer
    else (get_next_customer rng s).2
  else s

def customer_arrival (rng : Nat → Nat) (s : State) (customer : Customer) : State :=
  adjust_windows (arrival_dispatch rng (arrival_enqueue s customer))

/-! ## The simulation core -/

/-- The four locals of the loop body that describe the next event. -/
structure NextEvent where
  next_event_time : ℚ
  next_event_type : Int
  next_event_window : Int
  next_event_customer_index : Int
deriving DecidableEq

/-- The first `for` loop of the body: the earliest arrival after `current_time`. -/
def scan_arrivals (s : State) (e : NextEvent) : NextEvent :=
  (List.range s.params.customer_count.toNat).foldl
    (fun (e : NextEvent) (i : Nat) =>
      if (s.customers i).arrival_time > s.current_time
          ∧ (s.customers i).arrival_time < e.next_event_time then
        { e with
          next_event_time := (s.customers i).arrival_time
          next_event_type := 0
          next_event_customer_index := i }
      else e) e

/-- The second `for` loop of the body: the earliest completion after `current_time`. -/
def scan_completions (s : State) (e : NextEvent) : NextEvent :=
  (List.range MAX_WINDOWS).foldl
    (fun (e : NextEvent) (i : Nat) =>
      if (s.windows i).is_busy = true then
        let finish_time := (s.windows i).busy_start + (s.windows i).current_customer.service_time
        if finish_time > s.current_time ∧ finish_time < e.next_event_time then
          { e with
            next_event_time := finish_time
            next_event_type := 1
            next_event_window := i }
        else e
      else e) e

def find_next_event (s : State) : NextEvent :=
  scan_completions s (scan_arrivals s
    { next_event_time := s.params.simulation_time + 1
      next_event_type := -1
      next_event_window := -1
      next_event_customer_index := -1 })

/-- The loop `for i < MAX_WINDOWS: if open and idle then total_idle_time += dt`. -/
def credit_idle (s : State) (dt : ℚ) : State :=
  { s with
    windows := fun i =>
      if 0 ≤ i ∧ i < MAX_WINDOWS ∧ (s.windows i).is_open = true
          ∧ (s.windows i).is_busy = false then
        { s.windows i with total_idle_time := (s.windows i).total_idle_time + dt }
      else s.windows i }

/-- The branch `next_event_type == -1` up to its `break`. -/
def drain (s : State) : State :=
  { credit_idle s (s.params.simulation_time - s.current_time) with
    current_time := s.params.simulation_time }

/-- Idle time is credited up to the event, then the clock moves to it. -/
def advance_clock (s : State) (e : NextEvent) : State :=
  { credit_idle s (e.next_event_time - s.current_time) with
    current_time := e.next_event_time }

/-- After `finish_service`: give the freed window the next customer, if any. -/
def completion_dispatch (rng : Nat → Nat) (s : State) (window_id : Int) : State :=
  let next_customer := (get_next_customer rng s).1
  if next_customer.id ≠ -1 then
    assign_customer_to_window (get_next_customer rng s).2 window_id next_customer
  else (get_next_customer rng s).2

/-- The part of the loop body after `current_time = next_event_time`. -/
def handle_event (rng : Nat → Nat) (s : State) (e : NextEvent) : State :=
  if e.next_event_type = 0 then
    customer_arrival rng s (s.customers e.next_event_customer_index)
  else if e.next_event_type = 1 then
    adjust_windows (completion_dispatch rng (finish_service s e.next_event_window)
      e.next_event_window)
  else s

/-- One execution of the loop body; the flag tells whether it ended in `break`. -/
def loop_body (rng : Nat → Nat) (s : State) : State × Bool :=
  let e := find_next_event s
  if e.next_event_type = -1 then (drain s, true)
  else (handle_event rng (advance_clock s e) e, false)

/-- The `while` loop, bounded by `fuel` iterations; `none` when the fuel runs out
before the loop ends. -/
def run_loop (rng : Nat → Nat) : Nat → State → Option State
  | 0, s => if s.current_time < s.params.simulation_time then none else some s
  | fuel + 1, s =>
    if s.current_time < s.params.simulation_time then
      if (loop_body rng s).2 = true then some (loop_body rng s).1
      else run_loop rng fuel (loop_body rng s).1
    else some s

/-- The state on entry to the `while` loop. -/
def sim_start (s : State) : State :=
  { init_windows s with
    priority_queue := init_queue s.priority_queue 1
    normal_queue := init_queue s.normal_queue 0 }

def run_simulation (rng : Nat → Nat) (fuel : Nat) (s : State) : Option State :=
  run_loop rng fuel (sim_start s)

/-- The state at the loop test after `k` passes through the loop (or at the exit,
when the loop ends earlier). -/
def after_iterations (rng : Nat → Nat) : Nat → State → State
  | 0, s => s
  | k + 1, s =>
    if s.current_time < s.params.simulation_time then
      after_iterations rng k (loop_body rng s).1
    else s

/-! ## Statistics -/

def Statistics.zero : Statistics :=
  { avg_wait_time := fun _ => 0, max_wait_time := fun _ => 0,
    window_utilization := fun _ => 0, window_idle_rate := fun _ => 0,
    total_served := 0, throughput := 0,
    total_wait_time := fun _ => 0, served_count := fun _ => 0 }

/-- Body of the loop over the customers in `calculate_statistics`. -/
def stats_customer (s : State) (st : Statistics) (i : Nat) : Statistics :=
  if (s.customers i).finish_time > 0 then
    let type := (s.customers i).type
    let st1 := { st with
      total_wait_time := Function.update st.total_wait_time type
        (st.total_wait_time type + (s.customers i).waiting_time)
      served_count := Function.update st.served_count type (st.served_count type + 1) }
    if (s.customers i).waiting_time > st1.max_wait_time type then
      { st1 with max_wait_time :=
          Function.update st1.max_wait_time type (s.customers i).waiting_time }
    else st1
  else st

/-- Body of the loop that derives the averages. -/
def stats_average (st : Statistics) (i : Nat) : Statistics :=
  if st.served_count i > 0 then
    { st with avg_wait_time :=
        Function.update st.avg_wait_time i (st.total_wait_time i / st.served_count i) }
  else st

/-- Body of the loop over the windows in `calculate_statistics`. -/
def stats_window (s : State) (st : Statistics) (i : Nat) : Statistics :=
  if (s.windows i).is_open = true then
    let total_used_time := (s.windows i).total_busy_time + (s.windows i).total_idle_time
    if total_used_time > 0 then
      let utilization := ((s.windows i).total_busy_time / total_used_time) * 100
      { st with
        window_utilization := Function.update st.window_utilization i utilization
        window_idle_rate := Function.update st.window_idle_rate i (100 - utilization) }
    else
      { st with
        window_utilization := Function.update st.window_utilization i 0
        window_idle_rate := Function.update st.window_idle_rate i 100 }
  else st

def calculate_statistics (s : State) : State :=
  let st1 := (List.range s.params.customer_count.toNat).foldl (stats_customer s) Statistics.zero
  let st2 := (List.range 2).foldl stats_average st1
  let st3 := (List.range MAX_WINDOWS).foldl (stats_window s) st2
  let st4 := { st3 with total_served := st3.served_count 0 + st3.served_count 1 }
  if s.current_time > 0 then
    { s with stats := { st4 with throughput := (st4.total_served / s.current_time) * 60 } }
  else
    { s with stats := st4 }

/-! ## Auxiliary definitions used to state the properties -/

/-- A queue whose `size` field counts its nodes. -/
def Queue.WF (q : Queue) : Prop := q.size = q.nodes.length

instance (q : Queue) : Decidable q.WF := by
  unfold Queue.WF
  infer_instance

/-- A client action on a queue. -/
inductive QueueOp where
  | enq (c : Customer)
  | deq
deriving DecidableEq

/-- Runs a sequence of `enqueue`/`dequeue` calls; returns the customers handed
out by the calls of `dequeue` on a non-empty queue, in order, and the final queue. -/
def run_queue_ops : List QueueOp → Queue → List Customer × Queue
  | [], q => ([], q)
  | QueueOp.enq c :: ops, q => run_queue_ops ops (enqueue q c)
  | QueueOp.deq :: ops, q =>
    if is_queue_empty q then run_queue_ops ops (dequeue q).2
    else ((dequeue q).1 :: (run_queue_ops ops (dequeue q).2).1,
          (run_queue_ops ops (dequeue q).2).2)

/-- The customers a sequence of actions puts into the queue, in order. -/
def enqueued : List QueueOp → List Customer
  | [] => []
  | QueueOp.enq c :: ops => c :: enqueued ops
  | QueueOp.deq :: ops => enqueued ops

/-- A customer record as both generators of the program leave it: the fields
written during the simulation are cleared (`served_by = -1`). -/
def new_customer (id type : Int) (arrival_time service_time : ℚ) : Customer :=
  { id := id, type := type, vip_level := 0, arrival_time := arrival_time,
    service_time := service_time, start_time := 0, finish_time := 0,
    waiting_time := 0, served_by := -1 }

/-- The all-zero window of a zero-initialised global. -/
def Window.zero : Window :=
  { id := 0, is_open := false, is_busy := false, current_customer := Customer.zero,
    busy_start := 0, busy_end := 0, total_busy_time := 0, total_idle_time := 0,
    served_count := 0 }

/-- The globals before `run_simulation` is called with `current_time = 0`: the
zero-initialised globals, the given parameters, and the given customers stored in
`customers[0]`, `customers[1]`, ... -/
def initial_state (p : SimulationParams) (cs : List Customer) : State :=
  { priority_queue := { nodes := [], size := 0, priority := 0 }
    normal_queue := { nodes := [], size := 0, priority := 0 }
    windows := fun _ => Window.zero
    params := p
    stats := Statistics.zero
    customers := fun i => if 0 ≤ i then cs.getD i.toNat Customer.zero else Customer.zero
    active_windows := 0
    current_time := 0
    rand_calls := 0 }

/-- Parameters of the demonstration mode, with the given priority ratio. -/
def demo_params (ratio : ℚ) : SimulationParams :=
  { initial_windows := 2, max_windows := 4, min_windows := 1, open_threshold := 3,
    close_threshold := 1, priority_ratio := ratio, simulation_time := 120,
    customer_count := 2 }

/-- The bounds the parameter dialogue enforces on the window counts. -/
def ValidParams (p : SimulationParams) : Prop :=
  1 ≤ p.min_windows ∧ p.min_windows ≤ p.initial_windows
    ∧ p.initial_windows ≤ p.max_windows ∧ p.max_windows ≤ MAX_WINDOWS

instance (p : SimulationParams) : Decidable (ValidParams p) := by
  unfold ValidParams
  infer_instance

/-- The states `run_simulation`, started on `s0`, passes through, at any point
of the program: the state on entry to the loop, closed under every state change
the loop body performs.  `adjust_windows` is covered by the calls of
`open_window` and `close_window` it makes. -/
inductive Reached (rng : Nat → Nat) (s0 : State) : State → Prop
  | start : Reached rng s0 (sim_start s0)
  | drained (s : State) : Reached rng s0 s → Reached rng s0 (drain s)
  | advanced (s : State) (e : NextEvent) :
      Reached rng s0 s → Reached rng s0 (advance_clock s e)
  | enqueued (s : State) (c : Customer) :
      Reached rng s0 s → Reached rng s0 (arrival_enqueue s c)
  | dequeued (s : State) : Reached rng s0 s → Reached rng s0 (get_next_customer rng s).2
  | assigned (s : State) (w : Int) (c : Customer) :
      Reached rng s0 s → (s.windows w).is_open = true → (s.windows w).is_busy = false →
      Reached rng s0 (assign_customer_to_window s w c)
  | finished (s : State) (w : Int) :
      Reached rng s0 s → Reached rng s0 (finish_service s w)
  | opened (s : State) (i : Int) :
      Reached rng s0 s → 0 ≤ i → i < s.params.max_windows →
      Reached rng s0 (open_window s i)
  | closed (s : State) (i : Int) :
      Reached rng s0 s → Reached rng s0 (close_window s i)

/-- The facts about the window pool that hold throughout a run. -/
structure PoolInv (p : SimulationParams) (s : State) : Prop where
  params_eq : s.params = p
  min_le : p.min_windows ≤ s.active_windows
  le_max : s.active_windows ≤ p.max_windows
  open_lt_max : ∀ i : Int, 0 ≤ i → i < MAX_WINDOWS →
    (s.windows i).is_open = true → i < p.max_windows
  busy_open : ∀ i : Int, 0 ≤ i → i < MAX_WINDOWS →
    (s.windows i).is_busy = true → (s.windows i).is_open = true

/-- The index `i` is the lowest one in `0 .. n-1` with the property `p`. -/
def IsLowest (n : Int) (p : Int → Prop) (i : Int) : Prop :=
  0 ≤ i ∧ i < n ∧ p i ∧ ∀ j : Int, 0 ≤ j → j < i → ¬ p j

/-- The state `s` with window `i` marked open and one more active window. -/
def with_window_opened (s : State) (i : Int) : State :=
  { s with
    windows := Function.update s.windows i { s.windows i with is_open := true }
    active_windows := s.active_windows + 1 }

/-- The state `s` with window `i` marked closed and one active window less. -/
def with_window_closed (s : State) (i : Int) : State :=
  { s with
    windows := Function.update s.windows i { s.windows i with is_open := false }
    active_windows := s.active_windows - 1 }

/-- What the two scans of the loop body establish about the event they select. -/
def EventOK (s : State) (e : NextEvent) : Prop :=
  e.next_event_type = -1
  ∨ (e.next_event_type = 0 ∧ s.current_time < e.next_event_time
      ∧ 0 ≤ e.next_event_customer_index
      ∧ e.next_event_customer_index < s.params.customer_count
      ∧ (s.customers e.next_event_customer_index).arrival_time = e.next_event_time)
  ∨ (e.next_event_type = 1 ∧ s.current_time < e.next_event_time
      ∧ 0 ≤ e.next_event_window ∧ e.next_event_window < MAX_WINDOWS
      ∧ (s.windows e.next_event_window).is_busy = true
      ∧ (s.windows e.next_event_window).busy_start
          + (s.windows e.next_event_window).current_customer.service_time
        = e.next_event_time)

/-- Scenario C: thresholds 3 and 1, between one and two windows, one window
open at the start. -/
def scenario_c_params : SimulationParams :=
  { initial_windows := 1, max_windows := 2, min_windows := 1, open_threshold := 3,
    close_threshold := 1, priority_ratio := 1 / 2, simulation_time := 100,
    customer_count := 5 }

/-- Five customers arriving at t = 1, .., 5, each needing 50 time units. -/
def scenario_c_input : State :=
  initial_state scenario_c_params
    [new_customer 1 0 1 50, new_customer 2 0 2 50, new_customer 3 1 3 50,
     new_customer 4 0 4 50, new_customer 5 0 5 50]

/-- Scenario C at the loop test after the first four arrivals. -/
def scenario_c_before : State :=
  after_iterations (fun _ => 0) 4 (sim_start scenario_c_input)

/-- Scenario C when the fifth arrival calls `adjust_windows`: window 0 is busy
and four customers wait. -/
def scenario_c_state : State :=
  arrival_dispatch (fun _ => 0)
    (arrival_enqueue
      (advance_clock scenario_c_before (find_next_event scenario_c_before))
      (scenario_c_before.customers 4))

/-- Scenario A: one window fixed open, `priority_ratio = 0`, ample duration. -/
def scenario_a_params : SimulationParams :=
  { initial_windows := 1, max_windows := 1, min_windows := 1, open_threshold := 5,
    close_threshold := 0, priority_ratio := 0, simulation_time := 100,
    customer_count := 3 }

/-- Scenario A: customers 1, 2, 3 arrive at t = 0, 1, 2 and need 5 time units each. -/
def scenario_a_input : State :=
  initial_state scenario_a_params
    [new_customer 1 0 0 5, new_customer 2 0 1 5, new_customer 3 0 2 5]

/-- Scenario B: two windows open, duration 10. -/
def scenario_b_params : SimulationParams :=
  { initial_windows := 2, max_windows := 2, min_windows := 2, open_threshold := 5,
    close_threshold := 0, priority_ratio := 1 / 2, simulation_time := 10,
    customer_count := 2 }

/-- Scenario B: a priority and a normal customer, both arriving at t = 0 and
needing 2 time units. -/
def scenario_b_input : State :=
  initial_state scenario_b_params [new_customer 1 1 0 2, new_customer 2 0 0 2]

/-- Scenario D with a late customer: duration 10, the only customer arrives at
t = 10.5. -/
def scenario_d_params : SimulationParams :=
  { initial_windows := 1, max_windows := 1, min_windows := 1, open_threshold := 5,
    close_threshold := 0, priority_ratio := 0, simulation_time := 10,
    customer_count := 1 }

def scenario_d_input : State :=
  initial_state scenario_d_params [new_customer 1 0 (21 / 2) 5]

/-- Scenario D proper: duration 10, the only customer arrives at t = 11. -/
def scenario_d_quiet : State :=
  initial_state scenario_d_params [new_customer 1 0 11 5]

/-- Number of customers whose arrival still lies ahead of the clock. -/
def pending_arrivals (s : State) : Nat :=
  (List.range s.params.customer_count.toNat).countP
    (fun (i : Nat) => decide ((s.customers i).arrival_time > s.current_time))

/-- Number of busy windows whose completion still lies ahead of the clock. -/
def pending_completions (s : State) : Nat :=
  (List.range MAX_WINDOWS).countP
    (fun (i : Nat) => (s.windows i).is_busy
      && decide ((s.windows i).busy_start + (s.windows i).current_customer.service_time
          > s.current_time))

/-- Number of customers waiting in the two queues. -/
def queued_count (s : State) : Nat :=
  s.priority_queue.nodes.length + s.normal_queue.nodes.length

/-- A bound on the number of events still to come: every pending arrival is one
event and may cause one completion, every waiting customer may cause one
completion. -/
def loop_measure (s : State) : Nat :=
  2 * pending_arrivals s + queued_count s + pending_completions s

/-- Both queues keep their `size` field equal to their number of nodes. -/
def QueuesWF (s : State) : Prop := s.priority_queue.WF ∧ s.normal_queue.WF

/-- The state `s'` differs from `s` at most in the `is_open` flags of the
windows and in `active_windows`. -/
structure PoolChange (s s' : State) : Prop where
  params_eq : s'.params = s.params
  time_eq : s'.current_time = s.current_time
  pq_eq : s'.priority_queue = s.priority_queue
  nq_eq : s'.normal_queue = s.normal_queue
  customers_eq : s'.customers = s.customers
  windows_eq : ∀ i : Int,
    s'.windows i = { s.windows i with is_open := (s'.windows i).is_open }

/-- The time accounted for window `w`: the busy and idle time booked so far,
plus the elapsed part of the service in progress, which is booked only when the
service completes. -/
def accounted_time (s : State) (w : Int) : ℚ :=
  (s.windows w).total_busy_time + (s.windows w).total_idle_time
    + (if (s.windows w).is_busy = true then s.current_time - (s.windows w).busy_start
       else 0)

/-- The total time window `w` is open during the first `k` passes through the
loop, started at the loop test in state `s`.  Windows open and close only at the
instant of an event, after the clock has moved, so during the interval a pass
covers the window is open exactly when it is open at the loop test. -/
def open_span (rng : Nat → Nat) (w : Int) : Nat → State → ℚ
  | 0, _ => 0
  | k + 1, s =>
    if s.current_time < s.params.simulation_time then
      (if (s.windows w).is_open = true then
          (loop_body rng s).1.current_time - s.current_time
        else 0)
        + open_span rng w k (loop_body rng s).1
    else 0

/-- Every busy window among the `MAX_WINDOWS` windows is open. -/
def BusyOpen (s : State) : Prop :=
  ∀ w : Int, 0 ≤ w → w < MAX_WINDOWS →
    (s.windows w).is_busy = true → (s.windows w).is_open = true

/-- Duration 3, one window; the only customer arrives at t = 1 and needs 5 time
units, so the run ends while the customer is being served. -/
def busy_at_end_input : State :=
  initial_state
    { initial_windows := 1, max_windows := 1, min_windows := 1, open_threshold := 5,
      close_threshold := 0, priority_ratio := 0, simulation_time := 3,
      customer_count := 1 }
    [new_customer 1 0 1 5]

/-- The failure the specification names for taking from an empty queue. -/
inductive QueueError where
  | EmptyQueue
deriving DecidableEq

/-- The operation `dequeueFront` as the specification words it: it removes and
returns the head, and fails with `EmptyQueue` if the queue has no elements. -/
def dequeue_spec (q : Queue) : Except QueueError (Customer × Queue) :=
  match q.nodes with
  | [] => Except.error QueueError.EmptyQueue
  | customer :: rest => Except.ok (customer, { q with nodes := rest, size := q.size - 1 })

/-- Scenario A at t = 2: customer 2 is being served at window 0 since t = 1, and
the clock has moved to the arrival of customer 3. -/
def serving_state : State :=
  advance_clock (after_iterations (fun _ => 0) 1 (sim_start scenario_a_input))
    (find_next_event (after_iterations (fun _ => 0) 1 (sim_start scenario_a_input)))

/-- One window, duration 100; customer 1 arrives at t = 1 and needs 2 time
units, customer 2 arrives at t = 3, the instant customer 1 is due to finish. -/
def tie_input : State :=
  initial_state
    { initial_windows := 1, max_windows := 1, min_windows := 1, open_threshold := 5,
      close_threshold := 0, priority_ratio := 0, simulation_time := 100,
      customer_count := 2 }
    [new_customer 1 0 1 2, new_customer 2 0 3 2]

/-- The tie at the loop test: the clock is at 1, window 0 serves customer 1 until
t = 3, and the next arrival is at t = 3. -/
def tie_state : State :=
  after_iterations (fun _ => 0) 1 (sim_start tie_input)

/-- Customer `i` counts for class `c`: it has a recorded finish time and its
type is `c`. -/
def counted (s : State) (c : Int) (i : Nat) : Bool :=
  decide ((s.customers i).finish_time > 0) && decide ((s.customers i).type = c)

/-- The positions of the customers of class `c` with a recorded finish time. -/
def finished_of_class (s : State) (c : Int) : List Nat :=
  (List.range s.params.customer_count.toNat).filter (counted s c)

/-- The positions of all customers with a recorded finish time. -/
def finished_customers (s : State) : List Nat :=
  (List.range s.params.customer_count.toNat).filter
    (fun (i : Nat) => decide ((s.customers i).finish_time > 0))

/-- The sum of the waiting times of the customers at the given positions. -/
def waiting_sum (s : State) (l : List Nat) : ℚ :=
  (l.map (fun (i : Nat) => (s.customers i).waiting_time)).sum

/-- What holds of the waiting times throughout a run on `n` customers. -/
structure WaitingInv (n : Int) (s : State) : Prop where
  count_eq : s.params.customer_count = n
  wf : QueuesWF s
  nonneg : ∀ i : Int, 0 ≤ i → i < n → (s.customers i).waiting_time ≥ 0
  arrived : ∀ c : Customer,
    c ∈ s.priority_queue.nodes ∨ c ∈ s.normal_queue.nodes →
    c.arrival_time ≤ s.current_time

/-- The utilization `calculate_statistics` computes for an open window. -/
def utilization_of (w : Window) : ℚ :=
  if w.total_busy_time + w.total_idle_time > 0 then
    (w.total_busy_time / (w.total_busy_time + w.total_idle_time)) * 100
  else 0

/-- The idle rate `calculate_statistics` computes for an open window. -/
def idle_rate_of (w : Window) : ℚ :=
  if w.total_busy_time + w.total_idle_time > 0 then
    100 - (w.total_busy_time / (w.total_busy_time + w.total_idle_time)) * 100
  else 100

/-- The state Scenario A ends in. -/
def scenario_a_final : State :=
  after_iterations (fun _ => 0) 7 (sim_start scenario_a_input)

/-- The test by which `print_statistics` selects the windows it lists with their
utilization and idle rate: `windows[i].is_open || windows[i].served_count > 0`. -/
def listed_by_print_statistics (s : State) (i : Int) : Bool :=
  (s.windows i).is_open || decide ((s.windows i).served_count > 0)

/-- Between one and two windows, a second window opens as soon as a customer
waits and closes when nobody waits; three customers arrive at t = 1, 2, 3 and
need 10 time units each. -/
def closed_window_input : State :=
  initial_state
    { initial_windows := 1, max_windows := 2, min_windows := 1, open_threshold := 0,
      close_threshold := 1, priority_ratio := 0, simulation_time := 100,
      customer_count := 3 }
    [new_customer 1 0 1 10, new_customer 2 0 2 10, new_customer 3 0 3 10]

/-- What the first `k` passes through the loop record, started at the loop test
in state `s`, when the pass made from a state `s` records `f s`. -/
def run_log {α : Type} (rng : Nat → Nat) (f : State → List α) : Nat → State → List α
  | 0, _ => []
  | k + 1, s =>
    if s.current_time < s.params.simulation_time then
      f s ++ run_log rng f k (loop_body rng s).1
    else []

/-- The states `completion_dispatch` passes through: after `get_next_customer`
and, when a customer was found, after `assign_customer_to_window`. -/
def completion_dispatch_states (rng : Nat → Nat) (s : State) (window_id : Int) : List State :=
  (get_next_customer rng s).2 ::
    (if (get_next_customer rng s).1.id ≠ -1 then
      [assign_customer_to_window (get_next_customer rng s).2 window_id
        (get_next_customer rng s).1]
    else [])

/-- The states the second part of `customer_arrival` passes through. -/
def arrival_dispatch_states (rng : Nat → Nat) (s : State) : List State :=
  if find_idle_window s ≠ -1 then completion_dispatch_states rng s (find_idle_window s)
  else []

/-- The states the event handling passes through: after the arrival has been
enqueued or the service finished, after the dequeue and the assignment, and
after `adjust_windows`. -/
def handle_event_states (rng : Nat → Nat) (s : State) (e : NextEvent) : List State :=
  if e.next_event_type = 0 then
    arrival_enqueue s (s.customers e.next_event_customer_index) ::
      (arrival_dispatch_states rng
          (arrival_enqueue s (s.customers e.next_event_customer_index))
        ++ [adjust_windows (arrival_dispatch rng
              (arrival_enqueue s (s.customers e.next_event_customer_index)))])
  else if e.next_event_type = 1 then
    finish_service s e.next_event_window ::
      (completion_dispatch_states rng (finish_service s e.next_event_window)
          e.next_event_window
        ++ [adjust_windows (completion_dispatch rng
              (finish_service s e.next_event_window) e.next_event_window)])
  else []

/-- The states one pass through the loop body goes through after the loop test:
after the clock has moved, and then after every step of the event handling. -/
def loop_body_states (rng : Nat → Nat) (s : State) : List State :=
  let e := find_next_event s
  if e.next_event_type = -1 then [drain s]
  else advance_clock s e :: handle_event_states rng (advance_clock s e) e

/-- A call of one of the three functions that guard a precondition, with the
arguments and the state it is made in. -/
inductive Call where
  | dequeue (q : Queue)
  | assign (s : State) (window_id : Int) (customer : Customer)
  | finish (s : State) (window_id : Int)

/-- The precondition of the call holds: the queue is not empty; the window is
one of the `MAX_WINDOWS` windows, open and idle; the window is one of the
`MAX_WINDOWS` windows and busy. -/
def Call.ok : Call → Prop
  | Call.dequeue q => is_queue_empty q = false ∧ q.nodes ≠ []
  | Call.assign s window_id _ =>
    0 ≤ window_id ∧ window_id < MAX_WINDOWS
      ∧ (s.windows window_id).is_open = true ∧ (s.windows window_id).is_busy = false
  | Call.finish s window_id =>
    0 ≤ window_id ∧ window_id < MAX_WINDOWS ∧ (s.windows window_id).is_busy = true

/-- The calls of `dequeue` that `get_next_customer` makes. -/
def get_next_customer_calls (rng : Nat → Nat) (s : State) : List Call :=
  if !is_queue_empty s.priority_queue && !is_queue_empty s.normal_queue then
    if ((rng s.rand_calls % 100 : Nat) : Int)
        < c_int_cast (double_mul (round_double s.params.priority_ratio) 100) then
      [Call.dequeue s.priority_queue]
    else
      [Call.dequeue s.normal_queue]
  else if !is_queue_empty s.priority_queue then
    [Call.dequeue s.priority_queue]
  else if !is_queue_empty s.normal_queue then
    [Call.dequeue s.normal_queue]
  else
    []

/-- The calls `completion_dispatch` makes. -/
def completion_dispatch_calls (rng : Nat → Nat) (s : State) (window_id : Int) : List Call :=
  get_next_customer_calls rng s ++
    (if (get_next_customer rng s).1.id ≠ -1 then
      [Call.assign (get_next_customer rng s).2 window_id (get_next_customer rng s).1]
    else [])

/-- The calls the second part of `customer_arrival` makes. -/
def arrival_dispatch_calls (rng : Nat → Nat) (s : State) : List Call :=
  if find_idle_window s ≠ -1 then completion_dispatch_calls rng s (find_idle_window s)
  else []

/-- The calls the event handling makes. -/
def handle_event_calls (rng : Nat → Nat) (s : State) (e : NextEvent) : List Call :=
  if e.next_event_type = 0 then
    arrival_dispatch_calls rng (arrival_enqueue s (s.customers e.next_event_customer_index))
  else if e.next_event_type = 1 then
    Call.finish s e.next_event_window ::
      completion_dispatch_calls rng (finish_service s e.next_event_window)
        e.next_event_window
  else []

/-- The calls one pass through the loop body makes. -/
def loop_body_calls (rng : Nat → Nat) (s : State) : List Call :=
  let e := find_next_event s
  if e.next_event_type = -1 then []
  else handle_event_calls rng (advance_clock s e) e

/-- One call of `customer_arrival`, which enqueues its argument: the index of
the record handed over, the clock at the call, and the record. -/
structure Arrival where
  index : Int
  clock : ℚ
  customer : Customer

/-- The calls of `customer_arrival` the event handling makes. -/
def handle_event_arrivals (s : State) (e : NextEvent) : List Arrival :=
  if e.next_event_type = 0 then
    [{ index := e.next_event_customer_index
       clock := s.current_time
       customer := s.customers e.next_event_customer_index }]
  else []

/-- The calls of `customer_arrival` one pass through the loop body makes. -/
def loop_body_arrivals (s : State) : List Arrival :=
  let e := find_next_event s
  if e.next_event_type = -1 then []
  else handle_event_arrivals (advance_clock s e) e

/-- The customer a call hands to `assign_customer_to_window`, if it is such a call. -/
def Call.assigned : Call → List Customer
  | Call.assign _ _ customer => [customer]
  | _ => []

/-- The customers one pass through the loop body assigns to a window. -/
def loop_body_assigned (rng : Nat → Nat) (s : State) : List Customer :=
  (loop_body_calls rng s).flatMap Call.assigned

/-- The customers waiting in the two queues. -/
def waiting_customers (s : State) : List Customer :=
  s.priority_queue.nodes ++ s.normal_queue.nodes

/-- The state `s'` has the parameters of `s`, and its customer records have the
ids and arrival times they have in `s`. -/
def StaticRecords (s s' : State) : Prop :=
  s'.params = s.params
  ∧ ∀ i : Int, (s'.customers i).id = (s.customers i).id
      ∧ (s'.customers i).arrival_time = (s.customers i).arrival_time

/-- Two customers who arrive together at t = 1 and need 2 time units each, with
two windows open for a duration of 10. -/
def shared_arrival_input : State :=
  initial_state scenario_b_params [new_customer 1 1 1 2, new_customer 2 0 1 2]

/-- The customer belongs to a list of `n` customers with proper data: its id is
in `1 .. n` and its service takes a positive time. -/
def Customer.listed (c : Customer) (n : Int) : Prop :=
  1 ≤ c.id ∧ c.id ≤ n ∧ 0 < c.service_time

/-- What holds throughout a run on `n` customers with ids in `1 .. n` and
positive service times: the records, the customers waiting in the queues and
the customers being served all have such an id and service time. -/
structure ListedInv (n : Int) (s : State) : Prop where
  count_eq : s.params.customer_count = n
  wf : QueuesWF s
  records : ∀ i : Int, 0 ≤ i → i < n → (s.customers i).listed n
  waiting : ∀ c : Customer, c ∈ waiting_customers s → c.listed n
  serving : ∀ w : Int, 0 ≤ w → w < MAX_WINDOWS → (s.windows w).is_busy = true →
    (s.windows w).current_customer.listed n

/-- The customer whose record `customers[id - 1]` the call writes has an id in
`1 .. n` and a positive service time: the customer handed to
`assign_customer_to_window`, the customer of the window handed to
`finish_service`. -/
def Call.listed (n : Int) : Call → Prop
  | Call.dequeue _ => True
  | Call.assign _ _ customer => customer.listed n
  | Call.finish s window_id => (s.windows window_id).current_customer.listed n

/-! ## Theorems -/

/-! ### Queue store -/

theorem dequeue_cons (c : Customer) (rest : List Customer) (p : Int) :
    dequeue ⟨c :: rest, (rest.length : Int) + 1, p⟩ = (c, ⟨rest, rest.length, p⟩) := by
  have h : ¬ ((rest.length : Int) + 1 = 0) := by omega
  simp [dequeue, is_queue_empty, h]

theorem dequeue_wf_cons (q : Queue) (h : q.WF) (c : Customer) (rest : List Customer)
    (hn : q.nodes = c :: rest) :
    dequeue q = (c, ⟨rest, rest.length, q.priority⟩) := by
  obtain ⟨nodes, size, p⟩ := q
  simp only [Queue.WF] at h
  simp only at hn
  subst hn
  subst h
  simpa using dequeue_cons c rest p

theorem is_queue_empty_wf (q : Queue) (h : q.WF) :
    is_queue_empty q = true ↔ q.nodes = [] := by
  unfold Queue.WF at h
  simp only [is_queue_empty, beq_iff_eq, h]
  constructor
  · intro h0
    have : q.nodes.length = 0 := by exact_mod_cast h0
    exact List.length_eq_zero.mp this
  · intro h0
    simp [h0]

theorem enqueue_wf (q : Queue) (h : q.WF) (c : Customer) : (enqueue q c).WF := by
  unfold Queue.WF at *
  simp [enqueue, h]

theorem dequeue_wf (q : Queue) (h : q.WF) : (dequeue q).2.WF := by
  cases hn : q.nodes with
  | nil =>
    have he := (is_queue_empty_wf q h).mpr hn
    simpa [dequeue, he] using h
  | cons c rest =>
    rw [dequeue_wf_cons q h c rest hn]
    simp [Queue.WF]

theorem run_queue_ops_spec (ops : List QueueOp) :
    ∀ q : Queue, q.WF →
      (run_queue_ops ops q).1 ++ (run_queue_ops ops q).2.nodes = q.nodes ++ enqueued ops
      ∧ (run_queue_ops ops q).2.WF := by
  induction ops with
  | nil => intro q h; simpa [run_queue_ops, enqueued] using h
  | cons op ops ih =>
    intro q h
    cases op with
    | enq c =>
      have := ih (enqueue q c) (enqueue_wf q h c)
      simpa [run_queue_ops, enqueued, enqueue] using this
    | deq =>
      cases hn : q.nodes with
      | nil =>
        have he := (is_queue_empty_wf q h).mpr hn
        have hd : dequeue q = (Customer.zero, q) := by simp [dequeue, he]
        have := ih q h
        simpa [run_queue_ops, enqueued, he, hd, hn] using this
      | cons c rest =>
        have he : is_queue_empty q = false := by
          cases hb : is_queue_empty q with
          | false => rfl
          | true => rw [(is_queue_empty_wf q h).mp hb] at hn; cases hn
        have hd := dequeue_wf_cons q h c rest hn
        have := ih ⟨rest, rest.length, q.priority⟩ (by simp [Queue.WF])
        simpa [run_queue_ops, enqueued, he, hd] using this

/-- C10: the queue is pure FIFO.  For a queue holding `cs` (oldest first, with
`size` equal to the number of elements), `enqueue x` gives `cs ++ [x]` with size
one larger, `dequeue` on `c :: rest` returns `c` and leaves `rest` with size one
smaller, and for every sequence of enqueues and dequeues the customers handed
out, followed by those still waiting, are exactly the initial content followed
by the enqueued customers, in order: nothing is reordered, lost or duplicated. -/
theorem queue_is_fifo (cs : List Customer) (p : Int) :
    (∀ x, enqueue ⟨cs, cs.length, p⟩ x = ⟨cs ++ [x], (cs.length : Int) + 1, p⟩)
    ∧ (∀ c rest, dequeue ⟨c :: rest, (rest.length : Int) + 1, p⟩
        = (c, ⟨rest, rest.length, p⟩))
    ∧ (∀ ops,
        (run_queue_ops ops ⟨cs, cs.length, p⟩).1
            ++ (run_queue_ops ops ⟨cs, cs.length, p⟩).2.nodes = cs ++ enqueued ops
        ∧ (run_queue_ops ops ⟨cs, cs.length, p⟩).2.size
            = (run_queue_ops ops ⟨cs, cs.length, p⟩).2.nodes.length) := by
  refine ⟨fun x => rfl, fun c rest => dequeue_cons c rest p, fun ops => ?_⟩
  exact run_queue_ops_spec ops ⟨cs, cs.length, p⟩ (by simp [Queue.WF])

/-! ### Dispatcher -/

theorem is_queue_empty_cons (q : Queue) (h : q.WF) (c : Customer) (rest : List Customer)
    (hn : q.nodes = c :: rest) : is_queue_empty q = false := by
  cases hb : is_queue_empty q with
  | false => rfl
  | true => rw [(is_queue_empty_wf q h).mp hb] at hn; cases hn

/-- C9: when at most one queue is non-empty, `get_next_customer` does not look
at the random stream or at `priority_ratio`: with only the priority queue
non-empty it hands out that queue's head, with only the normal queue non-empty
it hands out that queue's head (the other queue stays empty, nothing else
changes), and with both empty it returns the record with `id = -1` and leaves the
state as it is. -/
theorem get_next_customer_uncontended (rng : Nat → Nat) (s : State)
    (c : Customer) (rest : List Customer) (p p' : Int) :
    get_next_customer rng
        { s with priority_queue := ⟨c :: rest, (rest.length : Int) + 1, p⟩
                 normal_queue := ⟨[], 0, p'⟩ }
      = (c, { s with priority_queue := ⟨rest, rest.length, p⟩
                     normal_queue := ⟨[], 0, p'⟩ })
    ∧ get_next_customer rng
        { s with priority_queue := ⟨[], 0, p'⟩
                 normal_queue := ⟨c :: rest, (rest.length : Int) + 1, p⟩ }
      = (c, { s with priority_queue := ⟨[], 0, p'⟩
                     normal_queue := ⟨rest, rest.length, p⟩ })
    ∧ (get_next_customer rng
        { s with priority_queue := ⟨[], 0, p⟩, normal_queue := ⟨[], 0, p'⟩ }).1.id = -1
    ∧ (get_next_customer rng
        { s with priority_queue := ⟨[], 0, p⟩, normal_queue := ⟨[], 0, p'⟩ }).2
      = { s with priority_queue := ⟨[], 0, p⟩, normal_queue := ⟨[], 0, p'⟩ } := by
  have h : ¬ ((rest.length : Int) + 1 = 0) := by omega
  refine ⟨?_, ?_, ?_, ?_⟩
  · simp [get_next_customer, is_queue_empty, h, dequeue_cons]
  · simp [get_next_customer, is_queue_empty, h, dequeue_cons]
  · simp [get_next_customer, is_queue_empty]
  · simp [get_next_customer, is_queue_empty]

/-! ### Frame lemmas -/

theorem get_next_customer_windows (rng : Nat → Nat) (s : State) :
    (get_next_customer rng s).2.windows = s.windows := by
  unfold get_next_customer
  split_ifs <;> rfl

theorem get_next_customer_params (rng : Nat → Nat) (s : State) :
    (get_next_customer rng s).2.params = s.params := by
  unfold get_next_customer
  split_ifs <;> rfl

theorem get_next_customer_active (rng : Nat → Nat) (s : State) :
    (get_next_customer rng s).2.active_windows = s.active_windows := by
  unfold get_next_customer
  split_ifs <;> rfl

theorem get_next_customer_time (rng : Nat → Nat) (s : State) :
    (get_next_customer rng s).2.current_time = s.current_time := by
  unfold get_next_customer
  split_ifs <;> rfl

theorem get_next_customer_customers (rng : Nat → Nat) (s : State) :
    (get_next_customer rng s).2.customers = s.customers := by
  unfold get_next_customer
  split_ifs <;> rfl

theorem credit_idle_flags (s : State) (dt : ℚ) (i : Int) :
    ((credit_idle s dt).windows i).is_open = (s.windows i).is_open
    ∧ ((credit_idle s dt).windows i).is_busy = (s.windows i).is_busy := by
  simp only [credit_idle]
  split_ifs <;> exact ⟨rfl, rfl⟩

/-! ### The window pool -/

theorem pool_inv_start (s0 : State) (hv : ValidParams s0.params) :
    PoolInv s0.params (sim_start s0) := by
  obtain ⟨h1, h2, h3, h4⟩ := hv
  refine ⟨rfl, h2, h3, ?_, ?_⟩
  · intro i hi0 hi
    simp only [sim_start, init_windows]
    rw [if_pos ⟨hi0, hi⟩]
    intro ho
    have : i < s0.params.initial_windows := by simpa using ho
    omega
  · intro i hi0 hi
    simp only [sim_start, init_windows]
    rw [if_pos ⟨hi0, hi⟩]
    intro hb
    simp at hb

theorem pool_inv_credit (p : SimulationParams) (s : State) (dt : ℚ) (t : ℚ)
    (h : PoolInv p s) : PoolInv p { credit_idle s dt with current_time := t } := by
  refine ⟨h.params_eq, h.min_le, h.le_max, ?_, ?_⟩
  · intro i hi0 hi ho
    have hf := credit_idle_flags s dt i
    exact h.open_lt_max i hi0 hi (hf.1 ▸ ho)
  · intro i hi0 hi hb
    have hf := credit_idle_flags s dt i
    have := h.busy_open i hi0 hi (hf.2 ▸ hb)
    exact hf.1.trans this

theorem pool_inv_enqueue (p : SimulationParams) (s : State) (c : Customer)
    (h : PoolInv p s) : PoolInv p (arrival_enqueue s c) := by
  unfold arrival_enqueue
  split_ifs
  · exact ⟨h.params_eq, h.min_le, h.le_max, h.open_lt_max, h.busy_open⟩
  · exact ⟨h.params_eq, h.min_le, h.le_max, h.open_lt_max, h.busy_open⟩

theorem pool_inv_dequeue (p : SimulationParams) (rng : Nat → Nat) (s : State)
    (h : PoolInv p s) : PoolInv p (get_next_customer rng s).2 := by
  refine ⟨?_, ?_, ?_, ?_, ?_⟩
  · rw [get_next_customer_params]; exact h.params_eq
  · rw [get_next_customer_active]; exact h.min_le
  · rw [get_next_customer_active]; exact h.le_max
  · rw [get_next_customer_windows]; exact h.open_lt_max
  · rw [get_next_customer_windows]; exact h.busy_open

theorem pool_inv_assign (p : SimulationParams) (s : State) (w : Int) (c : Customer)
    (h : PoolInv p s) (ho : (s.windows w).is_open = true) :
    PoolInv p (assign_customer_to_window s w c) := by
  unfold assign_customer_to_window
  split_ifs with hw
  · refine ⟨h.params_eq, h.min_le, h.le_max, ?_, ?_⟩
    · intro i hi0 hi hopen
      by_cases hiw : i = w
      · subst hiw
        exact h.open_lt_max i hi0 hi ho
      · simp only [Function.update_noteq hiw] at hopen
        exact h.open_lt_max i hi0 hi hopen
    · intro i hi0 hi hb
      by_cases hiw : i = w
      · subst hiw
        simpa using ho
      · simp only [Function.update_noteq hiw] at hb ⊢
        exact h.busy_open i hi0 hi hb
  · exact h

theorem pool_inv_finish (p : SimulationParams) (s : State) (w : Int)
    (h : PoolInv p s) : PoolInv p (finish_service s w) := by
  unfold finish_service
  split_ifs with hw
  · refine ⟨h.params_eq, h.min_le, h.le_max, ?_, ?_⟩
    · intro i hi0 hi hopen
      by_cases hiw : i = w
      · subst hiw
        simp only [Function.update_same] at hopen
        exact h.open_lt_max i hi0 hi hopen
      · simp only [Function.update_noteq hiw] at hopen
        exact h.open_lt_max i hi0 hi hopen
    · intro i hi0 hi hb
      by_cases hiw : i = w
      · subst hiw
        simp at hb
      · simp only [Function.update_noteq hiw] at hb ⊢
        exact h.busy_open i hi0 hi hb
  · exact h

theorem pool_inv_open (p : SimulationParams) (s : State) (i : Int)
    (h : PoolInv p s) (hi : i < p.max_windows) : PoolInv p (open_window s i) := by
  have hp := h.params_eq
  unfold open_window
  split_ifs with hc
  · obtain ⟨_, _, hlt⟩ := hc
    rw [hp] at hlt
    refine ⟨hp, ?_, ?_, ?_, ?_⟩
    · have := h.min_le
      show p.min_windows ≤ s.active_windows + 1
      omega
    · show s.active_windows + 1 ≤ p.max_windows
      omega
    · intro j hj0 hj hopen
      by_cases hji : j = i
      · subst hji; exact hi
      · simp only [Function.update_noteq hji] at hopen
        exact h.open_lt_max j hj0 hj hopen
    · intro j hj0 hj hb
      by_cases hji : j = i
      · subst hji; simp
      · simp only [Function.update_noteq hji] at hb ⊢
        exact h.busy_open j hj0 hj hb
  · exact h

theorem pool_inv_close (p : SimulationParams) (s : State) (i : Int)
    (h : PoolInv p s) : PoolInv p (close_window s i) := by
  have hp := h.params_eq
  unfold close_window
  split_ifs with hc
  · obtain ⟨_, _, hidle, hgt⟩ := hc
    rw [hp] at hgt
    refine ⟨hp, ?_, ?_, ?_, ?_⟩
    · show p.min_windows ≤ s.active_windows - 1
      omega
    · have := h.le_max
      show s.active_windows - 1 ≤ p.max_windows
      omega
    · intro j hj0 hj hopen
      by_cases hji : j = i
      · subst hji; simp at hopen
      · simp only [Function.update_noteq hji] at hopen
        exact h.open_lt_max j hj0 hj hopen
    · intro j hj0 hj hb
      by_cases hji : j = i
      · subst hji
        simp only [Function.update_same] at hb
        rw [hidle] at hb
        cases hb
      · simp only [Function.update_noteq hji] at hb ⊢
        exact h.busy_open j hj0 hj hb
  · exact h

theorem pool_inv_reached (rng : Nat → Nat) (s0 : State) (hv : ValidParams s0.params)
    (s : State) (hr : Reached rng s0 s) : PoolInv s0.params s := by
  induction hr with
  | start => exact pool_inv_start s0 hv
  | drained s _ ih => exact pool_inv_credit _ s _ _ ih
  | advanced s e _ ih => exact pool_inv_credit _ s _ _ ih
  | enqueued s c _ ih => exact pool_inv_enqueue _ s c ih
  | dequeued s _ ih => exact pool_inv_dequeue _ rng s ih
  | assigned s w c _ ho _ ih => exact pool_inv_assign _ s w c ih ho
  | finished s w _ ih => exact pool_inv_finish _ s w ih
  | opened s i _ _ hi ih => exact pool_inv_open _ s i ih (ih.params_eq ▸ hi)
  | closed s i _ ih => exact pool_inv_close _ s i ih

/-! ### Scans -/

theorem foldl_inv {α β : Type} (P : β → Prop) (f : β → α → β) (l : List α) :
    ∀ b : β, P b → (∀ b a, a ∈ l → P b → P (f b a)) → P (l.foldl f b) := by
  induction l with
  | nil => intro b h _; exact h
  | cons x xs ih =>
    intro b h hstep
    simp only [List.foldl_cons]
    apply ih
    · exact hstep b x (List.mem_cons_self x xs) h
    · intro b' a ha hb'
      exact hstep b' a (List.mem_cons_of_mem x ha) hb'

theorem find_range_int (n : Nat) (P : Int → Bool) :
    (∀ k : Nat, (List.range n).find? (fun (i : Nat) => P i) = some k →
        IsLowest n (fun i => P i = true) k)
    ∧ ((List.range n).find? (fun (i : Nat) => P i) = none →
        ∀ i : Int, 0 ≤ i → i < n → P i = false) := by
  constructor
  · intro k hk
    rw [List.find?_range_eq_some] at hk
    obtain ⟨hpk, hmem, hlow⟩ := hk
    refine ⟨by omega, ?_, hpk, ?_⟩
    · have := List.mem_range.mp hmem
      exact_mod_cast this
    · intro j hj0 hjk hpj
      have h1 : j.toNat < k := by omega
      have h2 := hlow j.toNat h1
      have h3 : ((j.toNat : Nat) : Int) = j := by omega
      rw [h3, hpj] at h2
      simp at h2
  · intro hnone i hi0 hi
    rw [List.find?_range_eq_none] at hnone
    have h1 : i.toNat < n := by omega
    have h2 := hnone i.toNat h1
    have h3 : ((i.toNat : Nat) : Int) = i := by omega
    rw [h3] at h2
    simpa using h2

theorem isLowest_unique (n m : Int) (p : Int → Prop) (i k : Int)
    (hi : IsLowest n p i) (hk : IsLowest m p k) : i = k := by
  obtain ⟨hi0, _, hpi, hli⟩ := hi
  obtain ⟨hk0, _, hpk, hlk⟩ := hk
  by_contra hne
  rcases lt_or_gt_of_ne hne with h | h
  · exact hlk i hi0 h hpi
  · exact hli k hk0 h hpk

theorem scan_arrivals_ok (s : State) (e : NextEvent)
    (h : e.next_event_type = -1 ∨ EventOK s e) (h1 : e.next_event_type ≠ 1) :
    EventOK s (scan_arrivals s e) ∧ (scan_arrivals s e).next_event_type ≠ 1 := by
  unfold scan_arrivals
  apply foldl_inv (fun e => EventOK s e ∧ e.next_event_type ≠ 1)
  · refine ⟨?_, h1⟩
    rcases h with h | h
    · exact Or.inl h
    · exact h
  · intro b a ha hb
    have han := List.mem_range.mp ha
    split_ifs with hc
    · refine ⟨Or.inr (Or.inl ⟨rfl, hc.1, ?_, ?_, rfl⟩), by simp⟩
      · exact Int.natCast_nonneg a
      · show (a : Int) < s.params.customer_count
        omega
    · exact hb

theorem scan_completions_ok (s : State) (e : NextEvent) (h : EventOK s e) :
    EventOK s (scan_completions s e) := by
  unfold scan_completions
  apply foldl_inv (fun e => EventOK s e)
  · exact h
  · intro b a ha hb
    have han := List.mem_range.mp ha
    dsimp only
    split_ifs with hbusy hc
    · refine Or.inr (Or.inr ⟨rfl, hc.1, ?_, ?_, hbusy, rfl⟩)
      · exact Int.natCast_nonneg a
      · show (a : Int) < (MAX_WINDOWS : Int)
        exact_mod_cast han
    · exact hb
    · exact hb

theorem find_next_event_ok (s : State) : EventOK s (find_next_event s) := by
  unfold find_next_event
  apply scan_completions_ok
  exact (scan_arrivals_ok s _ (Or.inl rfl) (by simp)).1

/-! ### The loop body stays within the reached states -/

theorem find_idle_window_spec (s : State) :
    find_idle_window s = -1
    ∨ IsLowest MAX_WINDOWS
        (fun i => ((s.windows i).is_open && !(s.windows i).is_busy) = true)
        (find_idle_window s) := by
  have hf := find_range_int MAX_WINDOWS
    (fun i => (s.windows i).is_open && !(s.windows i).is_busy)
  unfold find_idle_window
  cases h : (List.range MAX_WINDOWS).find?
      (fun (i : Nat) => (s.windows i).is_open && !(s.windows i).is_busy) with
  | none => exact Or.inl rfl
  | some k => exact Or.inr (hf.1 k h)

theorem adjust_windows_cases (s : State) :
    adjust_windows s = s
    ∨ (∃ i : Int, 0 ≤ i ∧ i < s.params.max_windows ∧ adjust_windows s = open_window s i)
    ∨ (∃ i : Int, adjust_windows s = close_window s i) := by
  have hf := find_range_int s.params.max_windows.toNat (fun i => !(s.windows i).is_open)
  unfold adjust_windows
  dsimp only
  split_ifs with h1 h2
  · cases h : (List.range s.params.max_windows.toNat).find?
        (fun (i : Nat) => !(s.windows i).is_open) with
    | none => exact Or.inl rfl
    | some k =>
      obtain ⟨hk0, hk, _, _⟩ := hf.1 k h
      refine Or.inr (Or.inl ⟨k, hk0, ?_, rfl⟩)
      omega
  · cases h : (List.range s.params.max_windows.toNat).find?
        (fun (i : Nat) => (s.windows i).is_open && !(s.windows i).is_busy) with
    | none => exact Or.inl rfl
    | some k => exact Or.inr (Or.inr ⟨k, rfl⟩)
  · exact Or.inl rfl

theorem reached_adjust (rng : Nat → Nat) (s0 s : State) (h : Reached rng s0 s) :
    Reached rng s0 (adjust_windows s) := by
  rcases adjust_windows_cases s with he | ⟨i, hi0, hi, he⟩ | ⟨i, he⟩
  · rw [he]; exact h
  · rw [he]; exact Reached.opened s i h hi0 hi
  · rw [he]; exact Reached.closed s i h

theorem reached_arrival_dispatch (rng : Nat → Nat) (s0 s : State)
    (h : Reached rng s0 s) : Reached rng s0 (arrival_dispatch rng s) := by
  unfold arrival_dispatch
  dsimp only
  split_ifs with h1 h2
  · rcases find_idle_window_spec s with hn | ⟨_, _, hp, _⟩
    · exact absurd hn h1
    · simp only [Bool.and_eq_true, Bool.not_eq_true'] at hp
      apply Reached.assigned _ _ _ (Reached.dequeued s h)
      · rw [get_next_customer_windows]; exact hp.1
      · rw [get_next_customer_windows]; exact hp.2
  · exact Reached.dequeued s h
  · exact h

theorem finish_service_flags (s : State) (w : Int) (i : Int) :
    ((finish_service s w).windows i).is_open = (s.windows i).is_open
    ∧ (i ≠ w → ((finish_service s w).windows i) = (s.windows i))
    ∧ (0 ≤ w → w < MAX_WINDOWS → ((finish_service s w).windows w).is_busy = false) := by
  unfold finish_service
  split_ifs with hc
  · refine ⟨?_, ?_, ?_⟩
    · by_cases hiw : i = w
      · subst hiw; simp
      · simp [Function.update_noteq hiw]
    · intro hiw
      simp [Function.update_noteq hiw]
    · intro _ _
      simp
  · refine ⟨rfl, fun _ => rfl, ?_⟩
    intro h0 h1
    cases hb : (s.windows w).is_busy with
    | false => rfl
    | true => exact absurd ⟨h0, h1, hb⟩ hc

theorem reached_completion (rng : Nat → Nat) (s0 s : State) (w : Int)
    (hv : ValidParams s0.params) (h : Reached rng s0 s)
    (hw0 : 0 ≤ w) (hw : w < MAX_WINDOWS) (hb : (s.windows w).is_busy = true) :
    Reached rng s0 (completion_dispatch rng (finish_service s w) w) := by
  have hinv := pool_inv_reached rng s0 hv s h
  have hopen := hinv.busy_open w hw0 hw hb
  have hfl := finish_service_flags s w w
  have hf := Reached.finished s w h
  unfold completion_dispatch
  dsimp only
  split_ifs with h1
  · apply Reached.assigned _ _ _ (Reached.dequeued _ hf)
    · rw [get_next_customer_windows, hfl.1]; exact hopen
    · rw [get_next_customer_windows]; exact hfl.2.2 hw0 hw
  · exact Reached.dequeued _ hf

theorem reached_loop_body (rng : Nat → Nat) (s0 s : State)
    (hv : ValidParams s0.params) (h : Reached rng s0 s) :
    Reached rng s0 (loop_body rng s).1 := by
  unfold loop_body
  dsimp only
  split_ifs with h1
  · exact Reached.drained s h
  · have hadv := Reached.advanced s (find_next_event s) h
    unfold handle_event
    split_ifs with h0 h2
    · unfold customer_arrival
      exact reached_adjust rng s0 _
        (reached_arrival_dispatch rng s0 _ (Reached.enqueued _ _ hadv))
    · apply reached_adjust
      rcases find_next_event_ok s with hm | ⟨ht, _⟩ | ⟨_, _, hw0, hw, hb, _⟩
      · exact absurd hm h1
      · exact absurd ht h0
      · apply reached_completion rng s0 _ _ hv hadv hw0 hw
        have := (credit_idle_flags s ((find_next_event s).next_event_time - s.current_time)
          (find_next_event s).next_event_window).2
        exact this.trans hb
    · exact hadv

theorem reached_after_iterations (rng : Nat → Nat) (s0 : State)
    (hv : ValidParams s0.params) (k : Nat) :
    ∀ s, Reached rng s0 s → Reached rng s0 (after_iterations rng k s) := by
  induction k with
  | zero => intro s h; exact h
  | succ k ih =>
    intro s h
    unfold after_iterations
    split_ifs
    · exact ih _ (reached_loop_body rng s0 s hv h)
    · exact h

/-- C3: with `1 ≤ min_windows ≤ initial_windows ≤ max_windows ≤ 20`, the counter
`active_windows` stays within `[min_windows, max_windows]`: after
`init_windows`, in every state the run passes through (so after every call of
`open_window`, `close_window` and `adjust_windows` it makes), and at the loop
test after any number of iterations. -/
theorem active_windows_within_bounds (rng : Nat → Nat) (s0 : State)
    (hv : ValidParams s0.params) :
    ((init_windows s0).params.min_windows ≤ (init_windows s0).active_windows
      ∧ (init_windows s0).active_windows ≤ (init_windows s0).params.max_windows)
    ∧ (∀ s, Reached rng s0 s →
        (s.params.min_windows ≤ s.active_windows
          ∧ s.active_windows ≤ s.params.max_windows)
        ∧ (∀ i : Int,
            (open_window s i).params.min_windows ≤ (open_window s i).active_windows
            ∧ (open_window s i).active_windows ≤ (open_window s i).params.max_windows)
        ∧ (∀ i : Int,
            (close_window s i).params.min_windows ≤ (close_window s i).active_windows
            ∧ (close_window s i).active_windows ≤ (close_window s i).params.max_windows)
        ∧ ((adjust_windows s).params.min_windows ≤ (adjust_windows s).active_windows
            ∧ (adjust_windows s).active_windows ≤ (adjust_windows s).params.max_windows))
    ∧ (∀ k : Nat,
        (after_iterations rng k (sim_start s0)).params.min_windows
            ≤ (after_iterations rng k (sim_start s0)).active_windows
        ∧ (after_iterations rng k (sim_start s0)).active_windows
            ≤ (after_iterations rng k (sim_start s0)).params.max_windows) := by
  have key : ∀ s, Reached rng s0 s →
      s.params.min_windows ≤ s.active_windows ∧ s.active_windows ≤ s.params.max_windows := by
    intro s h
    have hinv := pool_inv_reached rng s0 hv s h
    rw [hinv.params_eq]
    exact ⟨hinv.min_le, hinv.le_max⟩
  refine ⟨?_, ?_, ?_⟩
  · have h := key (sim_start s0) Reached.start
    exact h
  · intro s h
    refine ⟨key s h, ?_, ?_, ?_⟩
    · intro i
      have hb := key s h
      unfold open_window
      split_ifs with hc
      · obtain ⟨_, _, hlt⟩ := hc
        show s.params.min_windows ≤ s.active_windows + 1
          ∧ s.active_windows + 1 ≤ s.params.max_windows
        omega
      · exact hb
    · intro i
      exact key _ (Reached.closed s i h)
    · exact key _ (reached_adjust rng s0 s h)
  · intro k
    exact key _ (reached_after_iterations rng s0 hv k _ Reached.start)

/-- Witness for C3: the demonstration parameters. -/
theorem active_windows_within_bounds_witness :
    ValidParams (initial_state (demo_params (7 / 10)) []).params
    ∧ ∀ k : Nat,
      (after_iterations (fun _ => 0) k
          (sim_start (initial_state (demo_params (7 / 10)) []))).params.min_windows
        ≤ (after_iterations (fun _ => 0) k
          (sim_start (initial_state (demo_params (7 / 10)) []))).active_windows
      ∧ (after_iterations (fun _ => 0) k
          (sim_start (initial_state (demo_params (7 / 10)) []))).active_windows
        ≤ (after_iterations (fun _ => 0) k
          (sim_start (initial_state (demo_params (7 / 10)) []))).params.max_windows :=
  ⟨by decide,
   (active_windows_within_bounds (fun _ => 0) (initial_state (demo_params (7 / 10)) [])
      (by decide)).2.2⟩

/-! ### The scaler -/

theorem isLowest_congr (n : Int) (p q : Int → Prop) (i : Int)
    (h : ∀ j, p j ↔ q j) (hi : IsLowest n p i) : IsLowest n q i := by
  obtain ⟨h0, h1, h2, h3⟩ := hi
  exact ⟨h0, h1, (h i).mp h2, fun j hj0 hj hq => h3 j hj0 hj ((h j).mpr hq)⟩

theorem open_window_changes (s : State) (i j : Int)
    (h : (open_window s i).windows j ≠ s.windows j) : j = i := by
  by_contra hne
  apply h
  unfold open_window
  split_ifs
  · simp [Function.update_noteq hne]
  · rfl

theorem close_window_changes (s : State) (i j : Int)
    (h : (close_window s i).windows j ≠ s.windows j) : j = i := by
  by_contra hne
  apply h
  unfold close_window
  split_ifs
  · simp [Function.update_noteq hne]
  · rfl

theorem adjust_windows_open_branch (s : State) (hmax : s.params.max_windows ≤ MAX_WINDOWS)
    (hq : queue_size s.normal_queue + queue_size s.priority_queue > s.params.open_threshold) :
    (∀ i, s.active_windows < s.params.max_windows →
        IsLowest s.params.max_windows (fun j => (s.windows j).is_open = false) i →
        adjust_windows s = with_window_opened s i)
    ∧ ((¬ s.active_windows < s.params.max_windows
        ∨ ∀ j : Int, 0 ≤ j → j < s.params.max_windows → (s.windows j).is_open = true) →
        adjust_windows s = s) := by
  have hf := find_range_int s.params.max_windows.toNat (fun i => !(s.windows i).is_open)
  have hadj : adjust_windows s =
      match (List.range s.params.max_windows.toNat).find?
          (fun (i : Nat) => !(s.windows i).is_open) with
      | some i => open_window s i
      | none => s := by
    unfold adjust_windows
    dsimp only
    rw [if_pos hq]
  rw [hadj]
  cases h : (List.range s.params.max_windows.toNat).find?
      (fun (i : Nat) => !(s.windows i).is_open) with
  | none =>
    refine ⟨?_, fun _ => rfl⟩
    intro i _ hi
    obtain ⟨hi0, hi1, hclosed, _⟩ := hi
    have := hf.2 h i hi0 (by omega)
    simp only [hclosed] at this
    simp at this
  | some k =>
    have hk := isLowest_congr _ _ (fun j => (s.windows j).is_open = false) _
      (fun j => by simp) (hf.1 k h)
    constructor
    · intro i hact hi
      have hik := isLowest_unique _ _ _ _ _ hi hk
      subst hik
      obtain ⟨_, hi1, hclosed, _⟩ := hi
      show open_window s k = with_window_opened s k
      unfold open_window with_window_opened
      rw [if_pos ⟨by omega, hclosed, hact⟩]
    · intro hor
      show open_window s k = s
      rcases hor with hn | hall
      · unfold open_window
        rw [if_neg (fun hc => hn hc.2.2)]
      · obtain ⟨hk0, hk1, hclosed, _⟩ := hk
        have := hall k hk0 (by omega)
        rw [hclosed] at this
        cases this

theorem adjust_windows_close_branch (p : SimulationParams) (s : State)
    (hinv : PoolInv p s) (hmax : p.max_windows ≤ MAX_WINDOWS)
    (hq : ¬ queue_size s.normal_queue + queue_size s.priority_queue > s.params.open_threshold)
    (hq2 : queue_size s.normal_queue + queue_size s.priority_queue < s.params.close_threshold) :
    (∀ i, s.active_windows > s.params.min_windows →
        IsLowest MAX_WINDOWS
          (fun j => (s.windows j).is_open = true ∧ (s.windows j).is_busy = false) i →
        adjust_windows s = with_window_closed s i)
    ∧ ((¬ s.active_windows > s.params.min_windows
        ∨ ∀ j : Int, 0 ≤ j → j < MAX_WINDOWS →
            ¬ ((s.windows j).is_open = true ∧ (s.windows j).is_busy = false)) →
        adjust_windows s = s) := by
  have hp := hinv.params_eq
  have hf := find_range_int s.params.max_windows.toNat
    (fun i => (s.windows i).is_open && !(s.windows i).is_busy)
  have hadj : adjust_windows s =
      match (List.range s.params.max_windows.toNat).find?
          (fun (i : Nat) => (s.windows i).is_open && !(s.windows i).is_busy) with
      | some i => close_window s i
      | none => s := by
    unfold adjust_windows
    dsimp only
    rw [if_neg hq, if_pos hq2]
  rw [hadj]
  cases h : (List.range s.params.max_windows.toNat).find?
      (fun (i : Nat) => (s.windows i).is_open && !(s.windows i).is_busy) with
  | none =>
    refine ⟨?_, fun _ => rfl⟩
    intro i _ hi
    obtain ⟨hi0, hi1, ⟨hopen, hidle⟩, _⟩ := hi
    have hlt := hinv.open_lt_max i hi0 hi1 hopen
    rw [← hp] at hlt
    have := hf.2 h i hi0 (by omega)
    simp only [hopen, hidle] at this
    simp at this
  | some k =>
    have hk := isLowest_congr _ _
      (fun j => (s.windows j).is_open = true ∧ (s.windows j).is_busy = false) _
      (fun j => by simp) (hf.1 k h)
    have hk20 : (k : Int) < MAX_WINDOWS := by
      obtain ⟨_, hk1, _, _⟩ := hk
      rw [hp] at hk1
      omega
    constructor
    · intro i hact hi
      have hik := isLowest_unique _ _ _ _ _ hi hk
      subst hik
      obtain ⟨_, hi1, ⟨hopen, hidle⟩, _⟩ := hi
      show close_window s k = with_window_closed s k
      unfold close_window with_window_closed
      rw [if_pos ⟨hi1, hopen, hidle, hact⟩]
    · intro hor
      show close_window s k = s
      rcases hor with hn | hall
      · unfold close_window
        rw [if_neg (fun hc => hn hc.2.2.2)]
      · obtain ⟨hk0, _, hoi, _⟩ := hk
        exact absurd hoi (hall k hk0 hk20)

/-- C4: in every state a run passes through, `adjust_windows` acts as follows,
with `q` the combined queue length.  If `q > open_threshold`: it opens the
lowest-id closed window among `0 .. max_windows-1` when `active_windows <
max_windows`, and changes nothing when the count is at the maximum or no such
window is closed.  Otherwise, if `q < close_threshold`: it closes the lowest-id
open idle window when `active_windows > min_windows`, and changes nothing when
the count is at the minimum or no window is open and idle.  Otherwise it changes
nothing.  In all cases at most one window record changes. -/
theorem adjust_windows_spec (rng : Nat → Nat) (s0 s : State)
    (hv : ValidParams s0.params) (hr : Reached rng s0 s) :
    (queue_size s.normal_queue + queue_size s.priority_queue > s.params.open_threshold →
      (∀ i, s.active_windows < s.params.max_windows →
          IsLowest s.params.max_windows (fun j => (s.windows j).is_open = false) i →
          adjust_windows s = with_window_opened s i)
      ∧ ((¬ s.active_windows < s.params.max_windows
          ∨ ∀ j : Int, 0 ≤ j → j < s.params.max_windows → (s.windows j).is_open = true) →
          adjust_windows s = s))
    ∧ (¬ queue_size s.normal_queue + queue_size s.priority_queue > s.params.open_threshold →
        queue_size s.normal_queue + queue_size s.priority_queue < s.params.close_threshold →
      (∀ i, s.active_windows > s.params.min_windows →
          IsLowest MAX_WINDOWS
            (fun j => (s.windows j).is_open = true ∧ (s.windows j).is_busy = false) i →
          adjust_windows s = with_window_closed s i)
      ∧ ((¬ s.active_windows > s.params.min_windows
          ∨ ∀ j : Int, 0 ≤ j → j < MAX_WINDOWS →
              ¬ ((s.windows j).is_open = true ∧ (s.windows j).is_busy = false)) →
          adjust_windows s = s))
    ∧ (¬ queue_size s.normal_queue + queue_size s.priority_queue > s.params.open_threshold →
        ¬ queue_size s.normal_queue + queue_size s.priority_queue < s.params.close_threshold →
        adjust_windows s = s)
    ∧ (∀ i j : Int, (adjust_windows s).windows i ≠ s.windows i →
        (adjust_windows s).windows j ≠ s.windows j → i = j) := by
  have hinv := pool_inv_reached rng s0 hv s hr
  have hmax : s0.params.max_windows ≤ MAX_WINDOWS := hv.2.2.2
  refine ⟨?_, ?_, ?_, ?_⟩
  · intro hq
    exact adjust_windows_open_branch s (hinv.params_eq ▸ hmax) hq
  · intro hq hq2
    exact adjust_windows_close_branch _ s hinv hmax hq hq2
  · intro hq hq2
    unfold adjust_windows
    dsimp only
    rw [if_neg hq, if_neg hq2]
  · intro i j hi hj
    rcases adjust_windows_cases s with he | ⟨k, _, _, he⟩ | ⟨k, he⟩
    · rw [he] at hi; exact absurd rfl hi
    · rw [he] at hi hj
      rw [open_window_changes s k i hi, open_window_changes s k j hj]
    · rw [he] at hi hj
      rw [close_window_changes s k i hi, close_window_changes s k j hj]

theorem scenario_c_reached :
    Reached (fun _ => 0) scenario_c_input scenario_c_state :=
  reached_arrival_dispatch _ _ _
    (Reached.enqueued _ _
      (Reached.advanced _ _
        (reached_after_iterations _ _ (by decide) 4 _ Reached.start)))

/-- Witness for C4 (Scenario C): thresholds 3 and 1, `min_windows = 1`,
`max_windows = 2`, window 0 open, four customers waiting: the call opens
window 1 and nothing else. -/
theorem adjust_windows_spec_witness :
    queue_size scenario_c_state.normal_queue + queue_size scenario_c_state.priority_queue = 4
    ∧ scenario_c_state.active_windows = 1
    ∧ adjust_windows scenario_c_state = with_window_opened scenario_c_state 1 :=
  ⟨by decide!, by decide!,
   ((adjust_windows_spec (fun _ => 0) scenario_c_input scenario_c_state (by decide)
      scenario_c_reached).1 (by decide!)).1 1 (by decide!)
      ⟨by decide, by decide!, by decide!, fun j h0 h1 => by
        have hj : j = 0 := by omega
        subst hj
        decide!⟩⟩

/-! ### Scenarios -/

/-- C5 (Scenario A) on the code: the run ends, but customer 1, who arrives at
t = 0, is never taken into a queue or served (its record is untouched);
customer 2 starts at t = 1 instead of 5 and customer 3 at t = 6 instead of 10. -/
theorem scenario_a_run :
    (run_simulation (fun _ => 0) 10 scenario_a_input).map
        (fun s => ((s.customers 0).start_time, (s.customers 0).finish_time,
                   (s.customers 0).served_by))
      = some (0, 0, -1)
    ∧ (run_simulation (fun _ => 0) 10 scenario_a_input).map
        (fun s => ((s.customers 1).start_time, (s.customers 1).finish_time))
      = some (1, 6)
    ∧ (run_simulation (fun _ => 0) 10 scenario_a_input).map
        (fun s => ((s.customers 2).start_time, (s.customers 2).finish_time))
      = some (6, 11) := by
  decide!

/-- C6 (Scenario B) on the code: the run ends at t = 10 with neither customer
ever assigned: both records are untouched and no window has served anyone. -/
theorem scenario_b_run :
    (run_simulation (fun _ => 0) 10 scenario_b_input).map
        (fun s => ((s.customers 0).finish_time, (s.customers 0).served_by))
      = some (0, -1)
    ∧ (run_simulation (fun _ => 0) 10 scenario_b_input).map
        (fun s => ((s.customers 1).finish_time, (s.customers 1).served_by))
      = some (0, -1)
    ∧ (run_simulation (fun _ => 0) 10 scenario_b_input).map
        (fun s => ((s.windows 0).served_count, (s.windows 1).served_count,
                   s.current_time))
      = some (0, 0, 10) := by
  decide!

/-- C7 (as stated) fails: with duration 10 and the only customer arriving at
t = 10.5 (not before the duration has elapsed), the first iteration does not take
the drained path; the run ends at `current_time = 10.5` and the open window has
`total_idle_time = 10.5`. -/
theorem scenario_d_counterexample :
    (∀ i : Int, 0 ≤ i → i < scenario_d_input.params.customer_count →
        (scenario_d_input.params.simulation_time : ℚ)
          ≤ (scenario_d_input.customers i).arrival_time)
    ∧ (loop_body (fun _ => 0) (sim_start scenario_d_input)).2 = false
    ∧ (run_simulation (fun _ => 0) 10 scenario_d_input).map
        (fun s => (s.current_time, (s.windows 0).is_open, (s.windows 0).total_idle_time))
      = some (21 / 2, true, 21 / 2) := by
  refine ⟨?_, by decide!, by decide!⟩
  intro i h0 h1
  have hi : i = 0 := by
    have : scenario_d_input.params.customer_count = 1 := rfl
    omega
  subst hi
  decide!

theorem foldl_fixed {α β : Type} (f : β → α → β) (l : List α) (b : β)
    (h : ∀ a, a ∈ l → f b a = b) : l.foldl f b = b := by
  induction l with
  | nil => rfl
  | cons x xs ih =>
    simp only [List.foldl_cons]
    rw [h x (List.mem_cons_self x xs)]
    exact ih (fun a ha => h a (List.mem_cons_of_mem x ha))

theorem scan_arrivals_none (s : State) (e : NextEvent)
    (h : ∀ i : Int, 0 ≤ i → i < s.params.customer_count →
      ¬ ((s.customers i).arrival_time > s.current_time
          ∧ (s.customers i).arrival_time < e.next_event_time)) :
    scan_arrivals s e = e := by
  unfold scan_arrivals
  apply foldl_fixed
  intro a ha
  have han := List.mem_range.mp ha
  have := h a (Int.natCast_nonneg a) (by omega)
  exact if_neg this

theorem scan_completions_none (s : State) (e : NextEvent)
    (h : ∀ i : Int, 0 ≤ i → i < MAX_WINDOWS → (s.windows i).is_busy = false) :
    scan_completions s e = e := by
  unfold scan_completions
  apply foldl_fixed
  intro a ha
  have han := List.mem_range.mp ha
  have := h a (Int.natCast_nonneg a) (by exact_mod_cast han)
  dsimp only
  rw [if_neg (by simp [this])]

theorem stats_fold_served_zero (s : State) (l : List Nat)
    (h : ∀ i : Nat, i ∈ l → (s.customers i).finish_time = 0) :
    l.foldl (stats_customer s) Statistics.zero = Statistics.zero := by
  apply foldl_fixed
  intro a ha
  unfold stats_customer
  rw [if_neg (by rw [h a ha]; exact lt_irrefl 0)]

/-- C7 (as amended, Scenario D): started at time 0 with duration `T > 0`, cleared
customer records and every arrival time at least `T + 1`, the first iteration
takes the drained path and the run ends there with `current_time = T`; every
open window has `total_idle_time = T` and `total_busy_time = 0`, and
`calculate_statistics` then reports `total_served = 0` and `throughput = 0`. -/
theorem no_arrival_run_drains (rng : Nat → Nat) (s : State) (fuel : Nat)
    (hT : 0 < s.params.simulation_time) (h0 : s.current_time = 0)
    (harr : ∀ i : Int, 0 ≤ i → i < s.params.customer_count →
      (s.params.simulation_time : ℚ) + 1 ≤ (s.customers i).arrival_time)
    (hfresh : ∀ i : Int, 0 ≤ i → i < s.params.customer_count →
      (s.customers i).finish_time = 0) :
    (loop_body rng (sim_start s)).2 = true
    ∧ run_simulation rng (fuel + 1) s = some (drain (sim_start s))
    ∧ (drain (sim_start s)).current_time = s.params.simulation_time
    ∧ (∀ i : Int, 0 ≤ i → i < MAX_WINDOWS →
        ((drain (sim_start s)).windows i).is_open = true →
        ((drain (sim_start s)).windows i).total_idle_time = s.params.simulation_time
        ∧ ((drain (sim_start s)).windows i).total_busy_time = 0)
    ∧ (calculate_statistics (drain (sim_start s))).stats.total_served = 0
    ∧ (calculate_statistics (drain (sim_start s))).stats.throughput = 0 := by
  have hTq : (0 : ℚ) < s.params.simulation_time := by exact_mod_cast hT
  have hidle : ∀ i : Int, 0 ≤ i → i < MAX_WINDOWS →
      ((sim_start s).windows i).is_busy = false := by
    intro i hi0 hi
    simp only [sim_start, init_windows]
    rw [if_pos ⟨hi0, hi⟩]
  have hev : find_next_event (sim_start s) =
      { next_event_time := s.params.simulation_time + 1, next_event_type := -1,
        next_event_window := -1, next_event_customer_index := -1 } := by
    unfold find_next_event
    rw [scan_arrivals_none, scan_completions_none _ _ hidle]
    · rfl
    · intro i hi0 hi hc
      have h1 := harr i hi0 hi
      have h2 : (s.customers i).arrival_time < (s.params.simulation_time : ℚ) + 1 := hc.2
      exact absurd h1 (not_le.mpr h2)
  have hbody : loop_body rng (sim_start s) = (drain (sim_start s), true) := by
    unfold loop_body
    dsimp only
    rw [hev]
    rfl
  have hcond : (sim_start s).current_time < (sim_start s).params.simulation_time := by
    show s.current_time < (s.params.simulation_time : ℚ)
    rw [h0]; exact hTq
  refine ⟨by rw [hbody], ?_, rfl, ?_, ?_⟩
  · unfold run_simulation run_loop
    rw [if_pos hcond, hbody]
    rfl
  · intro i hi0 hi hopen
    have hop : ((sim_start s).windows i).is_open = true := by
      have := (credit_idle_flags (sim_start s)
        ((sim_start s).params.simulation_time - (sim_start s).current_time) i).1
      exact this.symm.trans hopen
    have hb := hidle i hi0 hi
    show ((credit_idle (sim_start s) _).windows i).total_idle_time = _
      ∧ ((credit_idle (sim_start s) _).windows i).total_busy_time = 0
    simp only [credit_idle]
    rw [if_pos ⟨hi0, hi, hop, hb⟩]
    simp only [sim_start, init_windows]
    rw [if_pos ⟨hi0, hi⟩]
    simp [h0]
  · have hst : (List.range (drain (sim_start s)).params.customer_count.toNat).foldl
        (stats_customer (drain (sim_start s))) Statistics.zero = Statistics.zero := by
      apply stats_fold_served_zero
      intro i hi
      have hin := List.mem_range.mp hi
      have hc : (drain (sim_start s)).params.customer_count = s.params.customer_count := rfl
      rw [hc] at hin
      exact hfresh i (Int.natCast_nonneg i) (by omega)
    have hserved : ∀ st : Statistics, st.served_count = (fun _ => 0) →
        ((List.range MAX_WINDOWS).foldl (stats_window (drain (sim_start s)))
          ((List.range 2).foldl stats_average st)).served_count = fun _ => 0 := by
      intro st hz
      refine foldl_inv (fun st : Statistics => st.served_count = fun _ => 0) _ _ _ ?_ ?_
      · refine foldl_inv (fun st : Statistics => st.served_count = fun _ => 0) _ _ _ hz ?_
        · intro b a _ hb
          unfold stats_average
          split_ifs
          · exact hb
          · exact hb
      · intro b a _ hb
        unfold stats_window
        dsimp only
        split_ifs
        · exact hb
        · exact hb
        · exact hb
    have hz := hserved Statistics.zero rfl
    unfold calculate_statistics
    dsimp only
    rw [hst, hz]
    split_ifs with hpos
    · simp
    · exact absurd hTq hpos

/-- Witness for C7: duration 10, the only customer arrives at t = 11. -/
theorem no_arrival_run_drains_witness :
    (run_simulation (fun _ => 0) 1 scenario_d_quiet).map (fun s => s.current_time)
      = some 10
    ∧ (calculate_statistics (drain (sim_start scenario_d_quiet))).stats.throughput = 0 :=
  have h := no_arrival_run_drains (fun _ => 0) scenario_d_quiet 0 (by decide) (by decide!)
    (fun i h0 h1 => by
      have hi : i = 0 := by
        have : scenario_d_quiet.params.customer_count = 1 := rfl
        omega
      subst hi
      decide!)
    (fun i h0 h1 => by
      have hi : i = 0 := by
        have : scenario_d_quiet.params.customer_count = 1 := rfl
        omega
      subst hi
      decide!)
  ⟨by rw [h.2.1]; decide!, h.2.2.2.2.2⟩

/-! ### Termination of the event loop -/

theorem countP_lt_of_witness {α : Type} (p q : α → Bool) (l : List α) (a : α)
    (hsub : ∀ x, x ∈ l → q x = true → p x = true)
    (ha : a ∈ l) (hpa : p a = true) (hqa : q a = false) :
    l.countP q < l.countP p := by
  induction l with
  | nil => cases ha
  | cons x xs ih =>
    have hsub' : ∀ y, y ∈ xs → q y = true → p y = true :=
      fun y hy => hsub y (List.mem_cons_of_mem x hy)
    have hmono : xs.countP q ≤ xs.countP p := List.countP_mono_left hsub'
    have hx := hsub x (List.mem_cons_self x xs)
    simp only [List.countP_cons]
    rcases List.mem_cons.mp ha with hax | hin
    · subst hax
      simp only [hpa, hqa]
      simp
      omega
    · have := ih hsub' hin
      cases hq : q x with
      | false => simp; omega
      | true => simp [hx hq]; omega

theorem countP_le_succ_of_point {α : Type} (p q : α → Bool) (l : List α) (a : α)
    (hnd : l.Nodup) (hsub : ∀ x, x ∈ l → x ≠ a → q x = true → p x = true) :
    l.countP q ≤ l.countP p + 1 := by
  induction l with
  | nil => simp
  | cons x xs ih =>
    have hnd' := (List.nodup_cons.mp hnd)
    simp only [List.countP_cons]
    by_cases hxa : x = a
    · subst hxa
      have hmono : xs.countP q ≤ xs.countP p := by
        apply List.countP_mono_left
        intro y hy hqy
        exact hsub y (List.mem_cons_of_mem x hy) (fun h => hnd'.1 (h ▸ hy)) hqy
      have h1 : (if q x = true then 1 else 0) ≤ 1 := by split_ifs <;> omega
      omega
    · have := ih hnd'.2 (fun y hy => hsub y (List.mem_cons_of_mem x hy))
      have hx := hsub x (List.mem_cons_self x xs) hxa
      cases hq : q x with
      | false => simp; omega
      | true => simp [hx hq]; omega

theorem pending_arrivals_mono (s s' : State)
    (hp : s'.params = s.params)
    (hc : ∀ i : Int, (s'.customers i).arrival_time = (s.customers i).arrival_time)
    (ht : s.current_time ≤ s'.current_time) :
    pending_arrivals s' ≤ pending_arrivals s := by
  unfold pending_arrivals
  rw [hp]
  apply List.countP_mono_left
  intro i _ hi
  simp only [decide_eq_true_eq, hc] at hi ⊢
  exact lt_of_le_of_lt ht hi

theorem pending_arrivals_congr (s s' : State)
    (hp : s'.params = s.params)
    (hc : ∀ i : Int, (s'.customers i).arrival_time = (s.customers i).arrival_time)
    (ht : s'.current_time = s.current_time) :
    pending_arrivals s' = pending_arrivals s := by
  unfold pending_arrivals
  rw [hp, ht]
  apply List.countP_congr
  intro i _
  simp only [decide_eq_true_eq, hc]

theorem pending_completions_mono (s s' : State)
    (hw : ∀ i : Int, (s'.windows i).is_busy = true →
      (s.windows i).is_busy = true
      ∧ (s'.windows i).busy_start = (s.windows i).busy_start
      ∧ (s'.windows i).current_customer = (s.windows i).current_customer)
    (ht : s.current_time ≤ s'.current_time) :
    pending_completions s' ≤ pending_completions s := by
  unfold pending_completions
  apply List.countP_mono_left
  intro i _ hi
  simp only [Bool.and_eq_true, decide_eq_true_eq] at hi ⊢
  obtain ⟨h1, h2, h3⟩ := hw i hi.1
  refine ⟨h1, ?_⟩
  rw [← h2, ← h3]
  exact lt_of_le_of_lt ht hi.2

theorem pending_completions_point (s s' : State) (w : Int)
    (hw : ∀ i : Int, i ≠ w → s'.windows i = s.windows i)
    (ht : s'.current_time = s.current_time) :
    pending_completions s' ≤ pending_completions s + 1 := by
  unfold pending_completions
  by_cases hw0 : 0 ≤ w
  · apply countP_le_succ_of_point _ _ _ w.toNat (List.nodup_range _)
    intro i _ hne hi
    have hiw : (i : Int) ≠ w := by omega
    rw [hw i hiw, ht] at hi
    exact hi
  · have : ∀ i : Nat, (i : Int) ≠ w := by intro i; omega
    have hle : (List.range MAX_WINDOWS).countP
        (fun (i : Nat) => (s'.windows i).is_busy
          && decide ((s'.windows i).busy_start
            + (s'.windows i).current_customer.service_time > s'.current_time))
        ≤ (List.range MAX_WINDOWS).countP
        (fun (i : Nat) => (s.windows i).is_busy
          && decide ((s.windows i).busy_start
            + (s.windows i).current_customer.service_time > s.current_time)) := by
      apply List.countP_mono_left
      intro i _ hi
      rw [hw i (this i), ht] at hi
      exact hi
    omega

theorem get_next_customer_cases (rng : Nat → Nat) (s : State) (h : QueuesWF s) :
    (s.priority_queue.nodes = [] ∧ s.normal_queue.nodes = []
      ∧ (get_next_customer rng s).1.id = -1 ∧ (get_next_customer rng s).2 = s)
    ∨ (∃ c rest, s.priority_queue.nodes = c :: rest
        ∧ (get_next_customer rng s).1 = c
        ∧ (get_next_customer rng s).2.priority_queue
            = ⟨rest, rest.length, s.priority_queue.priority⟩
        ∧ (get_next_customer rng s).2.normal_queue = s.normal_queue)
    ∨ (∃ c rest, s.normal_queue.nodes = c :: rest
        ∧ (get_next_customer rng s).1 = c
        ∧ (get_next_customer rng s).2.normal_queue
            = ⟨rest, rest.length, s.normal_queue.priority⟩
        ∧ (get_next_customer rng s).2.priority_queue = s.priority_queue) := by
  obtain ⟨hp, hn⟩ := h
  cases hpn : s.priority_queue.nodes with
  | nil =>
    have hep := (is_queue_empty_wf _ hp).mpr hpn
    cases hnn : s.normal_queue.nodes with
    | nil =>
      have hen := (is_queue_empty_wf _ hn).mpr hnn
      refine Or.inl ⟨rfl, rfl, ?_, ?_⟩
      · simp [get_next_customer, hep, hen]
      · simp [get_next_customer, hep, hen]
    | cons c rest =>
      have hen := is_queue_empty_cons _ hn c rest hnn
      have hd := dequeue_wf_cons _ hn c rest hnn
      refine Or.inr (Or.inr ⟨c, rest, rfl, ?_, ?_, ?_⟩)
      · simp [get_next_customer, hep, hen, hd]
      · simp [get_next_customer, hep, hen, hd]
      · simp [get_next_customer, hep, hen, hd]
  | cons c rest =>
    have hep := is_queue_empty_cons _ hp c rest hpn
    have hdp := dequeue_wf_cons _ hp c rest hpn
    cases hnn : s.normal_queue.nodes with
    | nil =>
      have hen := (is_queue_empty_wf _ hn).mpr hnn
      refine Or.inr (Or.inl ⟨c, rest, rfl, ?_, ?_, ?_⟩)
      · simp [get_next_customer, hep, hen, hdp]
      · simp [get_next_customer, hep, hen, hdp]
      · simp [get_next_customer, hep, hen, hdp]
    | cons c' rest' =>
      have hen := is_queue_empty_cons _ hn c' rest' hnn
      have hdn := dequeue_wf_cons _ hn c' rest' hnn
      by_cases hr : ((rng s.rand_calls % 100 : Nat) : Int)
          < c_int_cast (double_mul (round_double s.params.priority_ratio) 100)
      · push_cast at hr
        refine Or.inr (Or.inl ⟨c, rest, rfl, ?_, ?_, ?_⟩)
        · simp [get_next_customer, hep, hen, hdp, hr]
        · simp [get_next_customer, hep, hen, hdp, hr]
        · simp [get_next_customer, hep, hen, hdp, hr]
      · push_cast at hr
        refine Or.inr (Or.inr ⟨c', rest', rfl, ?_, ?_, ?_⟩)
        · simp [get_next_customer, hep, hen, hdn, hr]
        · simp [get_next_customer, hep, hen, hdn, hr]
        · simp [get_next_customer, hep, hen, hdn, hr]

theorem get_next_customer_measure (rng : Nat → Nat) (s : State) (h : QueuesWF s) :
    QueuesWF (get_next_customer rng s).2
    ∧ queued_count (get_next_customer rng s).2 ≤ queued_count s
    ∧ ((get_next_customer rng s).1.id ≠ -1 →
        queued_count (get_next_customer rng s).2 + 1 ≤ queued_count s) := by
  rcases get_next_customer_cases rng s h with ⟨_, _, hid, hs⟩ | ⟨c, rest, hq, _, hq1, hq2⟩
      | ⟨c, rest, hq, _, hq1, hq2⟩
  · rw [hs]
    exact ⟨h, le_refl _, fun hne => absurd hid hne⟩
  · refine ⟨⟨?_, ?_⟩, ?_, fun _ => ?_⟩
    · rw [hq1]; simp [Queue.WF]
    · rw [hq2]; exact h.2
    · simp [queued_count, hq1, hq2, hq]
    · simp [queued_count, hq1, hq2, hq]
      omega
  · refine ⟨⟨?_, ?_⟩, ?_, fun _ => ?_⟩
    · rw [hq2]; exact h.1
    · rw [hq1]; simp [Queue.WF]
    · simp [queued_count, hq1, hq2, hq]
    · simp [queued_count, hq1, hq2, hq]
      omega

theorem get_next_customer_pending (rng : Nat → Nat) (s : State) :
    pending_arrivals (get_next_customer rng s).2 = pending_arrivals s
    ∧ pending_completions (get_next_customer rng s).2 = pending_completions s := by
  unfold pending_arrivals pending_completions
  rw [get_next_customer_windows, get_next_customer_params, get_next_customer_customers,
    get_next_customer_time]
  exact ⟨rfl, rfl⟩

theorem arrival_enqueue_measure (s : State) (c : Customer) (h : QueuesWF s) :
    QueuesWF (arrival_enqueue s c)
    ∧ pending_arrivals (arrival_enqueue s c) = pending_arrivals s
    ∧ pending_completions (arrival_enqueue s c) = pending_completions s
    ∧ queued_count (arrival_enqueue s c) = queued_count s + 1 := by
  unfold arrival_enqueue
  split_ifs
  · refine ⟨⟨enqueue_wf _ h.1 c, h.2⟩, rfl, rfl, ?_⟩
    simp [queued_count, enqueue]
    omega
  · refine ⟨⟨h.1, enqueue_wf _ h.2 c⟩, rfl, rfl, ?_⟩
    simp [queued_count, enqueue]
    omega

theorem assign_customers_static (s : State) (w : Int) (c : Customer) (i : Int) :
    ((assign_customer_to_window s w c).customers i).id = (s.customers i).id
    ∧ ((assign_customer_to_window s w c).customers i).arrival_time
        = (s.customers i).arrival_time
    ∧ ((assign_customer_to_window s w c).customers i).finish_time
        = (s.customers i).finish_time := by
  unfold assign_customer_to_window
  split_ifs
  · by_cases hi : i = c.id - 1
    · subst hi; simp
    · simp [Function.update_noteq hi]
  · exact ⟨rfl, rfl, rfl⟩

theorem finish_customers_static (s : State) (w : Int) (i : Int) :
    ((finish_service s w).customers i).id = (s.customers i).id
    ∧ ((finish_service s w).customers i).arrival_time = (s.customers i).arrival_time
    ∧ ((finish_service s w).customers i).start_time = (s.customers i).start_time
    ∧ ((finish_service s w).customers i).waiting_time = (s.customers i).waiting_time := by
  unfold finish_service
  split_ifs
  · by_cases hi : i = (s.windows w).current_customer.id - 1
    · subst hi; simp
    · simp [Function.update_noteq hi]
  · exact ⟨rfl, rfl, rfl, rfl⟩

theorem assign_measure (s : State) (w : Int) (c : Customer) (h : QueuesWF s) :
    QueuesWF (assign_customer_to_window s w c)
    ∧ pending_arrivals (assign_customer_to_window s w c) = pending_arrivals s
    ∧ pending_completions (assign_customer_to_window s w c) ≤ pending_completions s + 1
    ∧ queued_count (assign_customer_to_window s w c) = queued_count s := by
  have hst := assign_customers_static s w c
  have hframe : (assign_customer_to_window s w c).params = s.params
      ∧ (assign_customer_to_window s w c).current_time = s.current_time
      ∧ (assign_customer_to_window s w c).priority_queue = s.priority_queue
      ∧ (assign_customer_to_window s w c).normal_queue = s.normal_queue
      ∧ ∀ i : Int, i ≠ w → (assign_customer_to_window s w c).windows i = s.windows i := by
    unfold assign_customer_to_window
    split_ifs
    · exact ⟨rfl, rfl, rfl, rfl, fun i hi => by simp [Function.update_noteq hi]⟩
    · exact ⟨rfl, rfl, rfl, rfl, fun _ _ => rfl⟩
  obtain ⟨hp, ht, hpq, hnq, hw⟩ := hframe
  refine ⟨?_, ?_, ?_, ?_⟩
  · unfold QueuesWF; rw [hpq, hnq]; exact h
  · exact pending_arrivals_congr _ _ hp (fun i => (hst i).2.1) ht
  · exact pending_completions_point _ _ w hw ht
  · unfold queued_count; rw [hpq, hnq]

theorem finish_measure (s : State) (w : Int) (h : QueuesWF s) :
    QueuesWF (finish_service s w)
    ∧ pending_arrivals (finish_service s w) = pending_arrivals s
    ∧ pending_completions (finish_service s w) ≤ pending_completions s
    ∧ queued_count (finish_service s w) = queued_count s := by
  have hst := finish_customers_static s w
  have hframe : (finish_service s w).params = s.params
      ∧ (finish_service s w).current_time = s.current_time
      ∧ (finish_service s w).priority_queue = s.priority_queue
      ∧ (finish_service s w).normal_queue = s.normal_queue
      ∧ ∀ i : Int, ((finish_service s w).windows i).is_busy = true →
          (s.windows i).is_busy = true
          ∧ ((finish_service s w).windows i).busy_start = (s.windows i).busy_start
          ∧ ((finish_service s w).windows i).current_customer
              = (s.windows i).current_customer := by
    unfold finish_service
    split_ifs
    · refine ⟨rfl, rfl, rfl, rfl, fun i hi => ?_⟩
      by_cases hiw : i = w
      · subst hiw; simp at hi
      · simpa [Function.update_noteq hiw] using hi
    · exact ⟨rfl, rfl, rfl, rfl, fun _ hi => ⟨hi, rfl, rfl⟩⟩
  obtain ⟨hp, ht, hpq, hnq, hw⟩ := hframe
  refine ⟨?_, ?_, ?_, ?_⟩
  · unfold QueuesWF; rw [hpq, hnq]; exact h
  · exact pending_arrivals_congr _ _ hp (fun i => (hst i).2.1) ht
  · exact pending_completions_mono _ _ hw (le_of_eq ht.symm)
  · unfold queued_count; rw [hpq, hnq]

theorem pool_change_refl (s : State) : PoolChange s s :=
  ⟨rfl, rfl, rfl, rfl, rfl, fun _ => rfl⟩

theorem pool_change_open (s : State) (i : Int) : PoolChange s (open_window s i) := by
  unfold open_window
  split_ifs
  · refine ⟨rfl, rfl, rfl, rfl, rfl, fun j => ?_⟩
    by_cases hj : j = i
    · subst hj; simp
    · simp [Function.update_noteq hj]
  · exact pool_change_refl s

theorem pool_change_close (s : State) (i : Int) : PoolChange s (close_window s i) := by
  unfold close_window
  split_ifs
  · refine ⟨rfl, rfl, rfl, rfl, rfl, fun j => ?_⟩
    by_cases hj : j = i
    · subst hj; simp
    · simp [Function.update_noteq hj]
  · exact pool_change_refl s

theorem pool_change_adjust (s : State) : PoolChange s (adjust_windows s) := by
  rcases adjust_windows_cases s with he | ⟨i, _, _, he⟩ | ⟨i, he⟩
  · rw [he]; exact pool_change_refl s
  · rw [he]; exact pool_change_open s i
  · rw [he]; exact pool_change_close s i

theorem pool_change_window (s s' : State) (h : PoolChange s s') (i : Int) :
    (s'.windows i).is_busy = (s.windows i).is_busy
    ∧ (s'.windows i).busy_start = (s.windows i).busy_start
    ∧ (s'.windows i).current_customer = (s.windows i).current_customer
    ∧ (s'.windows i).total_busy_time = (s.windows i).total_busy_time
    ∧ (s'.windows i).total_idle_time = (s.windows i).total_idle_time := by
  have := h.windows_eq i
  refine ⟨?_, ?_, ?_, ?_, ?_⟩ <;> rw [this]

theorem pool_change_measure (s s' : State) (h : PoolChange s s') (hwf : QueuesWF s) :
    QueuesWF s' ∧ loop_measure s' = loop_measure s := by
  constructor
  · unfold QueuesWF; rw [h.pq_eq, h.nq_eq]; exact hwf
  · have h1 : pending_arrivals s' = pending_arrivals s :=
      pending_arrivals_congr s s' h.params_eq (fun i => by rw [h.customers_eq]) h.time_eq
    have h2 : pending_completions s' = pending_completions s := by
      unfold pending_completions
      apply List.countP_congr
      intro i _
      obtain ⟨hb, hs, hc, _, _⟩ := pool_change_window s s' h i
      rw [hb, hs, hc, h.time_eq]
    have h3 : queued_count s' = queued_count s := by
      unfold queued_count; rw [h.pq_eq, h.nq_eq]
    unfold loop_measure
    rw [h1, h2, h3]

theorem credit_idle_window (s : State) (dt : ℚ) (i : Int) :
    ((credit_idle s dt).windows i).is_busy = (s.windows i).is_busy
    ∧ ((credit_idle s dt).windows i).is_open = (s.windows i).is_open
    ∧ ((credit_idle s dt).windows i).busy_start = (s.windows i).busy_start
    ∧ ((credit_idle s dt).windows i).current_customer = (s.windows i).current_customer
    ∧ ((credit_idle s dt).windows i).total_busy_time = (s.windows i).total_busy_time := by
  simp only [credit_idle]
  split_ifs <;> exact ⟨rfl, rfl, rfl, rfl, rfl⟩

theorem advance_clock_measure (s : State) (e : NextEvent) (hwf : QueuesWF s)
    (hok : EventOK s e) (hne : e.next_event_type ≠ -1) :
    QueuesWF (advance_clock s e)
    ∧ loop_measure (advance_clock s e) < loop_measure s
    ∧ (e.next_event_type = 0 → loop_measure (advance_clock s e) + 2 ≤ loop_measure s) := by
  have hq : queued_count (advance_clock s e) = queued_count s := rfl
  have hmonoA : ∀ ht : s.current_time ≤ e.next_event_time,
      pending_arrivals (advance_clock s e) ≤ pending_arrivals s :=
    fun ht => pending_arrivals_mono s (advance_clock s e) rfl (fun _ => rfl) ht
  have hmonoC : ∀ ht : s.current_time ≤ e.next_event_time,
      pending_completions (advance_clock s e) ≤ pending_completions s := by
    intro ht
    apply pending_completions_mono s (advance_clock s e) _ ht
    intro i hi
    obtain ⟨hb, _, hs, hc, _⟩ := credit_idle_window s (e.next_event_time - s.current_time) i
    exact ⟨hb ▸ hi, hs, hc⟩
  refine ⟨hwf, ?_⟩
  rcases hok with hm | ⟨h0, ht, hi0, hi, harr⟩ | ⟨h1, ht, hw0, hw, hb, hfin⟩
  · exact absurd hm hne
  · have hA : pending_arrivals (advance_clock s e) < pending_arrivals s := by
      unfold pending_arrivals
      apply countP_lt_of_witness _ _ _ e.next_event_customer_index.toNat
      · intro i _ hq
        simp only [decide_eq_true_eq] at hq ⊢
        exact lt_trans ht hq
      · apply List.mem_range.mpr
        show e.next_event_customer_index.toNat < s.params.customer_count.toNat
        omega
      · have : ((e.next_event_customer_index.toNat : Nat) : Int)
            = e.next_event_customer_index := by omega
        simp only [this, decide_eq_true_eq, harr]
        exact ht
      · have : ((e.next_event_customer_index.toNat : Nat) : Int)
            = e.next_event_customer_index := by omega
        simp only [this, decide_eq_false_iff_not]
        show ¬ (s.customers e.next_event_customer_index).arrival_time > e.next_event_time
        rw [harr]
        exact lt_irrefl _
    have hC := hmonoC (le_of_lt ht)
    unfold loop_measure
    constructor
    · omega
    · intro _; omega
  · have hA := hmonoA (le_of_lt ht)
    have hC : pending_completions (advance_clock s e) < pending_completions s := by
      unfold pending_completions
      apply countP_lt_of_witness _ _ _ e.next_event_window.toNat
      · intro i _ hq
        obtain ⟨hb', _, hs, hc, _⟩ :=
          credit_idle_window s (e.next_event_time - s.current_time) i
        simp only [Bool.and_eq_true, decide_eq_true_eq] at hq ⊢
        refine ⟨hb' ▸ hq.1, ?_⟩
        have h2 := hq.2
        change ((credit_idle s (e.next_event_time - s.current_time)).windows i).busy_start
          + ((credit_idle s (e.next_event_time
              - s.current_time)).windows i).current_customer.service_time
          > e.next_event_time at h2
        rw [hs, hc] at h2
        exact lt_trans ht h2
      · apply List.mem_range.mpr
        have : (e.next_event_window.toNat : Int) < (MAX_WINDOWS : Int) := by omega
        exact_mod_cast this
      · have : ((e.next_event_window.toNat : Nat) : Int) = e.next_event_window := by omega
        simp only [this, Bool.and_eq_true, decide_eq_true_eq, hb, hfin]
        exact ⟨trivial, ht⟩
      · have : ((e.next_event_window.toNat : Nat) : Int) = e.next_event_window := by omega
        obtain ⟨_, _, hs, hc, _⟩ :=
          credit_idle_window s (e.next_event_time - s.current_time) e.next_event_window
        simp only [this, Bool.and_eq_false_iff, decide_eq_false_iff_not]
        right
        show ¬ ((credit_idle s (e.next_event_time
              - s.current_time)).windows e.next_event_window).busy_start
          + ((credit_idle s (e.next_event_time
              - s.current_time)).windows e.next_event_window).current_customer.service_time
          > e.next_event_time
        rw [hs, hc, hfin]
        exact lt_irrefl _
    unfold loop_measure
    constructor
    · omega
    · intro h0'; rw [h1] at h0'; cases h0'

theorem dispatch_measure (rng : Nat → Nat) (s : State) (w : Int) (hwf : QueuesWF s) :
    QueuesWF (completion_dispatch rng s w)
    ∧ loop_measure (completion_dispatch rng s w) ≤ loop_measure s := by
  obtain ⟨hwf', hle, hlt⟩ := get_next_customer_measure rng s hwf
  obtain ⟨hA, hC⟩ := get_next_customer_pending rng s
  unfold completion_dispatch
  dsimp only
  split_ifs with hid
  · obtain ⟨h1, h2, h3, h4⟩ :=
      assign_measure (get_next_customer rng s).2 w (get_next_customer rng s).1 hwf'
    refine ⟨h1, ?_⟩
    have := hlt hid
    unfold loop_measure
    omega
  · refine ⟨hwf', ?_⟩
    unfold loop_measure
    omega

theorem arrival_dispatch_measure (rng : Nat → Nat) (s : State) (hwf : QueuesWF s) :
    QueuesWF (arrival_dispatch rng s)
    ∧ loop_measure (arrival_dispatch rng s) ≤ loop_measure s := by
  have h : arrival_dispatch rng s
      = if find_idle_window s ≠ -1 then completion_dispatch rng s (find_idle_window s)
        else s := rfl
  rw [h]
  split_ifs
  · exact dispatch_measure rng s _ hwf
  · exact ⟨hwf, le_refl _⟩

theorem handle_event_measure (rng : Nat → Nat) (s : State) (e : NextEvent)
    (hwf : QueuesWF s) :
    QueuesWF (handle_event rng s e)
    ∧ (e.next_event_type = 0 → loop_measure (handle_event rng s e) ≤ loop_measure s + 1)
    ∧ (e.next_event_type ≠ 0 → loop_measure (handle_event rng s e) ≤ loop_measure s) := by
  unfold handle_event
  split_ifs with h0 h1
  · obtain ⟨hw1, hA, hC, hQ⟩ :=
      arrival_enqueue_measure s (s.customers e.next_event_customer_index) hwf
    obtain ⟨hw2, hle⟩ := arrival_dispatch_measure rng _ hw1
    obtain ⟨hw3, heq⟩ := pool_change_measure _ _ (pool_change_adjust _) hw2
    refine ⟨hw3, fun _ => ?_, fun hne => absurd h0 hne⟩
    unfold customer_arrival
    rw [heq]
    have : loop_measure (arrival_enqueue s (s.customers e.next_event_customer_index))
        = loop_measure s + 1 := by
      unfold loop_measure
      omega
    omega
  · obtain ⟨hw1, hA, hC, hQ⟩ := finish_measure s e.next_event_window hwf
    obtain ⟨hw2, hle⟩ := dispatch_measure rng _ e.next_event_window hw1
    obtain ⟨hw3, heq⟩ := pool_change_measure _ _ (pool_change_adjust _) hw2
    refine ⟨hw3, fun h => absurd h h0, fun _ => ?_⟩
    rw [heq]
    have : loop_measure (finish_service s e.next_event_window) ≤ loop_measure s := by
      unfold loop_measure
      omega
    omega
  · exact ⟨hwf, fun h => absurd h h0, fun _ => le_refl _⟩

theorem loop_body_measure (rng : Nat → Nat) (s : State) (hwf : QueuesWF s) :
    QueuesWF (loop_body rng s).1
    ∧ ((loop_body rng s).2 = false → loop_measure (loop_body rng s).1 < loop_measure s) := by
  unfold loop_body
  dsimp only
  split_ifs with hm
  · exact ⟨hwf, fun h => by cases h⟩
  · obtain ⟨hw1, hlt, h2⟩ := advance_clock_measure s _ hwf (find_next_event_ok s) hm
    obtain ⟨hw2, ha, hb⟩ := handle_event_measure rng (advance_clock s (find_next_event s))
      (find_next_event s) hw1
    refine ⟨hw2, fun _ => ?_⟩
    show loop_measure (handle_event rng (advance_clock s (find_next_event s))
      (find_next_event s)) < loop_measure s
    by_cases h0 : (find_next_event s).next_event_type = 0
    · have := ha h0
      have := h2 h0
      omega
    · have := hb h0
      omega

theorem queues_wf_start (s0 : State) : QueuesWF (sim_start s0) := by
  constructor <;> simp [sim_start, init_queue, Queue.WF]

theorem loop_measure_start (s0 : State) :
    loop_measure (sim_start s0) ≤ 2 * s0.params.customer_count.toNat := by
  have hA : pending_arrivals (sim_start s0) ≤ s0.params.customer_count.toNat := by
    unfold pending_arrivals
    have := List.countP_le_length
      (fun (i : Nat) => decide (((sim_start s0).customers i).arrival_time
        > (sim_start s0).current_time))
      (l := List.range (sim_start s0).params.customer_count.toNat)
    simpa using this
  have hQ : queued_count (sim_start s0) = 0 := by
    simp [queued_count, sim_start, init_queue]
  have hC : pending_completions (sim_start s0) = 0 := by
    unfold pending_completions
    rw [List.countP_eq_zero]
    intro i hi
    have hin := List.mem_range.mp hi
    have h1 : (i : Int) < (MAX_WINDOWS : Int) := by exact_mod_cast hin
    simp only [sim_start, init_windows]
    rw [if_pos ⟨Int.natCast_nonneg i, h1⟩]
    simp
  unfold loop_measure
  omega

theorem run_loop_terminates (rng : Nat → Nat) :
    ∀ (fuel : Nat) (s : State), QueuesWF s → loop_measure s < fuel →
      ∃ s', run_loop rng fuel s = some s' := by
  intro fuel
  induction fuel with
  | zero => intro s _ h; omega
  | succ fuel ih =>
    intro s hwf hlt
    unfold run_loop
    split_ifs with hc hb
    · exact ⟨_, rfl⟩
    · obtain ⟨hw1, hdec⟩ := loop_body_measure rng s hwf
      have hb' : (loop_body rng s).2 = false := by
        cases h : (loop_body rng s).2 with
        | false => rfl
        | true => exact absurd h hb
      have := hdec hb'
      exact ih _ hw1 (by omega)
    · exact ⟨_, rfl⟩

/-- The run ends within `2 * customer_count + 1` passes through the loop. -/
theorem run_simulation_terminates (rng : Nat → Nat) (s0 : State) :
    ∃ s', run_simulation rng (2 * s0.params.customer_count.toNat + 1) s0 = some s' := by
  unfold run_simulation
  apply run_loop_terminates rng _ _ (queues_wf_start s0)
  have := loop_measure_start s0
  omega

/-! ### Customer records -/

theorem assign_frame (s : State) (w : Int) (c : Customer) :
    (assign_customer_to_window s w c).params = s.params
    ∧ (assign_customer_to_window s w c).current_time = s.current_time
    ∧ (assign_customer_to_window s w c).priority_queue = s.priority_queue
    ∧ (assign_customer_to_window s w c).normal_queue = s.normal_queue
    ∧ (assign_customer_to_window s w c).active_windows = s.active_windows
    ∧ (∀ i : Int, i ≠ w → (assign_customer_to_window s w c).windows i = s.windows i)
    ∧ (¬ (w ≥ 0 ∧ w < MAX_WINDOWS) → assign_customer_to_window s w c = s) := by
  unfold assign_customer_to_window
  split_ifs with hw
  · exact ⟨rfl, rfl, rfl, rfl, rfl, fun i hi => by simp [Function.update_noteq hi],
      fun h => absurd hw h⟩
  · exact ⟨rfl, rfl, rfl, rfl, rfl, fun _ _ => rfl, fun _ => rfl⟩

theorem assign_window (s : State) (w : Int) (c : Customer)
    (hw0 : 0 ≤ w) (hw : w < MAX_WINDOWS) :
    (assign_customer_to_window s w c).windows w =
      { s.windows w with
        is_busy := true
        current_customer := c
        busy_start := s.current_time
        served_count := (s.windows w).served_count + 1 }
    ∧ (assign_customer_to_window s w c).customers (c.id - 1) =
      { s.customers (c.id - 1) with
        start_time := s.current_time
        waiting_time := s.current_time - c.arrival_time
        served_by := w }
    ∧ ∀ i : Int, i ≠ c.id - 1 →
        (assign_customer_to_window s w c).customers i = s.customers i := by
  unfold assign_customer_to_window
  rw [if_pos ⟨hw0, hw⟩]
  exact ⟨by simp, by simp, fun i hi => by simp [Function.update_noteq hi]⟩

theorem finish_frame (s : State) (w : Int) :
    (finish_service s w).params = s.params
    ∧ (finish_service s w).current_time = s.current_time
    ∧ (finish_service s w).priority_queue = s.priority_queue
    ∧ (finish_service s w).normal_queue = s.normal_queue
    ∧ (finish_service s w).active_windows = s.active_windows
    ∧ (∀ i : Int, ((finish_service s w).customers i).finish_time > 0 →
        (s.customers i).finish_time > 0
        ∨ (0 ≤ w ∧ w < MAX_WINDOWS ∧ (s.windows w).is_busy = true
            ∧ i = (s.windows w).current_customer.id - 1)) := by
  unfold finish_service
  split_ifs with hw
  · refine ⟨rfl, rfl, rfl, rfl, rfl, fun i hi => ?_⟩
    by_cases hic : i = (s.windows w).current_customer.id - 1
    · exact Or.inr ⟨hw.1, hw.2.1, hw.2.2, hic⟩
    · left
      simpa [Function.update_noteq hic] using hi
  · exact ⟨rfl, rfl, rfl, rfl, rfl, fun i hi => Or.inl hi⟩

theorem run_loop_inv (rng : Nat → Nat) (P : State → Prop)
    (hstep : ∀ s, P s → s.current_time < s.params.simulation_time → P (loop_body rng s).1) :
    ∀ (fuel : Nat) (s s' : State), P s → run_loop rng fuel s = some s' → P s' := by
  intro fuel
  induction fuel with
  | zero =>
    intro s s' hs hr
    unfold run_loop at hr
    split_ifs at hr
    cases hr
    exact hs
  | succ fuel ih =>
    intro s s' hs hr
    unfold run_loop at hr
    split_ifs at hr with hc hb
    · cases hr
      exact hstep s hs hc
    · exact ih _ _ (hstep s hs hc) hr
    · cases hr
      exact hs

theorem account_clock (s : State) (t : ℚ) (hbo : BusyOpen s) :
    BusyOpen { credit_idle s (t - s.current_time) with current_time := t }
    ∧ ∀ w : Int, 0 ≤ w → w < MAX_WINDOWS →
        accounted_time { credit_idle s (t - s.current_time) with current_time := t } w
          = accounted_time s w
            + (if (s.windows w).is_open = true then t - s.current_time else 0) := by
  constructor
  · intro w hw0 hw hb
    obtain ⟨h1, h2, _⟩ := credit_idle_window s (t - s.current_time) w
    exact h2.trans (hbo w hw0 hw (h1 ▸ hb))
  · intro w hw0 hw
    have hbw := hbo w hw0 hw
    simp only [accounted_time, credit_idle]
    cases hb : (s.windows w).is_busy with
    | true =>
      have ho := hbw hb
      simp [hb, ho]
      ring
    | false =>
      cases ho : (s.windows w).is_open with
      | true => simp [hb, ho, hw0, hw]; ring
      | false => simp [hb, ho]

theorem account_same_windows (s s' : State) (hw : s'.windows = s.windows)
    (ht : s'.current_time = s.current_time) (hbo : BusyOpen s) :
    BusyOpen s' ∧ ∀ w : Int, accounted_time s' w = accounted_time s w := by
  constructor
  · unfold BusyOpen; rw [hw]; exact hbo
  · intro w; unfold accounted_time; rw [hw, ht]

theorem account_assign (s : State) (w : Int) (c : Customer) (hbo : BusyOpen s)
    (hopen : (s.windows w).is_open = true) (hidle : (s.windows w).is_busy = false) :
    BusyOpen (assign_customer_to_window s w c)
    ∧ ∀ w' : Int, accounted_time (assign_customer_to_window s w c) w'
        = accounted_time s w' := by
  by_cases hw : w ≥ 0 ∧ w < MAX_WINDOWS
  · obtain ⟨_, ht, _, _, _, hwin, _⟩ := assign_frame s w c
    obtain ⟨hww, _, _⟩ := assign_window s w c hw.1 hw.2
    constructor
    · intro w' hw0' hw' hb
      by_cases hww' : w' = w
      · subst hww'; rw [hww]; exact hopen
      · rw [hwin w' hww'] at hb ⊢
        exact hbo w' hw0' hw' hb
    · intro w'
      unfold accounted_time
      by_cases hww' : w' = w
      · subst hww'
        rw [hww, ht]
        simp [hidle]
      · rw [hwin w' hww', ht]
  · rw [(assign_frame s w c).2.2.2.2.2.2 hw]
    exact ⟨hbo, fun _ => rfl⟩

theorem account_finish (s : State) (w : Int) (hbo : BusyOpen s) :
    BusyOpen (finish_service s w)
    ∧ ∀ w' : Int, accounted_time (finish_service s w) w' = accounted_time s w' := by
  have ht := (finish_frame s w).2.1
  constructor
  · intro w' hw0' hw' hb
    obtain ⟨ho, hsame, hidle⟩ := finish_service_flags s w w'
    by_cases hww' : w' = w
    · subst hww'
      rw [(finish_service_flags s w' w').2.2 hw0' hw'] at hb
      cases hb
    · rw [hsame hww'] at hb ⊢
      exact hbo w' hw0' hw' hb
  · intro w'
    by_cases hww' : w' = w
    · subst hww'
      by_cases hc : w' ≥ 0 ∧ w' < MAX_WINDOWS ∧ (s.windows w').is_busy = true
      · have hwin : (finish_service s w').windows w' =
            { s.windows w' with
              is_busy := false
              total_busy_time := (s.windows w').total_busy_time
                + (s.current_time - (s.windows w').busy_start)
              busy_end := s.current_time } := by
          unfold finish_service
          rw [if_pos hc]
          simp
        unfold accounted_time
        rw [hwin, ht]
        simp only [hc.2.2, if_true]
        simp
        ring
      · have : finish_service s w' = s := by
          unfold finish_service
          rw [if_neg hc]
        rw [this]
    · unfold accounted_time
      rw [(finish_service_flags s w w').2.1 hww', ht]

theorem account_adjust (s : State) (hbo : BusyOpen s) :
    BusyOpen (adjust_windows s)
    ∧ ∀ w : Int, accounted_time (adjust_windows s) w = accounted_time s w := by
  have hpc := pool_change_adjust s
  constructor
  · rcases adjust_windows_cases s with he | ⟨i, _, _, he⟩ | ⟨i, he⟩
    · rw [he]; exact hbo
    · rw [he]
      intro w hw0 hw hb
      unfold open_window at hb ⊢
      split_ifs at hb ⊢ with hc
      · by_cases hwi : w = i
        · subst hwi; simp
        · simp only [Function.update_noteq hwi] at hb ⊢
          exact hbo w hw0 hw hb
      · exact hbo w hw0 hw hb
    · rw [he]
      intro w hw0 hw hb
      unfold close_window at hb ⊢
      split_ifs at hb ⊢ with hc
      · by_cases hwi : w = i
        · subst hwi
          simp only [Function.update_same] at hb
          rw [hc.2.2.1] at hb
          cases hb
        · simp only [Function.update_noteq hwi] at hb ⊢
          exact hbo w hw0 hw hb
      · exact hbo w hw0 hw hb
  · intro w
    obtain ⟨h1, h2, _, h4, h5⟩ := pool_change_window s _ hpc w
    unfold accounted_time
    rw [h1, h2, h4, h5, hpc.time_eq]

theorem account_dispatch (rng : Nat → Nat) (s : State) (w : Int) (hbo : BusyOpen s)
    (hopen : (s.windows w).is_open = true) (hidle : (s.windows w).is_busy = false) :
    BusyOpen (completion_dispatch rng s w)
    ∧ (completion_dispatch rng s w).current_time = s.current_time
    ∧ ∀ w' : Int, accounted_time (completion_dispatch rng s w) w' = accounted_time s w' := by
  have hwin := get_next_customer_windows rng s
  have ht := get_next_customer_time rng s
  obtain ⟨hbo1, hacc1⟩ := account_same_windows s _ hwin ht hbo
  unfold completion_dispatch
  dsimp only
  split_ifs with hid
  · obtain ⟨hbo2, hacc2⟩ := account_assign (get_next_customer rng s).2 w
      (get_next_customer rng s).1 hbo1 (by rw [hwin]; exact hopen) (by rw [hwin]; exact hidle)
    refine ⟨hbo2, ?_, fun w' => (hacc2 w').trans (hacc1 w')⟩
    rw [(assign_frame _ w _).2.1, ht]
  · exact ⟨hbo1, ht, hacc1⟩

theorem account_arrival_dispatch (rng : Nat → Nat) (s : State) (hbo : BusyOpen s) :
    BusyOpen (arrival_dispatch rng s)
    ∧ (arrival_dispatch rng s).current_time = s.current_time
    ∧ ∀ w' : Int, accounted_time (arrival_dispatch rng s) w' = accounted_time s w' := by
  have he : arrival_dispatch rng s
      = if find_idle_window s ≠ -1 then completion_dispatch rng s (find_idle_window s)
        else s := rfl
  rw [he]
  split_ifs with hf
  · rcases find_idle_window_spec s with hn | ⟨_, _, hp, _⟩
    · exact absurd hn hf
    · simp only [Bool.and_eq_true, Bool.not_eq_true'] at hp
      exact account_dispatch rng s _ hbo hp.1 hp.2
  · exact ⟨hbo, rfl, fun _ => rfl⟩

theorem account_handle_event (rng : Nat → Nat) (s : State) (e : NextEvent)
    (hbo : BusyOpen s)
    (hev : e.next_event_type = 1 →
      0 ≤ e.next_event_window ∧ e.next_event_window < MAX_WINDOWS
      ∧ (s.windows e.next_event_window).is_busy = true) :
    BusyOpen (handle_event rng s e)
    ∧ (handle_event rng s e).current_time = s.current_time
    ∧ ∀ w : Int, accounted_time (handle_event rng s e) w = accounted_time s w := by
  unfold handle_event
  split_ifs with h0 h1
  · unfold customer_arrival
    have hbo1 : BusyOpen (arrival_enqueue s (s.customers e.next_event_customer_index))
        ∧ ∀ w : Int, accounted_time
            (arrival_enqueue s (s.customers e.next_event_customer_index)) w
          = accounted_time s w := by
      apply account_same_windows _ _ _ _ hbo
      · unfold arrival_enqueue; split_ifs <;> rfl
      · unfold arrival_enqueue; split_ifs <;> rfl
    have ht1 : (arrival_enqueue s (s.customers e.next_event_customer_index)).current_time
        = s.current_time := by
      unfold arrival_enqueue; split_ifs <;> rfl
    obtain ⟨hbo2, ht2, hacc2⟩ := account_arrival_dispatch rng _ hbo1.1
    obtain ⟨hbo3, hacc3⟩ := account_adjust _ hbo2
    refine ⟨hbo3, ?_, fun w => ?_⟩
    · rw [(pool_change_adjust _).time_eq, ht2, ht1]
    · rw [hacc3 w, hacc2 w, hbo1.2 w]
  · obtain ⟨hw0, hw, hb⟩ := hev h1
    obtain ⟨hbo1, hacc1⟩ := account_finish s e.next_event_window hbo
    have hfl := finish_service_flags s e.next_event_window e.next_event_window
    obtain ⟨hbo2, ht2, hacc2⟩ := account_dispatch rng _ e.next_event_window hbo1
      (by rw [hfl.1]; exact hbo _ hw0 hw hb) (hfl.2.2 hw0 hw)
    obtain ⟨hbo3, hacc3⟩ := account_adjust _ hbo2
    refine ⟨hbo3, ?_, fun w => ?_⟩
    · rw [(pool_change_adjust _).time_eq, ht2, (finish_frame s _).2.1]
    · rw [hacc3 w, hacc2 w, hacc1 w]
  · exact ⟨hbo, rfl, fun _ => rfl⟩

theorem account_loop_body (rng : Nat → Nat) (s : State) (hbo : BusyOpen s) :
    BusyOpen (loop_body rng s).1
    ∧ ∀ w : Int, 0 ≤ w → w < MAX_WINDOWS →
        accounted_time (loop_body rng s).1 w
          = accounted_time s w
            + (if (s.windows w).is_open = true then
                (loop_body rng s).1.current_time - s.current_time
               else 0) := by
  unfold loop_body
  dsimp only
  split_ifs with hm
  · exact account_clock s _ hbo
  · obtain ⟨hbo1, hacc1⟩ := account_clock s (find_next_event s).next_event_time hbo
    have hev : (find_next_event s).next_event_type = 1 →
        0 ≤ (find_next_event s).next_event_window
        ∧ (find_next_event s).next_event_window < MAX_WINDOWS
        ∧ ((advance_clock s (find_next_event s)).windows
            (find_next_event s).next_event_window).is_busy = true := by
      intro h1
      rcases find_next_event_ok s with hm' | ⟨h0, _⟩ | ⟨_, _, hw0, hw, hb, _⟩
      · exact absurd hm' hm
      · rw [h1] at h0; cases h0
      · refine ⟨hw0, hw, ?_⟩
        have := (credit_idle_window s
          ((find_next_event s).next_event_time - s.current_time)
          (find_next_event s).next_event_window).1
        exact this.trans hb
    obtain ⟨hbo2, ht2, hacc2⟩ := account_handle_event rng
      (advance_clock s (find_next_event s)) (find_next_event s) hbo1 hev
    refine ⟨hbo2, fun w hw0 hw => ?_⟩
    show accounted_time (handle_event rng (advance_clock s (find_next_event s))
        (find_next_event s)) w
      = accounted_time s w
        + (if (s.windows w).is_open = true then
            (handle_event rng (advance_clock s (find_next_event s))
              (find_next_event s)).current_time - s.current_time
           else 0)
    rw [hacc2 w, ht2]
    exact hacc1 w hw0 hw

theorem loop_body_break (rng : Nat → Nat) (s : State) (h : (loop_body rng s).2 = true) :
    ¬ ((loop_body rng s).1.current_time < (loop_body rng s).1.params.simulation_time) := by
  unfold loop_body at h ⊢
  dsimp only at h ⊢
  split_ifs at h ⊢ with hm
  exact lt_irrefl _

theorem after_iterations_exit (rng : Nat → Nat) (k : Nat) (s : State)
    (h : ¬ (s.current_time < s.params.simulation_time)) :
    after_iterations rng k s = s := by
  cases k with
  | zero => rfl
  | succ k =>
    unfold after_iterations
    rw [if_neg h]

theorem run_loop_eq_after (rng : Nat → Nat) :
    ∀ (fuel : Nat) (s s' : State), run_loop rng fuel s = some s' →
      s' = after_iterations rng fuel s
      ∧ ¬ (s'.current_time < s'.params.simulation_time) := by
  intro fuel
  induction fuel with
  | zero =>
    intro s s' hr
    unfold run_loop at hr
    split_ifs at hr with hc
    cases hr
    exact ⟨rfl, hc⟩
  | succ fuel ih =>
    intro s s' hr
    unfold run_loop at hr
    unfold after_iterations
    split_ifs at hr ⊢ with hc hb
    · cases hr
      have hx := loop_body_break rng s hb
      exact ⟨(after_iterations_exit rng fuel _ hx).symm, hx⟩
    · exact ih _ _ hr
    · cases hr
      exact ⟨rfl, hc⟩

theorem account_after_iterations (rng : Nat → Nat) (w : Int)
    (hw0 : 0 ≤ w) (hw : w < MAX_WINDOWS) :
    ∀ (k : Nat) (s : State), BusyOpen s →
      accounted_time (after_iterations rng k s) w
        = accounted_time s w + open_span rng w k s := by
  intro k
  induction k with
  | zero => intro s _; simp [after_iterations, open_span]
  | succ k ih =>
    intro s hbo
    unfold after_iterations open_span
    split_ifs with hc ho
    · obtain ⟨hbo1, hacc⟩ := account_loop_body rng s hbo
      rw [ih _ hbo1, hacc w hw0 hw, if_pos ho]
      ring
    · obtain ⟨hbo1, hacc⟩ := account_loop_body rng s hbo
      rw [ih _ hbo1, hacc w hw0 hw, if_neg ho]
      ring
    · simp

theorem account_start (s0 : State) :
    BusyOpen (sim_start s0)
    ∧ ∀ w : Int, 0 ≤ w → w < MAX_WINDOWS → accounted_time (sim_start s0) w = 0 := by
  constructor
  · intro w hw0 hw hb
    simp only [sim_start, init_windows] at hb
    rw [if_pos ⟨hw0, hw⟩] at hb
    simp at hb
  · intro w hw0 hw
    simp only [accounted_time, sim_start, init_windows]
    rw [if_pos ⟨hw0, hw⟩]
    simp

/-- The amounts booked, added up without rounding: `run_simulation` ends, and in
the state it ends in, for every window, the exact sum of `total_busy_time`,
`total_idle_time` and the elapsed part of a service still in progress
(`current_time - busy_start` when the window is busy, nothing otherwise) is the
exact sum of the lengths of the passes during which the window was open.  The
program accumulates the same amounts in `double` arithmetic, where each
addition and subtraction rounds. -/
theorem busy_idle_accounting (rng : Nat → Nat) (s0 : State) (w : Int)
    (hw0 : 0 ≤ w) (hw : w < MAX_WINDOWS) :
    (∃ s', run_simulation rng (2 * s0.params.customer_count.toNat + 1) s0 = some s')
    ∧ ∀ (fuel : Nat) (s' : State), run_simulation rng fuel s0 = some s' →
        (s'.windows w).total_busy_time + (s'.windows w).total_idle_time
            + (if (s'.windows w).is_busy = true then
                s'.current_time - (s'.windows w).busy_start
               else 0)
          = open_span rng w fuel (sim_start s0)
        ∧ ((s'.windows w).is_busy = false →
            (s'.windows w).total_busy_time + (s'.windows w).total_idle_time
              = open_span rng w fuel (sim_start s0)) := by
  refine ⟨run_simulation_terminates rng s0, ?_⟩
  intro fuel s' hrun
  obtain ⟨heq, _⟩ := run_loop_eq_after rng fuel _ s' hrun
  obtain ⟨hbo, hz⟩ := account_start s0
  have hacc := account_after_iterations rng w hw0 hw fuel _ hbo
  rw [← heq, hz w hw0 hw, zero_add] at hacc
  refine ⟨hacc, fun hidle => ?_⟩
  unfold accounted_time at hacc
  rw [hidle] at hacc
  simpa using hacc

/-- Example: window 0 in Scenario A, which is idle at the end and was open for
the whole 100 time units. -/
theorem busy_idle_accounting_witness :
    (∃ s', run_simulation (fun _ => 0)
        (2 * scenario_a_input.params.customer_count.toNat + 1) scenario_a_input = some s')
    ∧ (run_simulation (fun _ => 0) 7 scenario_a_input).map
        (fun s => ((s.windows 0).total_busy_time, (s.windows 0).total_idle_time,
                   (s.windows 0).is_busy))
      = some (10, 90, false)
    ∧ open_span (fun _ => 0) 0 7 (sim_start scenario_a_input) = 100 :=
  ⟨(busy_idle_accounting (fun _ => 0) scenario_a_input 0 (by decide) (by decide)).1,
   by decide!, by decide!⟩

/-- C2 (as stated) fails: with duration 3 and a customer who arrives at t = 1
and needs 5 time units, window 0 is open during the whole run (3 time units)
but ends with `total_busy_time + total_idle_time = 0 + 1`, the customer still
being served. -/
theorem busy_at_end_counterexample :
    (run_simulation (fun _ => 0) 3 busy_at_end_input).map
        (fun s => ((s.windows 0).total_busy_time, (s.windows 0).total_idle_time,
                   (s.windows 0).is_busy, s.current_time))
      = some (0, 1, true, 3)
    ∧ open_span (fun _ => 0) 0 3 (sim_start busy_at_end_input) = 3
    ∧ (run_simulation (fun _ => 0) 3 busy_at_end_input).map
        (fun s => decide ((s.windows 0).total_busy_time + (s.windows 0).total_idle_time
          ≠ open_span (fun _ => 0) 0 3 (sim_start busy_at_end_input)))
      = some true := by
  decide!

/-! ### Contracts of the single operations -/

/-- C11 (as amended): `dequeue` on a queue that has no elements returns the
all-zero customer record (`id = 0`) and leaves the queue unchanged; on a queue
with elements it returns what the specified operation returns. -/
theorem dequeue_empty_returns_zero (p : Int) (c : Customer) (rest : List Customer) :
    dequeue ⟨[], 0, p⟩ = (Customer.zero, ⟨[], 0, p⟩)
    ∧ (dequeue ⟨[], 0, p⟩).1.id = 0
    ∧ Except.ok (dequeue ⟨c :: rest, (rest.length : Int) + 1, p⟩)
        = dequeue_spec ⟨c :: rest, (rest.length : Int) + 1, p⟩ := by
  have h : ¬ ((rest.length : Int) + 1 = 0) := by omega
  refine ⟨rfl, rfl, ?_⟩
  simp [dequeue, dequeue_spec, is_queue_empty, h]

/-- C11 (as stated) fails: on the empty queue the specified operation fails
with `EmptyQueue`, while `dequeue` hands back a customer record, the same record
it hands back for a queue whose only element is the all-zero customer, so that
the caller cannot tell the two apart by the result. -/
theorem dequeue_empty_counterexample :
    dequeue_spec ⟨[], 0, 0⟩ = Except.error QueueError.EmptyQueue
    ∧ dequeue ⟨[], 0, 0⟩ = (Customer.zero, ⟨[], 0, 0⟩)
    ∧ (dequeue ⟨[], 0, 0⟩).1 = (dequeue ⟨[Customer.zero], 1, 0⟩).1
    ∧ Except.ok (dequeue ⟨[], 0, 0⟩) ≠ dequeue_spec ⟨[], 0, 0⟩ := by
  refine ⟨rfl, rfl, by decide!, ?_⟩
  intro h
  cases h

/-- C14: for a window id in `0 .. 19`, `open_window` marks the window open and
adds one to `active_windows` when the window is closed and
`active_windows < max_windows`, and is a no-op otherwise; so the count goes up
exactly in that case, and no other window record changes. -/
theorem open_window_contract (s : State) (id : Int) (_h0 : 0 ≤ id) (h1 : id < MAX_WINDOWS) :
    (((s.windows id).is_open = false ∧ s.active_windows < s.params.max_windows) →
        open_window s id = with_window_opened s id)
    ∧ (¬ ((s.windows id).is_open = false ∧ s.active_windows < s.params.max_windows) →
        open_window s id = s)
    ∧ ((((open_window s id).windows id).is_open = true
          ∧ (open_window s id).active_windows = s.active_windows + 1)
        ↔ ((s.windows id).is_open = false ∧ s.active_windows < s.params.max_windows))
    ∧ (∀ j : Int, j ≠ id → (open_window s id).windows j = s.windows j) := by
  have hpos : ((s.windows id).is_open = false ∧ s.active_windows < s.params.max_windows) →
      open_window s id = with_window_opened s id := by
    intro hc
    unfold open_window with_window_opened
    rw [if_pos ⟨h1, hc.1, hc.2⟩]
  have hneg : ¬ ((s.windows id).is_open = false ∧ s.active_windows < s.params.max_windows) →
      open_window s id = s := by
    intro hc
    unfold open_window
    rw [if_neg (fun h => hc ⟨h.2.1, h.2.2⟩)]
  refine ⟨hpos, hneg, ?_, ?_⟩
  · constructor
    · intro hchg
      by_contra hc
      rw [hneg hc] at hchg
      omega
    · intro hc
      rw [hpos hc]
      simp [with_window_opened]
  · intro j hj
    by_contra hne
    exact hj (open_window_changes s id j hne)

/-- Witness for C14: opening window 1 in Scenario C. -/
theorem open_window_contract_witness :
    open_window scenario_c_state 1 = with_window_opened scenario_c_state 1 :=
  (open_window_contract scenario_c_state 1 (by decide) (by decide)).1
    ⟨by decide!, by decide!⟩

/-- C15: for a window id in `0 .. 19`, `close_window` marks the window closed
and takes one from `active_windows` when the window is open, idle and
`active_windows > min_windows`, and is a no-op otherwise; so the count goes down
exactly in that case, no other window record changes, and a busy window is never
closed. -/
theorem close_window_contract (s : State) (id : Int) (_h0 : 0 ≤ id) (h1 : id < MAX_WINDOWS) :
    (((s.windows id).is_open = true ∧ (s.windows id).is_busy = false
          ∧ s.active_windows > s.params.min_windows) →
        close_window s id = with_window_closed s id)
    ∧ (¬ ((s.windows id).is_open = true ∧ (s.windows id).is_busy = false
          ∧ s.active_windows > s.params.min_windows) →
        close_window s id = s)
    ∧ ((((close_window s id).windows id).is_open = false
          ∧ (close_window s id).active_windows = s.active_windows - 1)
        ↔ ((s.windows id).is_open = true ∧ (s.windows id).is_busy = false
          ∧ s.active_windows > s.params.min_windows))
    ∧ (∀ j : Int, j ≠ id → (close_window s id).windows j = s.windows j)
    ∧ ((s.windows id).is_busy = true → close_window s id = s) := by
  have hpos : ((s.windows id).is_open = true ∧ (s.windows id).is_busy = false
      ∧ s.active_windows > s.params.min_windows) →
      close_window s id = with_window_closed s id := by
    intro hc
    unfold close_window with_window_closed
    rw [if_pos ⟨h1, hc.1, hc.2.1, hc.2.2⟩]
  have hneg : ¬ ((s.windows id).is_open = true ∧ (s.windows id).is_busy = false
      ∧ s.active_windows > s.params.min_windows) →
      close_window s id = s := by
    intro hc
    unfold close_window
    rw [if_neg (fun h => hc ⟨h.2.1, h.2.2.1, h.2.2.2⟩)]
  refine ⟨hpos, hneg, ?_, ?_, ?_⟩
  · constructor
    · intro hchg
      by_contra hc
      rw [hneg hc] at hchg
      omega
    · intro hc
      rw [hpos hc]
      simp [with_window_closed]
  · intro j hj
    by_contra hne
    exact hj (close_window_changes s id j hne)
  · intro hb
    apply hneg
    intro hc
    rw [hb] at hc
    cases hc.2.1

/-- Witness for C15: window 0 of Scenario C is busy and stays open. -/
theorem close_window_contract_witness :
    close_window scenario_c_state 0 = scenario_c_state :=
  (close_window_contract scenario_c_state 0 (by decide) (by decide)).2.2.2.2 (by decide!)

/-- C16: `find_idle_window` returns `i` with `0 ≤ i` exactly when window `i` is
the lowest-indexed window among the `MAX_WINDOWS` windows that is open and
idle, and returns `-1` exactly when none of them is open and idle.  Being a
function of the state alone, it changes no state. -/
theorem find_idle_window_contract (s : State) :
    (∀ i : Int,
        (find_idle_window s = i ∧ 0 ≤ i)
        ↔ IsLowest MAX_WINDOWS
            (fun j => (s.windows j).is_open = true ∧ (s.windows j).is_busy = false) i)
    ∧ (find_idle_window s = -1
        ↔ ∀ j : Int, 0 ≤ j → j < MAX_WINDOWS →
            ¬ ((s.windows j).is_open = true ∧ (s.windows j).is_busy = false)) := by
  have hf := find_range_int MAX_WINDOWS
    (fun i => (s.windows i).is_open && !(s.windows i).is_busy)
  have hcong : ∀ i, IsLowest MAX_WINDOWS
        (fun j => ((s.windows j).is_open && !(s.windows j).is_busy) = true) i →
      IsLowest MAX_WINDOWS
        (fun j => (s.windows j).is_open = true ∧ (s.windows j).is_busy = false) i :=
    fun i => isLowest_congr _ _ _ i (fun j => by simp)
  cases h : (List.range MAX_WINDOWS).find?
      (fun (i : Nat) => (s.windows i).is_open && !(s.windows i).is_busy) with
  | none =>
    have hr : find_idle_window s = -1 := by
      unfold find_idle_window
      rw [h]
    have hnone := hf.2 h
    have hno : ∀ j : Int, 0 ≤ j → j < MAX_WINDOWS →
        ¬ ((s.windows j).is_open = true ∧ (s.windows j).is_busy = false) := by
      intro j hj0 hj hc
      have := hnone j hj0 hj
      simp [hc.1, hc.2] at this
    refine ⟨fun i => ⟨?_, ?_⟩, ⟨fun _ => hno, fun _ => hr⟩⟩
    · intro hi
      rw [hr] at hi
      omega
    · intro hi
      exact absurd hi.2.2.1 (hno i hi.1 hi.2.1)
  | some k =>
    have hr : find_idle_window s = k := by
      unfold find_idle_window
      rw [h]
    have hk := hcong k (hf.1 k h)
    refine ⟨fun i => ⟨?_, ?_⟩, ⟨?_, ?_⟩⟩
    · intro hi
      rw [← hi.1, hr]
      exact hk
    · intro hi
      rw [hr]
      exact ⟨(isLowest_unique _ _ _ _ _ hi hk).symm, hi.1⟩
    · intro hm
      rw [hr] at hm
      omega
    · intro hno
      exact absurd hk.2.2.1 (hno k hk.1 hk.2.1)

/-- C12: for a window `w` in `0 .. 19` and a customer `c`, at clock value
`t = current_time`, `assign_customer_to_window` makes window `w` busy with
`busy_start = t`, current customer `c` and `served_count` one larger, writes
`start_time = t`, `waiting_time = t - c.arrival_time` and `served_by = w` into the
record of customer `c`, which is `customers[c.id - 1]`, and leaves the queues,
`active_windows`, `current_time`, the parameters, every other window and every
other customer record unchanged. -/
theorem assign_customer_to_window_contract (s : State) (w : Int) (c : Customer)
    (hw0 : 0 ≤ w) (hw : w < MAX_WINDOWS) :
    (assign_customer_to_window s w c).windows w =
      { s.windows w with
        is_busy := true
        current_customer := c
        busy_start := s.current_time
        served_count := (s.windows w).served_count + 1 }
    ∧ (assign_customer_to_window s w c).customers (c.id - 1) =
      { s.customers (c.id - 1) with
        start_time := s.current_time
        waiting_time := s.current_time - c.arrival_time
        served_by := w }
    ∧ (assign_customer_to_window s w c).priority_queue = s.priority_queue
    ∧ (assign_customer_to_window s w c).normal_queue = s.normal_queue
    ∧ (assign_customer_to_window s w c).active_windows = s.active_windows
    ∧ (assign_customer_to_window s w c).current_time = s.current_time
    ∧ (assign_customer_to_window s w c).params = s.params
    ∧ (∀ j : Int, j ≠ w → (assign_customer_to_window s w c).windows j = s.windows j)
    ∧ (∀ i : Int, i ≠ c.id - 1 →
        (assign_customer_to_window s w c).customers i = s.customers i) := by
  obtain ⟨hp, ht, hpq, hnq, hact, hwin, _⟩ := assign_frame s w c
  obtain ⟨hww, hcc, hco⟩ := assign_window s w c hw0 hw
  exact ⟨hww, hcc, hpq, hnq, hact, ht, hp, hwin, hco⟩

/-- Witness for C12: the priority customer of Scenario B at the open idle
window 0. -/
theorem assign_customer_to_window_contract_witness :
    ((sim_start scenario_b_input).windows 0).is_open = true
    ∧ ((sim_start scenario_b_input).windows 0).is_busy = false
    ∧ (assign_customer_to_window (sim_start scenario_b_input) 0
        (new_customer 1 1 0 2)).windows 0 =
      { (sim_start scenario_b_input).windows 0 with
        is_busy := true
        current_customer := new_customer 1 1 0 2
        busy_start := (sim_start scenario_b_input).current_time
        served_count := ((sim_start scenario_b_input).windows 0).served_count + 1 } :=
  ⟨by decide!, by decide!,
   (assign_customer_to_window_contract (sim_start scenario_b_input) 0
      (new_customer 1 1 0 2) (by decide) (by decide)).1⟩

/-- C13 (as amended): for a window `w` in `0 .. 19` at clock value
`t = current_time`: if the window is busy, `finish_service` adds
`t - busy_start` to its `total_busy_time`, marks it idle, sets its `busy_end` to
`t` and stamps `finish_time = t` on the record of the customer it was serving,
and changes nothing else; if the window is idle, the call leaves the whole
state unchanged. -/
theorem finish_service_contract (s : State) (w : Int)
    (hw0 : 0 ≤ w) (hw : w < MAX_WINDOWS) :
    ((s.windows w).is_busy = true →
      (finish_service s w).windows w =
        { s.windows w with
          is_busy := false
          total_busy_time := (s.windows w).total_busy_time
            + (s.current_time - (s.windows w).busy_start)
          busy_end := s.current_time }
      ∧ (finish_service s w).customers ((s.windows w).current_customer.id - 1) =
        { s.customers ((s.windows w).current_customer.id - 1) with
          finish_time := s.current_time }
      ∧ (∀ j : Int, j ≠ w → (finish_service s w).windows j = s.windows j)
      ∧ (∀ i : Int, i ≠ (s.windows w).current_customer.id - 1 →
          (finish_service s w).customers i = s.customers i)
      ∧ (finish_service s w).priority_queue = s.priority_queue
      ∧ (finish_service s w).normal_queue = s.normal_queue
      ∧ (finish_service s w).active_windows = s.active_windows
      ∧ (finish_service s w).current_time = s.current_time
      ∧ (finish_service s w).params = s.params)
    ∧ ((s.windows w).is_busy = false → finish_service s w = s) := by
  constructor
  · intro hb
    unfold finish_service
    rw [if_pos ⟨hw0, hw, hb⟩]
    refine ⟨by simp, by simp, ?_, ?_, rfl, rfl, rfl, rfl, rfl⟩
    · intro j hj
      simp [Function.update_noteq hj]
    · intro i hi
      simp [Function.update_noteq hi]
  · intro hb
    unfold finish_service
    rw [if_neg (fun h => by rw [hb] at h; cases h.2.2)]

/-- Witness for C13: window 0 of Scenario A at t = 2. -/
theorem finish_service_contract_witness :
    ((finish_service serving_state 0).windows 0).is_busy = false
    ∧ ((finish_service serving_state 0).windows 0).total_busy_time = 1
    ∧ (finish_service serving_state 0).windows 0 =
        { serving_state.windows 0 with
          is_busy := false
          total_busy_time := (serving_state.windows 0).total_busy_time
            + (serving_state.current_time - (serving_state.windows 0).busy_start)
          busy_end := serving_state.current_time } :=
  ⟨by decide!, by decide!,
   ((finish_service_contract serving_state 0 (by decide) (by decide)).1 (by decide!)).1⟩

/-- C13 (as stated) fails: window 0 is busy, and besides the busy flag, the busy
total and the customer's finish time the call also changes the `busy_end` field
of the window, from 0 to 2. -/
theorem finish_service_busy_end_counterexample :
    (serving_state.windows 0).is_busy = true
    ∧ serving_state.current_time = 2
    ∧ (serving_state.windows 0).busy_end = 0
    ∧ ((finish_service serving_state 0).windows 0).busy_end = 2
    ∧ (finish_service serving_state 0).windows 0 ≠
        { serving_state.windows 0 with
          is_busy := false
          total_busy_time := (serving_state.windows 0).total_busy_time
            + (serving_state.current_time - (serving_state.windows 0).busy_start) } := by
  decide!

/-! ### Statistics: purity -/

theorem calculate_statistics_frame (s : State) :
    (calculate_statistics s).customers = s.customers
    ∧ (calculate_statistics s).windows = s.windows
    ∧ (calculate_statistics s).priority_queue = s.priority_queue
    ∧ (calculate_statistics s).normal_queue = s.normal_queue
    ∧ (calculate_statistics s).current_time = s.current_time
    ∧ (calculate_statistics s).params = s.params
    ∧ (calculate_statistics s).active_windows = s.active_windows
    ∧ (calculate_statistics s).rand_calls = s.rand_calls := by
  unfold calculate_statistics
  dsimp only
  split_ifs <;> exact ⟨rfl, rfl, rfl, rfl, rfl, rfl, rfl, rfl⟩

theorem calculate_statistics_congr (s1 s2 : State)
    (hc : s1.customers = s2.customers) (hw : s1.windows = s2.windows)
    (hp : s1.params = s2.params) (ht : s1.current_time = s2.current_time) :
    (calculate_statistics s1).stats = (calculate_statistics s2).stats := by
  have h1 : stats_customer s1 = stats_customer s2 := by
    funext st i
    unfold stats_customer
    rw [hc]
  have h2 : stats_window s1 = stats_window s2 := by
    funext st i
    unfold stats_window
    rw [hw]
  unfold calculate_statistics
  dsimp only
  rw [h1, h2, hp, ht]
  split_ifs <;> rfl

/-- C19: `calculate_statistics` is idempotent and does not touch the simulation
state: running it twice gives the same statistics as running it once, the
result does not depend on what the statistics record held before, and the
customers, windows, queues, clock, parameters and `active_windows` are left as
they were. -/
theorem calculate_statistics_idempotent (s : State) (st : Statistics) :
    (calculate_statistics (calculate_statistics s)).stats = (calculate_statistics s).stats
    ∧ (calculate_statistics { s with stats := st }).stats = (calculate_statistics s).stats
    ∧ (calculate_statistics s).customers = s.customers
    ∧ (calculate_statistics s).windows = s.windows
    ∧ (calculate_statistics s).priority_queue = s.priority_queue
    ∧ (calculate_statistics s).normal_queue = s.normal_queue
    ∧ (calculate_statistics s).current_time = s.current_time
    ∧ (calculate_statistics s).params = s.params
    ∧ (calculate_statistics s).active_windows = s.active_windows := by
  obtain ⟨hc, hw, hpq, hnq, ht, hp, ha, _⟩ := calculate_statistics_frame s
  refine ⟨?_, ?_, hc, hw, hpq, hnq, ht, hp, ha⟩
  · exact calculate_statistics_congr _ _ hc hw hp ht
  · exact calculate_statistics_congr _ _ rfl rfl rfl rfl

/-! ### Ties between an arrival and a completion -/

theorem scan_arrivals_fold_le (s : State) (l : List Nat) :
    ∀ e : NextEvent,
      (l.foldl
        (fun (e : NextEvent) (i : Nat) =>
          if (s.customers i).arrival_time > s.current_time
              ∧ (s.customers i).arrival_time < e.next_event_time then
            { e with
              next_event_time := (s.customers i).arrival_time
              next_event_type := 0
              next_event_customer_index := i }
          else e) e).next_event_time ≤ e.next_event_time
      ∧ ∀ a : Nat, a ∈ l → (s.customers a).arrival_time > s.current_time →
          (l.foldl
            (fun (e : NextEvent) (i : Nat) =>
              if (s.customers i).arrival_time > s.current_time
                  ∧ (s.customers i).arrival_time < e.next_event_time then
                { e with
                  next_event_time := (s.customers i).arrival_time
                  next_event_type := 0
                  next_event_customer_index := i }
              else e) e).next_event_time ≤ (s.customers a).arrival_time := by
  induction l with
  | nil =>
    intro e
    exact ⟨le_refl _, fun a ha => by cases ha⟩
  | cons x xs ih =>
    intro e
    simp only [List.foldl_cons]
    split_ifs with hc
    · obtain ⟨h1, h2⟩ := ih
        { e with
          next_event_time := (s.customers x).arrival_time
          next_event_type := 0
          next_event_customer_index := x }
      refine ⟨le_trans h1 (le_of_lt hc.2), ?_⟩
      intro a ha hpend
      rcases List.mem_cons.mp ha with hax | hin
      · rw [hax]; exact h1
      · exact h2 a hin hpend
    · obtain ⟨h1, h2⟩ := ih e
      refine ⟨h1, ?_⟩
      intro a ha hpend
      rcases List.mem_cons.mp ha with hax | hin
      · rw [hax]
        have : e.next_event_time ≤ (s.customers x).arrival_time := by
          by_contra hlt
          exact hc ⟨hax ▸ hpend, not_le.mp hlt⟩
        exact le_trans h1 this
      · exact h2 a hin hpend

theorem scan_arrivals_type (s : State) (e : NextEvent) (h : e.next_event_type = -1) :
    ((scan_arrivals s e).next_event_type = -1
        ∧ (scan_arrivals s e).next_event_time = e.next_event_time)
    ∨ (scan_arrivals s e).next_event_type = 0 := by
  unfold scan_arrivals
  refine foldl_inv (fun r : NextEvent =>
    (r.next_event_type = -1 ∧ r.next_event_time = e.next_event_time)
      ∨ r.next_event_type = 0) _ _ _ (Or.inl ⟨h, rfl⟩) ?_
  intro b a _ hb
  dsimp only
  split_ifs
  · exact Or.inr rfl
  · exact hb

theorem scan_completions_fixed (s : State) (e : NextEvent)
    (h : ∀ i : Int, 0 ≤ i → i < MAX_WINDOWS → (s.windows i).is_busy = true →
      ¬ ((s.windows i).busy_start + (s.windows i).current_customer.service_time
            > s.current_time
          ∧ (s.windows i).busy_start + (s.windows i).current_customer.service_time
            < e.next_event_time)) :
    scan_completions s e = e := by
  unfold scan_completions
  apply foldl_fixed
  intro a ha
  have han := List.mem_range.mp ha
  have hh := h a (Int.natCast_nonneg a) (by exact_mod_cast han)
  dsimp only
  split_ifs with hb hc
  · exact absurd hc (hh hb)
  · rfl
  · rfl

/-- C20 on the code: customer 1 is served at window 0 from t = 1 and is due to
finish at t = 3, the instant customer 2 arrives.  At the loop test with the
clock at 1 the scans find both events at t = 3 and select the arrival, not the
completion.  After the arrival the completion is no longer later than the clock,
so no later pass selects it: the next pass finds no event, and the run ends at
t = 100 with customer 1 unfinished, window 0 still busy with customer 1,
customer 2 still waiting in the queue, and no customer counted as served. -/
theorem tie_run :
    tie_state.current_time = 1
    ∧ (tie_state.customers 1).arrival_time = 3
    ∧ (tie_state.windows 0).is_busy = true
    ∧ (tie_state.windows 0).busy_start
        + (tie_state.windows 0).current_customer.service_time = 3
    ∧ (find_next_event tie_state).next_event_time = 3
    ∧ (find_next_event tie_state).next_event_type = 0
    ∧ (find_next_event tie_state).next_event_type ≠ 1
    ∧ (loop_body (fun _ => 0) tie_state).1.normal_queue.nodes = [new_customer 2 0 3 2]
    ∧ ((loop_body (fun _ => 0) tie_state).1.windows 0).is_busy = true
    ∧ (find_next_event (loop_body (fun _ => 0) tie_state).1).next_event_type = -1
    ∧ (run_simulation (fun _ => 0) 5 tie_input).map
        (fun s => (s.current_time, (s.windows 0).is_busy,
                   (s.windows 0).current_customer.id,
                   (s.customers 0).start_time, (s.customers 0).finish_time))
      = some (100, true, 1, 1, 0)
    ∧ (run_simulation (fun _ => 0) 5 tie_input).map
        (fun s => (s.normal_queue.nodes.map Customer.id,
                   (s.customers 1).start_time, (s.customers 1).finish_time,
                   (s.customers 1).served_by))
      = some ([2], 0, 0, -1)
    ∧ (run_simulation (fun _ => 0) 5 tie_input).map
        (fun s => (calculate_statistics s).stats.total_served)
      = some 0 := by
  decide!

/-! ### Statistics: waiting times per class -/

theorem stats_customer_step (s : State) (st : Statistics) (x : Nat) (c : Int) :
    (stats_customer s st x).served_count c
        = st.served_count c + (if counted s c x = true then 1 else 0)
    ∧ (stats_customer s st x).total_wait_time c
        = st.total_wait_time c
          + (if counted s c x = true then (s.customers x).waiting_time else 0)
    ∧ (stats_customer s st x).max_wait_time c
        = (if counted s c x = true then max (st.max_wait_time c) (s.customers x).waiting_time
           else st.max_wait_time c)
    ∧ (stats_customer s st x).avg_wait_time = st.avg_wait_time
    ∧ (stats_customer s st x).window_utilization = st.window_utilization
    ∧ (stats_customer s st x).window_idle_rate = st.window_idle_rate := by
  unfold stats_customer counted
  by_cases hf : (s.customers x).finish_time > 0
  · rw [if_pos hf]
    dsimp only
    by_cases hc : (s.customers x).type = c
    · subst hc
      simp only [hf, decide_True, Bool.and_self, if_true]
      split_ifs with hgt
      · refine ⟨by simp, by simp, ?_, rfl, rfl, rfl⟩
        simp only [Function.update_same]
        exact (max_eq_right (le_of_lt hgt)).symm
      · refine ⟨by simp, by simp, ?_, rfl, rfl, rfl⟩
        exact (max_eq_left (not_lt.mp hgt)).symm
    · have hne : c ≠ (s.customers x).type := fun h => hc h.symm
      have hcount : (decide ((s.customers x).finish_time > 0)
          && decide ((s.customers x).type = c)) = false := by simp [hc]
      rw [hcount]
      simp only [Bool.false_eq_true, if_false, add_zero]
      split_ifs
      · exact ⟨by simp [Function.update_noteq hne], by simp [Function.update_noteq hne],
          by simp [Function.update_noteq hne], rfl, rfl, rfl⟩
      · exact ⟨by simp [Function.update_noteq hne], by simp [Function.update_noteq hne],
          rfl, rfl, rfl, rfl⟩
  · rw [if_neg hf]
    simp [hf]

theorem stats_customer_fold (s : State) (c : Int) (l : List Nat) :
    ∀ st : Statistics,
      (l.foldl (stats_customer s) st).served_count c
          = st.served_count c + ((l.filter (counted s c)).length : Int)
      ∧ (l.foldl (stats_customer s) st).total_wait_time c
          = st.total_wait_time c + waiting_sum s (l.filter (counted s c))
      ∧ st.max_wait_time c ≤ (l.foldl (stats_customer s) st).max_wait_time c
      ∧ (∀ i : Nat, i ∈ l.filter (counted s c) →
          (s.customers i).waiting_time ≤ (l.foldl (stats_customer s) st).max_wait_time c)
      ∧ ((l.foldl (stats_customer s) st).max_wait_time c = st.max_wait_time c
          ∨ ∃ i : Nat, i ∈ l.filter (counted s c)
              ∧ (s.customers i).waiting_time
                = (l.foldl (stats_customer s) st).max_wait_time c)
      ∧ (l.foldl (stats_customer s) st).avg_wait_time = st.avg_wait_time
      ∧ (l.foldl (stats_customer s) st).window_utilization = st.window_utilization
      ∧ (l.foldl (stats_customer s) st).window_idle_rate = st.window_idle_rate := by
  induction l with
  | nil =>
    intro st
    simp [waiting_sum]
  | cons x xs ih =>
    intro st
    obtain ⟨h1, h2, h3, h4, h5, h6⟩ := stats_customer_step s st x c
    obtain ⟨i1, i2, i3, i4, i5, i6, i7, i8⟩ := ih (stats_customer s st x)
    simp only [List.foldl_cons]
    by_cases hx : counted s c x = true
    · rw [if_pos hx] at h1 h2 h3
      have hfil : (x :: xs).filter (counted s c) = x :: xs.filter (counted s c) := by
        simp [List.filter_cons, hx]
      rw [hfil]
      refine ⟨?_, ?_, ?_, ?_, ?_, i6.trans h4, i7.trans h5, i8.trans h6⟩
      · rw [i1, h1]
        simp only [List.length_cons]
        push_cast
        ring
      · rw [i2, h2]
        simp only [waiting_sum, List.map_cons, List.sum_cons]
        ring
      · exact le_trans (by rw [h3]; exact le_max_left _ _) i3
      · intro i hi
        rcases List.mem_cons.mp hi with hix | hin
        · rw [hix]
          exact le_trans (by rw [h3]; exact le_max_right _ _) i3
        · exact i4 i hin
      · rcases i5 with heq | ⟨i, hi, hw⟩
        · rw [heq, h3]
          rcases max_cases (st.max_wait_time c) (s.customers x).waiting_time with hm | hm
          · left; exact hm.1
          · right
            exact ⟨x, List.mem_cons_self _ _, hm.1.symm⟩
        · right
          exact ⟨i, List.mem_cons_of_mem _ hi, hw⟩
    · rw [if_neg hx] at h1 h2 h3
      have hfil : (x :: xs).filter (counted s c) = xs.filter (counted s c) := by
        simp [List.filter_cons, hx]
      rw [hfil]
      refine ⟨?_, ?_, ?_, i4, ?_, i6.trans h4, i7.trans h5, i8.trans h6⟩
      · rw [i1, h1]; ring
      · rw [i2, h2]; ring
      · rw [← h3]; exact i3
      · rw [← h3]; exact i5

theorem stats_average_fold (st : Statistics) :
    ((List.range 2).foldl stats_average st).served_count = st.served_count
    ∧ ((List.range 2).foldl stats_average st).total_wait_time = st.total_wait_time
    ∧ ((List.range 2).foldl stats_average st).max_wait_time = st.max_wait_time
    ∧ ((List.range 2).foldl stats_average st).window_utilization = st.window_utilization
    ∧ ((List.range 2).foldl stats_average st).window_idle_rate = st.window_idle_rate
    ∧ ((List.range 2).foldl stats_average st).avg_wait_time 0
        = (if st.served_count 0 > 0 then st.total_wait_time 0 / st.served_count 0
           else st.avg_wait_time 0)
    ∧ ((List.range 2).foldl stats_average st).avg_wait_time 1
        = (if st.served_count 1 > 0 then st.total_wait_time 1 / st.served_count 1
           else st.avg_wait_time 1) := by
  have hr : List.range 2 = [0, 1] := by decide
  rw [hr]
  simp only [List.foldl_cons, List.foldl_nil]
  unfold stats_average
  have h01 : (1 : Int) ≠ 0 := by decide
  have h10 : (0 : Int) ≠ 1 := by decide
  by_cases h0 : st.served_count 0 > 0 <;> by_cases h1 : st.served_count 1 > 0 <;>
    simp [h0, h1, Function.update_noteq h01, Function.update_noteq h10]

theorem stats_window_fold (s : State) (st : Statistics) :
    ∀ k : Nat,
      ((List.range k).foldl (stats_window s) st).served_count = st.served_count
      ∧ ((List.range k).foldl (stats_window s) st).total_wait_time = st.total_wait_time
      ∧ ((List.range k).foldl (stats_window s) st).max_wait_time = st.max_wait_time
      ∧ ((List.range k).foldl (stats_window s) st).avg_wait_time = st.avg_wait_time
      ∧ ∀ j : Int,
          ((List.range k).foldl (stats_window s) st).window_utilization j
            = (if 0 ≤ j ∧ j < k ∧ (s.windows j).is_open = true then
                utilization_of (s.windows j)
               else st.window_utilization j)
          ∧ ((List.range k).foldl (stats_window s) st).window_idle_rate j
            = (if 0 ≤ j ∧ j < k ∧ (s.windows j).is_open = true then
                idle_rate_of (s.windows j)
               else st.window_idle_rate j) := by
  intro k
  induction k with
  | zero =>
    refine ⟨rfl, rfl, rfl, rfl, fun j => ?_⟩
    have : ¬ (0 ≤ j ∧ j < 0 ∧ (s.windows j).is_open = true) := by
      intro h
      have := h.2.1
      omega
    simp [this]
  | succ k ih =>
    obtain ⟨i1, i2, i3, i4, i5⟩ := ih
    rw [List.range_succ, List.foldl_append]
    simp only [List.foldl_cons, List.foldl_nil]
    by_cases ho : (s.windows k).is_open = true
    · have hstep : stats_window s ((List.range k).foldl (stats_window s) st) k =
          { (List.range k).foldl (stats_window s) st with
            window_utilization := Function.update
              ((List.range k).foldl (stats_window s) st).window_utilization k
              (utilization_of (s.windows k))
            window_idle_rate := Function.update
              ((List.range k).foldl (stats_window s) st).window_idle_rate k
              (idle_rate_of (s.windows k)) } := by
        unfold stats_window utilization_of idle_rate_of
        rw [if_pos ho]
        dsimp only
        split_ifs <;> rfl
      rw [hstep]
      refine ⟨i1, i2, i3, i4, fun j => ?_⟩
      by_cases hj : j = (k : Int)
      · subst hj
        have hc : 0 ≤ (k : Int) ∧ (k : Int) < ((k + 1 : Nat) : Int)
            ∧ (s.windows k).is_open = true := ⟨by omega, by omega, ho⟩
        simp only [Function.update_same]
        rw [if_pos hc, if_pos hc]
        exact ⟨rfl, rfl⟩
      · simp only [Function.update_noteq hj]
        obtain ⟨h1, h2⟩ := i5 j
        rw [h1, h2]
        have hiff : (0 ≤ j ∧ j < ((k + 1 : Nat) : Int) ∧ (s.windows j).is_open = true)
            ↔ (0 ≤ j ∧ j < (k : Int) ∧ (s.windows j).is_open = true) := by
          constructor
          · intro h; exact ⟨h.1, by omega, h.2.2⟩
          · intro h; exact ⟨h.1, by omega, h.2.2⟩
        simp only [hiff]
        exact ⟨trivial, trivial⟩
    · have hstep : stats_window s ((List.range k).foldl (stats_window s) st) k =
          (List.range k).foldl (stats_window s) st := by
        unfold stats_window
        rw [if_neg ho]
      rw [hstep]
      refine ⟨i1, i2, i3, i4, fun j => ?_⟩
      obtain ⟨h1, h2⟩ := i5 j
      rw [h1, h2]
      have hiff : (0 ≤ j ∧ j < ((k + 1 : Nat) : Int) ∧ (s.windows j).is_open = true)
          ↔ (0 ≤ j ∧ j < (k : Int) ∧ (s.windows j).is_open = true) := by
        constructor
        · intro h
          refine ⟨h.1, ?_, h.2.2⟩
          by_contra hge
          have hjk : j = (k : Int) := by omega
          rw [hjk] at h
          exact ho h.2.2
        · intro h; exact ⟨h.1, by omega, h.2.2⟩
      simp only [hiff]
      exact ⟨trivial, trivial⟩

theorem calculate_statistics_fields (s : State) :
    (calculate_statistics s).stats.served_count
        = ((List.range s.params.customer_count.toNat).foldl (stats_customer s)
            Statistics.zero).served_count
    ∧ (calculate_statistics s).stats.total_wait_time
        = ((List.range s.params.customer_count.toNat).foldl (stats_customer s)
            Statistics.zero).total_wait_time
    ∧ (calculate_statistics s).stats.max_wait_time
        = ((List.range s.params.customer_count.toNat).foldl (stats_customer s)
            Statistics.zero).max_wait_time
    ∧ (calculate_statistics s).stats.avg_wait_time 0
        = (if (calculate_statistics s).stats.served_count 0 > 0 then
            (calculate_statistics s).stats.total_wait_time 0
              / (calculate_statistics s).stats.served_count 0
           else 0)
    ∧ (calculate_statistics s).stats.avg_wait_time 1
        = (if (calculate_statistics s).stats.served_count 1 > 0 then
            (calculate_statistics s).stats.total_wait_time 1
              / (calculate_statistics s).stats.served_count 1
           else 0)
    ∧ (calculate_statistics s).stats.total_served
        = (calculate_statistics s).stats.served_count 0
          + (calculate_statistics s).stats.served_count 1
    ∧ (∀ j : Int,
        (calculate_statistics s).stats.window_utilization j
          = (if 0 ≤ j ∧ j < MAX_WINDOWS ∧ (s.windows j).is_open = true then
              utilization_of (s.windows j)
             else 0)
        ∧ (calculate_statistics s).stats.window_idle_rate j
          = (if 0 ≤ j ∧ j < MAX_WINDOWS ∧ (s.windows j).is_open = true then
              idle_rate_of (s.windows j)
             else 0)) := by
  obtain ⟨_, _, _, _, _, c6, c7, c8⟩ :=
    stats_customer_fold s 0 (List.range s.params.customer_count.toNat) Statistics.zero
  obtain ⟨a1, a2, a3, a4, a5, a6, a7⟩ := stats_average_fold
    ((List.range s.params.customer_count.toNat).foldl (stats_customer s) Statistics.zero)
  obtain ⟨w1, w2, w3, w4, w5⟩ := stats_window_fold s
    ((List.range 2).foldl stats_average
      ((List.range s.params.customer_count.toNat).foldl (stats_customer s)
        Statistics.zero)) MAX_WINDOWS
  have hstats : ∃ tp : ℚ, (calculate_statistics s).stats =
      { (List.range MAX_WINDOWS).foldl (stats_window s)
          ((List.range 2).foldl stats_average
            ((List.range s.params.customer_count.toNat).foldl (stats_customer s)
              Statistics.zero)) with
        total_served :=
          ((List.range MAX_WINDOWS).foldl (stats_window s)
            ((List.range 2).foldl stats_average
              ((List.range s.params.customer_count.toNat).foldl (stats_customer s)
                Statistics.zero))).served_count 0
          + ((List.range MAX_WINDOWS).foldl (stats_window s)
            ((List.range 2).foldl stats_average
              ((List.range s.params.customer_count.toNat).foldl (stats_customer s)
                Statistics.zero))).served_count 1
        throughput := tp } := by
    unfold calculate_statistics
    dsimp only
    split_ifs
    · exact ⟨_, rfl⟩
    · exact ⟨_, rfl⟩
  obtain ⟨tp, heq⟩ := hstats
  rw [heq]
  dsimp only
  rw [w1, w2, w3, w4, a1, a2, a3]
  refine ⟨rfl, rfl, rfl, ?_, ?_, rfl, fun j => ?_⟩
  · rw [a6, c6]
    rfl
  · rw [a7, c6]
    rfl
  · obtain ⟨h1, h2⟩ := w5 j
    rw [h1, h2, a4, a5, c7, c8]
    exact ⟨rfl, rfl⟩

/-! ### Waiting times are never negative -/

theorem waiting_inv_clock (n : Int) (s : State) (dt t : ℚ) (h : WaitingInv n s)
    (ht : s.current_time ≤ t) :
    WaitingInv n { credit_idle s dt with current_time := t } :=
  ⟨h.count_eq, h.wf, h.nonneg, fun c hc => le_trans (h.arrived c hc) ht⟩

theorem waiting_inv_enqueue (n : Int) (s : State) (c : Customer) (h : WaitingInv n s)
    (harr : c.arrival_time ≤ s.current_time) :
    WaitingInv n (arrival_enqueue s c) := by
  unfold arrival_enqueue
  split_ifs
  · refine ⟨h.count_eq, ⟨enqueue_wf _ h.wf.1 _, h.wf.2⟩, h.nonneg, ?_⟩
    intro c' hc'
    rcases hc' with hc' | hc'
    · simp only [enqueue, List.mem_append, List.mem_singleton] at hc'
      rcases hc' with hc' | hc'
      · exact h.arrived c' (Or.inl hc')
      · rw [hc']; exact harr
    · exact h.arrived c' (Or.inr hc')
  · refine ⟨h.count_eq, ⟨h.wf.1, enqueue_wf _ h.wf.2 _⟩, h.nonneg, ?_⟩
    intro c' hc'
    rcases hc' with hc' | hc'
    · exact h.arrived c' (Or.inl hc')
    · simp only [enqueue, List.mem_append, List.mem_singleton] at hc'
      rcases hc' with hc' | hc'
      · exact h.arrived c' (Or.inr hc')
      · rw [hc']; exact harr

theorem waiting_inv_dequeue (n : Int) (rng : Nat → Nat) (s : State) (h : WaitingInv n s) :
    WaitingInv n (get_next_customer rng s).2
    ∧ ((get_next_customer rng s).1.id ≠ -1 →
        (get_next_customer rng s).1.arrival_time
          ≤ (get_next_customer rng s).2.current_time) := by
  have hwf := (get_next_customer_measure rng s h.wf).1
  have hcu := get_next_customer_customers rng s
  have hti := get_next_customer_time rng s
  have hpa := get_next_customer_params rng s
  constructor
  · refine ⟨by rw [hpa]; exact h.count_eq, hwf, by rw [hcu]; exact h.nonneg, ?_⟩
    intro c hc
    rw [hti]
    apply h.arrived
    rcases get_next_customer_cases rng s h.wf with ⟨_, _, _, hs⟩ | ⟨c', rest, hq, _, hq1, hq2⟩
        | ⟨c', rest, hq, _, hq1, hq2⟩
    · rw [hs] at hc; exact hc
    · rw [hq1, hq2] at hc
      rcases hc with hc | hc
      · left; rw [hq]; exact List.mem_cons_of_mem _ hc
      · exact Or.inr hc
    · rw [hq1, hq2] at hc
      rcases hc with hc | hc
      · exact Or.inl hc
      · right; rw [hq]; exact List.mem_cons_of_mem _ hc
  · intro hid
    rw [hti]
    rcases get_next_customer_cases rng s h.wf with ⟨_, _, hid', _⟩ | ⟨c', rest, hq, hc, _, _⟩
        | ⟨c', rest, hq, hc, _, _⟩
    · exact absurd hid' hid
    · rw [hc]
      exact h.arrived c' (Or.inl (by rw [hq]; exact List.mem_cons_self _ _))
    · rw [hc]
      exact h.arrived c' (Or.inr (by rw [hq]; exact List.mem_cons_self _ _))

theorem waiting_inv_assign (n : Int) (s : State) (w : Int) (c : Customer)
    (h : WaitingInv n s) (hc : c.arrival_time ≤ s.current_time) :
    WaitingInv n (assign_customer_to_window s w c) := by
  by_cases hw : w ≥ 0 ∧ w < MAX_WINDOWS
  · obtain ⟨hp, ht, hpq, hnq, _, _, _⟩ := assign_frame s w c
    obtain ⟨_, hcc, hco⟩ := assign_window s w c hw.1 hw.2
    refine ⟨by rw [hp]; exact h.count_eq, ?_, ?_, ?_⟩
    · unfold QueuesWF; rw [hpq, hnq]; exact h.wf
    · intro i hi0 hi
      by_cases hic : i = c.id - 1
      · rw [hic, hcc]
        show s.current_time - c.arrival_time ≥ 0
        linarith
      · rw [hco i hic]; exact h.nonneg i hi0 hi
    · intro c' hc'
      rw [hpq, hnq] at hc'
      rw [ht]
      exact h.arrived c' hc'
  · rw [(assign_frame s w c).2.2.2.2.2.2 hw]
    exact h

theorem waiting_inv_finish (n : Int) (s : State) (w : Int) (h : WaitingInv n s) :
    WaitingInv n (finish_service s w) := by
  obtain ⟨hp, ht, hpq, hnq, _, _⟩ := finish_frame s w
  refine ⟨by rw [hp]; exact h.count_eq, ?_, ?_, ?_⟩
  · unfold QueuesWF; rw [hpq, hnq]; exact h.wf
  · intro i hi0 hi
    rw [(finish_customers_static s w i).2.2.2]
    exact h.nonneg i hi0 hi
  · intro c' hc'
    rw [hpq, hnq] at hc'
    rw [ht]
    exact h.arrived c' hc'

theorem waiting_inv_pool_change (n : Int) (s s' : State) (hpc : PoolChange s s')
    (h : WaitingInv n s) : WaitingInv n s' := by
  refine ⟨by rw [hpc.params_eq]; exact h.count_eq, ?_, ?_, ?_⟩
  · unfold QueuesWF; rw [hpc.pq_eq, hpc.nq_eq]; exact h.wf
  · rw [hpc.customers_eq]; exact h.nonneg
  · intro c hc
    rw [hpc.pq_eq, hpc.nq_eq] at hc
    rw [hpc.time_eq]
    exact h.arrived c hc

theorem waiting_inv_dispatch (n : Int) (rng : Nat → Nat) (s : State) (w : Int)
    (h : WaitingInv n s) : WaitingInv n (completion_dispatch rng s w) := by
  obtain ⟨h1, h2⟩ := waiting_inv_dequeue n rng s h
  unfold completion_dispatch
  dsimp only
  split_ifs with hid
  · exact waiting_inv_assign n _ w _ h1 (h2 hid)
  · exact h1

theorem waiting_inv_loop_body (n : Int) (rng : Nat → Nat) (s : State)
    (h : WaitingInv n s) (hc : s.current_time < s.params.simulation_time) :
    WaitingInv n (loop_body rng s).1 := by
  unfold loop_body
  dsimp only
  split_ifs with hm
  · exact waiting_inv_clock n s _ _ h (le_of_lt hc)
  · have hadv : ∀ ht : s.current_time < (find_next_event s).next_event_time,
        WaitingInv n (advance_clock s (find_next_event s)) :=
      fun ht => waiting_inv_clock n s _ _ h (le_of_lt ht)
    unfold handle_event
    rcases find_next_event_ok s with hm' | ⟨h0, ht, _, _, harr⟩ | ⟨h1, ht, _, _, _, _⟩
    · exact absurd hm' hm
    · rw [if_pos h0]
      unfold customer_arrival
      apply waiting_inv_pool_change n _ _ (pool_change_adjust _)
      have he : ∀ s1 : State, arrival_dispatch rng s1
          = if find_idle_window s1 ≠ -1 then
              completion_dispatch rng s1 (find_idle_window s1)
            else s1 := fun _ => rfl
      rw [he]
      have henq : WaitingInv n (arrival_enqueue (advance_clock s (find_next_event s))
          ((advance_clock s (find_next_event s)).customers
            (find_next_event s).next_event_customer_index)) := by
        apply waiting_inv_enqueue n _ _ (hadv ht)
        show (s.customers (find_next_event s).next_event_customer_index).arrival_time
          ≤ (find_next_event s).next_event_time
        exact le_of_eq harr
      split_ifs
      · exact waiting_inv_dispatch n rng _ _ henq
      · exact henq
    · have hne : ¬ (find_next_event s).next_event_type = 0 := by rw [h1]; decide
      rw [if_neg hne, if_pos h1]
      apply waiting_inv_pool_change n _ _ (pool_change_adjust _)
      apply waiting_inv_dispatch
      exact waiting_inv_finish n _ _ (hadv ht)

theorem waiting_inv_start (s0 : State)
    (hnn : ∀ i : Int, 0 ≤ i → i < s0.params.customer_count →
      (s0.customers i).waiting_time ≥ 0) :
    WaitingInv s0.params.customer_count (sim_start s0) := by
  refine ⟨rfl, queues_wf_start s0, hnn, ?_⟩
  intro c hc
  simp [sim_start, init_queue] at hc

theorem waiting_nonneg_final (rng : Nat → Nat) (s0 : State) (fuel : Nat) (s' : State)
    (hnn : ∀ i : Int, 0 ≤ i → i < s0.params.customer_count →
      (s0.customers i).waiting_time ≥ 0)
    (hrun : run_simulation rng fuel s0 = some s') :
    s'.params.customer_count = s0.params.customer_count
    ∧ ∀ i : Int, 0 ≤ i → i < s0.params.customer_count → (s'.customers i).waiting_time ≥ 0 := by
  have hinv : WaitingInv s0.params.customer_count s' :=
    run_loop_inv rng (WaitingInv s0.params.customer_count)
      (fun s hs hc => waiting_inv_loop_body _ rng s hs hc) fuel _ s'
      (waiting_inv_start s0 hnn) hrun
  exact ⟨hinv.count_eq, hinv.nonneg⟩

theorem filter_classes_length (s : State) (l : List Nat)
    (h : ∀ i : Nat, i ∈ l → (s.customers i).type = 0 ∨ (s.customers i).type = 1) :
    (l.filter (fun (i : Nat) => decide ((s.customers i).finish_time > 0))).length
      = (l.filter (counted s 0)).length + (l.filter (counted s 1)).length := by
  induction l with
  | nil => rfl
  | cons x xs ih =>
    have ih' := ih (fun i hi => h i (List.mem_cons_of_mem x hi))
    have hx := h x (List.mem_cons_self x xs)
    simp only [List.filter_cons, counted]
    by_cases hf : (s.customers x).finish_time > 0
    · rcases hx with hx | hx
      · simp [hf, hx, counted] at ih' ⊢
        omega
      · simp [hf, hx, counted] at ih' ⊢
        omega
    · simp [hf, counted] at ih' ⊢
      omega

theorem run_simulation_eq_after (rng : Nat → Nat) (s0 : State) (fuel : Nat) (s' : State)
    (h : run_simulation rng fuel s0 = some s') :
    s' = after_iterations rng fuel (sim_start s0) :=
  (run_loop_eq_after rng fuel _ s' h).1

/-- C17: in the state a run on customers of classes 0 and 1 ends in (started
with waiting times that are not negative, as in cleared records),
`calculate_statistics` gives for each class `c`: `served_count[c]` is the number
of class-`c` customers with a recorded finish time, `total_wait_time[c]` the sum
of their waiting times, `max_wait_time[c]` the largest of their waiting times
(0 if there are none), `avg_wait_time[c]` the quotient of the total and the count
when the count is positive and 0 otherwise; only customers with a recorded
finish time are counted, and `total_served = served_count[0] + served_count[1]`
is the number of all customers with a recorded finish time. -/
theorem calculate_statistics_waiting (rng : Nat → Nat) (s0 : State) (fuel : Nat)
    (s' : State)
    (hnn : ∀ i : Int, 0 ≤ i → i < s0.params.customer_count →
      (s0.customers i).waiting_time ≥ 0)
    (hrun : run_simulation rng fuel s0 = some s')
    (htypes : ∀ i : Int, 0 ≤ i → i < s'.params.customer_count →
      (s'.customers i).type = 0 ∨ (s'.customers i).type = 1)
    (c : Int) (hc : c = 0 ∨ c = 1) :
    (∀ i : Nat, i ∈ finished_of_class s' c ↔
        ((i : Int) < s'.params.customer_count ∧ (s'.customers i).finish_time > 0
          ∧ (s'.customers i).type = c))
    ∧ (calculate_statistics s').stats.served_count c = (finished_of_class s' c).length
    ∧ (calculate_statistics s').stats.total_wait_time c
        = waiting_sum s' (finished_of_class s' c)
    ∧ (∀ i : Nat, i ∈ finished_of_class s' c →
        (s'.customers i).waiting_time ≤ (calculate_statistics s').stats.max_wait_time c)
    ∧ ((∃ i : Nat, i ∈ finished_of_class s' c
          ∧ (s'.customers i).waiting_time = (calculate_statistics s').stats.max_wait_time c)
        ∨ (finished_of_class s' c = []
          ∧ (calculate_statistics s').stats.max_wait_time c = 0))
    ∧ ((calculate_statistics s').stats.served_count c > 0 →
        (calculate_statistics s').stats.avg_wait_time c
          = (calculate_statistics s').stats.total_wait_time c
            / (calculate_statistics s').stats.served_count c)
    ∧ (¬ (calculate_statistics s').stats.served_count c > 0 →
        (calculate_statistics s').stats.avg_wait_time c = 0)
    ∧ (calculate_statistics s').stats.total_served
        = (calculate_statistics s').stats.served_count 0
          + (calculate_statistics s').stats.served_count 1
    ∧ (calculate_statistics s').stats.total_served = (finished_customers s').length := by
  obtain ⟨hcount, hfin⟩ := waiting_nonneg_final rng s0 fuel s' hnn hrun
  obtain ⟨f1, f2, f3, f4, f5, f6, _⟩ := calculate_statistics_fields s'
  have hfold := fun k : Int => stats_customer_fold s' k
    (List.range s'.params.customer_count.toNat) Statistics.zero
  obtain ⟨g1, g2, _, g4, g5, _⟩ := hfold c
  have hz1 : Statistics.zero.served_count c = 0 := rfl
  have hz2 : Statistics.zero.total_wait_time c = 0 := rfl
  have hz3 : Statistics.zero.max_wait_time c = 0 := rfl
  have hmem : ∀ i : Nat, i ∈ finished_of_class s' c ↔
      ((i : Int) < s'.params.customer_count ∧ (s'.customers i).finish_time > 0
        ∧ (s'.customers i).type = c) := by
    intro i
    simp only [finished_of_class, counted, List.mem_filter, List.mem_range,
      Bool.and_eq_true, decide_eq_true_eq]
    constructor
    · intro h; exact ⟨by omega, h.2.1, h.2.2⟩
    · intro h; exact ⟨by omega, h.2.1, h.2.2⟩
  refine ⟨hmem, ?_, ?_, ?_, ?_, ?_, ?_, f6, ?_⟩
  · rw [f1, g1, hz1, zero_add]; rfl
  · rw [f2, g2, hz2, zero_add]; rfl
  · intro i hi
    rw [f3]
    exact g4 i hi
  · rw [f3]
    rcases g5 with h0 | ⟨i, hi, hw⟩
    · rw [hz3] at h0
      cases hl : finished_of_class s' c with
      | nil => exact Or.inr ⟨rfl, h0⟩
      | cons x xs =>
        left
        have hx : x ∈ finished_of_class s' c := by rw [hl]; exact List.mem_cons_self _ _
        have hle := g4 x hx
        rw [h0] at hle
        have hlt := (hmem x).mp hx
        have hge := hfin x (Int.natCast_nonneg x) (by rw [← hcount]; exact hlt.1)
        refine ⟨x, List.mem_cons_self _ _, ?_⟩
        rw [h0]
        exact le_antisymm hle hge
    · exact Or.inl ⟨i, hi, hw⟩
  · intro hpos
    rcases hc with hc | hc
    · subst hc
      rw [f4, if_pos hpos]
    · subst hc
      rw [f5, if_pos hpos]
  · intro hpos
    rcases hc with hc | hc
    · subst hc
      rw [f4, if_neg hpos]
    · subst hc
      rw [f5, if_neg hpos]
  · rw [f6, f1]
    obtain ⟨a1, _⟩ := hfold 0
    obtain ⟨b1, _⟩ := hfold 1
    rw [a1, b1]
    have hlen := filter_classes_length s' (List.range s'.params.customer_count.toNat)
      (fun i hi => htypes i (Int.natCast_nonneg i)
        (by have := List.mem_range.mp hi; omega))
    unfold finished_customers
    rw [hlen]
    simp [Statistics.zero]

theorem scenario_a_final_run :
    run_simulation (fun _ => 0) 7 scenario_a_input = some scenario_a_final := by
  obtain ⟨s', hs'⟩ := run_simulation_terminates (fun _ => 0) scenario_a_input
  have h7 : 2 * scenario_a_input.params.customer_count.toNat + 1 = 7 := by decide
  rw [h7] at hs'
  have := run_simulation_eq_after _ _ _ _ hs'
  rw [hs', this]
  rfl

/-- Witness for C17: Scenario A, in which customers 2 and 3 (class 0) complete
with waiting times 0 and 4. -/
theorem calculate_statistics_waiting_witness :
    (calculate_statistics scenario_a_final).stats.served_count 0
        = (finished_of_class scenario_a_final 0).length
    ∧ finished_of_class scenario_a_final 0 = [1, 2]
    ∧ (calculate_statistics scenario_a_final).stats.total_wait_time 0 = 4
    ∧ (calculate_statistics scenario_a_final).stats.max_wait_time 0 = 4
    ∧ (calculate_statistics scenario_a_final).stats.avg_wait_time 0 = 2 :=
  ⟨(calculate_statistics_waiting (fun _ => 0) scenario_a_input 7 scenario_a_final
      (fun i h0 h1 => by
        have h3 : scenario_a_input.params.customer_count = 3 := rfl
        have hi : i = 0 ∨ i = 1 ∨ i = 2 := by omega
        rcases hi with hi | hi | hi <;> subst hi <;> decide!)
      scenario_a_final_run
      (fun i h0 h1 => by
        have h3 : scenario_a_final.params.customer_count = 3 := by decide!
        have hi : i = 0 ∨ i = 1 ∨ i = 2 := by omega
        rcases hi with hi | hi | hi <;> subst hi <;> decide!)
      0 (Or.inl rfl)).2.1,
   by decide!, by decide!, by decide!, by decide!⟩

/-! ### Statistics: windows -/

/-- What `calculate_statistics` reports for the windows: for a window that is
open in the state it is run on, the utilization is
`total_busy_time / (total_busy_time + total_idle_time) * 100` and the idle rate
is `100` minus that when the two totals add up to a positive time, and 0 and 100
otherwise, so the two add up to 100; for a window that is closed in that state
both values are 0. -/
theorem calculate_statistics_windows (s : State) (j : Int)
    (hj0 : 0 ≤ j) (hj : j < MAX_WINDOWS) :
    ((s.windows j).is_open = true →
      (calculate_statistics s).stats.window_utilization j = utilization_of (s.windows j)
      ∧ (calculate_statistics s).stats.window_idle_rate j = idle_rate_of (s.windows j)
      ∧ (calculate_statistics s).stats.window_utilization j
          + (calculate_statistics s).stats.window_idle_rate j = 100)
    ∧ ((s.windows j).is_open = false →
      (calculate_statistics s).stats.window_utilization j = 0
      ∧ (calculate_statistics s).stats.window_idle_rate j = 0) := by
  obtain ⟨h1, h2⟩ := (calculate_statistics_fields s).2.2.2.2.2.2 j
  constructor
  · intro ho
    rw [h1, h2, if_pos ⟨hj0, hj, ho⟩, if_pos ⟨hj0, hj, ho⟩]
    refine ⟨rfl, rfl, ?_⟩
    unfold utilization_of idle_rate_of
    split_ifs
    · ring
    · ring
  · intro hc
    have hn : ¬ (0 ≤ j ∧ j < MAX_WINDOWS ∧ (s.windows j).is_open = true) := by
      intro h
      rw [hc] at h
      cases h.2.2
    rw [h1, h2, if_neg hn, if_neg hn]
    exact ⟨rfl, rfl⟩

/-- C18 on the code: in this run window 1 is open from t = 2 to t = 13, serves
one customer for 10 time units and is idle for 1, and is closed when the run
ends.  `print_statistics` lists it, but `calculate_statistics` reports
utilization 0 and idle rate 0 for it, not `100 * 10 / 11` and the rest to 100. -/
theorem closed_window_statistics :
    (run_simulation (fun _ => 0) 7 closed_window_input).map
        (fun s => ((s.windows 1).is_open, (s.windows 1).total_busy_time,
                   (s.windows 1).total_idle_time, (s.windows 1).served_count))
      = some (false, 10, 1, 1)
    ∧ open_span (fun _ => 0) 1 7 (sim_start closed_window_input) = 11
    ∧ (run_simulation (fun _ => 0) 7 closed_window_input).map
        (fun s => listed_by_print_statistics s 1) = some true
    ∧ (run_simulation (fun _ => 0) 7 closed_window_input).map
        (fun s => ((calculate_statistics s).stats.window_utilization 1,
                   (calculate_statistics s).stats.window_idle_rate 1))
      = some (0, 0)
    ∧ (100 : ℚ) * 10 / (10 + 1) ≠ 0 := by
  decide!

/-! ### The clock -/

theorem arrival_enqueue_frame (s : State) (c : Customer) :
    (arrival_enqueue s c).windows = s.windows
    ∧ (arrival_enqueue s c).customers = s.customers
    ∧ (arrival_enqueue s c).params = s.params
    ∧ (arrival_enqueue s c).current_time = s.current_time
    ∧ (arrival_enqueue s c).active_windows = s.active_windows := by
  unfold arrival_enqueue
  split_ifs <;> exact ⟨rfl, rfl, rfl, rfl, rfl⟩

theorem completion_dispatch_frame (rng : Nat → Nat) (s : State) (w : Int) :
    (completion_dispatch rng s w).current_time = s.current_time
    ∧ (completion_dispatch rng s w).params = s.params := by
  unfold completion_dispatch
  dsimp only
  split_ifs
  · rw [(assign_frame _ w _).2.1, (assign_frame _ w _).1, get_next_customer_time,
      get_next_customer_params]
    exact ⟨rfl, rfl⟩
  · exact ⟨get_next_customer_time rng s, get_next_customer_params rng s⟩

theorem handle_event_frame (rng : Nat → Nat) (s : State) (e : NextEvent) :
    (handle_event rng s e).current_time = s.current_time
    ∧ (handle_event rng s e).params = s.params := by
  unfold handle_event
  split_ifs with h0 h1
  · unfold customer_arrival
    have he : ∀ s1 : State, arrival_dispatch rng s1
        = if find_idle_window s1 ≠ -1 then
            completion_dispatch rng s1 (find_idle_window s1)
          else s1 := fun _ => rfl
    rw [(pool_change_adjust _).time_eq, (pool_change_adjust _).params_eq, he]
    obtain ⟨_, _, hp, ht, _⟩ :=
      arrival_enqueue_frame s (s.customers e.next_event_customer_index)
    split_ifs
    · obtain ⟨h1, h2⟩ := completion_dispatch_frame rng
        (arrival_enqueue s (s.customers e.next_event_customer_index))
        (find_idle_window (arrival_enqueue s (s.customers e.next_event_customer_index)))
      exact ⟨h1.trans ht, h2.trans hp⟩
    · exact ⟨ht, hp⟩
  · rw [(pool_change_adjust _).time_eq, (pool_change_adjust _).params_eq]
    obtain ⟨h1, h2⟩ := completion_dispatch_frame rng
      (finish_service s e.next_event_window) e.next_event_window
    exact ⟨h1.trans (finish_frame s _).2.1, h2.trans (finish_frame s _).1⟩
  · exact ⟨rfl, rfl⟩

theorem loop_body_clock (rng : Nat → Nat) (s : State)
    (hc : s.current_time < s.params.simulation_time) :
    s.current_time < (loop_body rng s).1.current_time
    ∧ (loop_body rng s).1.params = s.params
    ∧ ((loop_body rng s).2 = true →
        (loop_body rng s).1.current_time = s.params.simulation_time)
    ∧ ((loop_body rng s).2 = false →
        (loop_body rng s).1.current_time = (find_next_event s).next_event_time) := by
  unfold loop_body
  dsimp only
  split_ifs with hm
  · exact ⟨hc, rfl, fun _ => rfl, fun h => by simp at h⟩
  · obtain ⟨ht, hp⟩ := handle_event_frame rng (advance_clock s (find_next_event s))
      (find_next_event s)
    have hlt : s.current_time < (find_next_event s).next_event_time := by
      rcases find_next_event_ok s with hm' | ⟨_, h, _⟩ | ⟨_, h, _⟩
      · exact absurd hm' hm
      · exact h
      · exact h
    refine ⟨?_, hp, fun h => by simp at h, fun _ => ht⟩
    show s.current_time < (handle_event rng (advance_clock s (find_next_event s))
      (find_next_event s)).current_time
    rw [ht]
    exact hlt

/-- C21: the clock advances strictly forward.  In every iteration of the event
loop, that is in every execution of the loop body at a state with
`current_time < simulation_time`, the clock after the iteration is strictly
later than before: it is `simulation_time` after the drained step and the time
of the selected event after an event step.  The loop ends, and when it ends
`current_time ≥ simulation_time`. -/
theorem clock_strictly_forward (rng : Nat → Nat) (s0 : State) :
    (∀ s : State, s.current_time < s.params.simulation_time →
      s.current_time < (loop_body rng s).1.current_time
      ∧ ((loop_body rng s).2 = true →
          (loop_body rng s).1.current_time = s.params.simulation_time)
      ∧ ((loop_body rng s).2 = false →
          (loop_body rng s).1.current_time = (find_next_event s).next_event_time))
    ∧ (∃ s', run_simulation rng (2 * s0.params.customer_count.toNat + 1) s0 = some s')
    ∧ (∀ (fuel : Nat) (s' : State), run_simulation rng fuel s0 = some s' →
        s'.params.simulation_time = s0.params.simulation_time
        ∧ s'.current_time ≥ s0.params.simulation_time) := by
  refine ⟨?_, run_simulation_terminates rng s0, ?_⟩
  · intro s hc
    obtain ⟨h1, _, h3, h4⟩ := loop_body_clock rng s hc
    exact ⟨h1, h3, h4⟩
  · intro fuel s' hrun
    have hp : s'.params = s0.params :=
      run_loop_inv rng (fun s => s.params = s0.params)
        (fun s hs hc => (loop_body_clock rng s hc).2.1.trans hs) fuel (sim_start s0) s' rfl hrun
    obtain ⟨_, hx⟩ := run_loop_eq_after rng fuel _ s' hrun
    rw [hp] at hx
    rw [hp]
    exact ⟨rfl, not_lt.mp hx⟩

/-- Witness for C21: the first iteration of Scenario A moves the clock from 0
to 1, and the run ends at t = 100. -/
theorem clock_strictly_forward_witness :
    (sim_start scenario_a_input).current_time = 0
    ∧ (sim_start scenario_a_input).current_time
        < (loop_body (fun _ => 0) (sim_start scenario_a_input)).1.current_time
    ∧ (loop_body (fun _ => 0) (sim_start scenario_a_input)).1.current_time = 1
    ∧ scenario_a_final.current_time ≥ scenario_a_input.params.simulation_time :=
  ⟨by decide!,
   ((clock_strictly_forward (fun _ => 0) scenario_a_input).1
      (sim_start scenario_a_input) (by decide!)).1,
   by decide!,
   ((clock_strictly_forward (fun _ => 0) scenario_a_input).2.2 7 scenario_a_final
      scenario_a_final_run).2⟩

/-! ### Traces of a run -/

theorem run_log_forall {α : Type} (rng : Nat → Nat) (f : State → List α)
    (P : α → Prop) (Inv : State → Prop)
    (hstep : ∀ s, Inv s → s.current_time < s.params.simulation_time →
      Inv (loop_body rng s).1 ∧ ∀ x ∈ f s, P x) :
    ∀ (k : Nat) (s : State), Inv s → ∀ x ∈ run_log rng f k s, P x := by
  intro k
  induction k with
  | zero => intro s _ x hx; simp [run_log] at hx
  | succ k ih =>
    intro s hs x hx
    unfold run_log at hx
    split_ifs at hx with hc
    · obtain ⟨h1, h2⟩ := hstep s hs hc
      rcases List.mem_append.mp hx with hx | hx
      · exact h2 x hx
      · exact ih _ h1 x hx
    · simp at hx

theorem busy_open_after (rng : Nat → Nat) :
    ∀ (k : Nat) (s : State), BusyOpen s → BusyOpen (after_iterations rng k s) := by
  intro k
  induction k with
  | zero => intro s h; exact h
  | succ k ih =>
    intro s h
    unfold after_iterations
    split_ifs
    · exact ih _ (account_loop_body rng s h).1
    · exact h

theorem completion_dispatch_states_ok (rng : Nat → Nat) (s : State) (w : Int)
    (hbo : BusyOpen s)
    (hopen : (s.windows w).is_open = true) (hidle : (s.windows w).is_busy = false) :
    ∀ x ∈ completion_dispatch_states rng s w, BusyOpen x := by
  have hwin := get_next_customer_windows rng s
  have ht := get_next_customer_time rng s
  obtain ⟨hbo1, _⟩ := account_same_windows s _ hwin ht hbo
  intro x hx
  unfold completion_dispatch_states at hx
  rcases List.mem_cons.mp hx with hx | hx
  · rw [hx]; exact hbo1
  · split_ifs at hx with hid
    · rw [List.mem_singleton.mp hx]
      exact (account_assign (get_next_customer rng s).2 w (get_next_customer rng s).1 hbo1
        (by rw [hwin]; exact hopen) (by rw [hwin]; exact hidle)).1
    · simp at hx

theorem arrival_dispatch_states_ok (rng : Nat → Nat) (s : State) (hbo : BusyOpen s) :
    ∀ x ∈ arrival_dispatch_states rng s, BusyOpen x := by
  intro x hx
  unfold arrival_dispatch_states at hx
  split_ifs at hx with hf
  · rcases find_idle_window_spec s with hn | ⟨_, _, hp, _⟩
    · exact absurd hn hf
    · simp only [Bool.and_eq_true, Bool.not_eq_true'] at hp
      exact completion_dispatch_states_ok rng s _ hbo hp.1 hp.2 x hx
  · simp at hx

theorem handle_event_states_ok (rng : Nat → Nat) (s : State) (e : NextEvent)
    (hbo : BusyOpen s)
    (hev : e.next_event_type = 1 →
      0 ≤ e.next_event_window ∧ e.next_event_window < MAX_WINDOWS
      ∧ (s.windows e.next_event_window).is_busy = true) :
    ∀ x ∈ handle_event_states rng s e, BusyOpen x := by
  intro x hx
  unfold handle_event_states at hx
  split_ifs at hx with h0 h1
  · have hbo1 : BusyOpen (arrival_enqueue s (s.customers e.next_event_customer_index)) :=
      (account_same_windows s _ (arrival_enqueue_frame s _).1
        (arrival_enqueue_frame s _).2.2.2.1 hbo).1
    rcases List.mem_cons.mp hx with hx | hx
    · rw [hx]; exact hbo1
    · rcases List.mem_append.mp hx with hx | hx
      · exact arrival_dispatch_states_ok rng _ hbo1 x hx
      · rw [List.mem_singleton.mp hx]
        exact (account_adjust _ (account_arrival_dispatch rng _ hbo1).1).1
  · obtain ⟨hw0, hw, hb⟩ := hev h1
    have hbo1 := (account_finish s e.next_event_window hbo).1
    have hfl := finish_service_flags s e.next_event_window e.next_event_window
    have hopen : ((finish_service s e.next_event_window).windows e.next_event_window).is_open
        = true := by rw [hfl.1]; exact hbo _ hw0 hw hb
    rcases List.mem_cons.mp hx with hx | hx
    · rw [hx]; exact hbo1
    · rcases List.mem_append.mp hx with hx | hx
      · exact completion_dispatch_states_ok rng _ _ hbo1 hopen (hfl.2.2 hw0 hw) x hx
      · rw [List.mem_singleton.mp hx]
        exact (account_adjust _
          (account_dispatch rng _ e.next_event_window hbo1 hopen (hfl.2.2 hw0 hw)).1).1
  · simp at hx

theorem event_window_busy (s : State) (hm : (find_next_event s).next_event_type ≠ -1) :
    (find_next_event s).next_event_type = 1 →
      0 ≤ (find_next_event s).next_event_window
      ∧ (find_next_event s).next_event_window < MAX_WINDOWS
      ∧ ((advance_clock s (find_next_event s)).windows
          (find_next_event s).next_event_window).is_busy = true := by
  intro h1
  rcases find_next_event_ok s with hm' | ⟨h0, _⟩ | ⟨_, _, hw0, hw, hb, _⟩
  · exact absurd hm' hm
  · rw [h1] at h0; cases h0
  · refine ⟨hw0, hw, ?_⟩
    have := (credit_idle_window s
      ((find_next_event s).next_event_time - s.current_time)
      (find_next_event s).next_event_window).1
    exact this.trans hb

theorem loop_body_states_ok (rng : Nat → Nat) (s : State) (hbo : BusyOpen s) :
    ∀ x ∈ loop_body_states rng s, BusyOpen x := by
  intro x hx
  unfold loop_body_states at hx
  dsimp only at hx
  split_ifs at hx with hm
  · rw [List.mem_singleton.mp hx]
    exact (account_clock s _ hbo).1
  · have hbo1 := (account_clock s (find_next_event s).next_event_time hbo).1
    rcases List.mem_cons.mp hx with hx | hx
    · rw [hx]; exact hbo1
    · exact handle_event_states_ok rng (advance_clock s (find_next_event s))
        (find_next_event s) hbo1 (event_window_busy s hm) x hx

theorem last_cons_concat {α : Type} (a b : α) (l : List α) :
    (a :: (l ++ [b])).getLast? = some b := by
  rw [← List.cons_append, List.getLast?_concat]

theorem handle_event_states_last (rng : Nat → Nat) (s : State) (e : NextEvent)
    (h : e.next_event_type = 0 ∨ e.next_event_type = 1) :
    (handle_event_states rng s e).getLast? = some (handle_event rng s e) := by
  unfold handle_event_states handle_event customer_arrival
  split_ifs with h0 h1
  · exact last_cons_concat _ _ _
  · exact last_cons_concat _ _ _
  · rcases h with h | h
    · exact absurd h h0
    · exact absurd h h1

/-- C23: every busy window is open, in every state of a run.  The property holds
after `init_windows`, on entry to the loop, and in every state a pass through
the loop body goes through: after the clock has moved, after the arrival has
been enqueued or the service finished, after the dequeue, after the assignment
and after `adjust_windows`; these states end with the state the pass hands to
the next loop test.  It therefore holds at every loop test and in the state the
run ends in.  The windows concerned are the `MAX_WINDOWS` = 20 windows. -/
theorem busy_implies_open (rng : Nat → Nat) (s0 : State) :
    MAX_WINDOWS = 20
    ∧ BusyOpen (init_windows s0)
    ∧ BusyOpen (sim_start s0)
    ∧ (∀ (k : Nat) (s : State),
        s ∈ run_log rng (loop_body_states rng) k (sim_start s0) → BusyOpen s)
    ∧ (∀ s : State, (loop_body_states rng s).getLast? = some (loop_body rng s).1)
    ∧ (∀ k : Nat, BusyOpen (after_iterations rng k (sim_start s0)))
    ∧ (∀ (fuel : Nat) (s' : State), run_simulation rng fuel s0 = some s' → BusyOpen s') := by
  have hstart := (account_start s0).1
  refine ⟨rfl, ?_, hstart, ?_, ?_, ?_, ?_⟩
  · exact hstart
  · intro k s hs
    exact run_log_forall rng (loop_body_states rng) BusyOpen BusyOpen
      (fun s hbo _ => ⟨(account_loop_body rng s hbo).1, loop_body_states_ok rng s hbo⟩)
      k (sim_start s0) hstart s hs
  · intro s
    unfold loop_body_states loop_body
    dsimp only
    split_ifs with hm
    · rfl
    · have h' : (find_next_event s).next_event_type = 0
          ∨ (find_next_event s).next_event_type = 1 := by
        rcases find_next_event_ok s with h | ⟨h, _⟩ | ⟨h, _⟩
        · exact absurd h hm
        · exact Or.inl h
        · exact Or.inr h
      rw [List.getLast?_cons, handle_event_states_last rng _ _ h']
      rfl
  · intro k
    exact busy_open_after rng k _ hstart
  · intro fuel s' hrun
    rw [(run_loop_eq_after rng fuel _ s' hrun).1]
    exact busy_open_after rng fuel _ hstart

/-- Witness for C23: after the first pass of Scenario A window 0 is busy, and it
is open; the trace of the first pass holds five states. -/
theorem busy_implies_open_witness :
    ((after_iterations (fun _ => 0) 1 (sim_start scenario_a_input)).windows 0).is_busy = true
    ∧ ((after_iterations (fun _ => 0) 1 (sim_start scenario_a_input)).windows 0).is_open
        = true
    ∧ (run_log (fun _ => 0) (loop_body_states (fun _ => 0)) 1
        (sim_start scenario_a_input)).length = 5 :=
  ⟨by decide!,
   (busy_implies_open (fun _ => 0) scenario_a_input).2.2.2.2.2.1 1 0 (by decide) (by decide)
     (by decide!),
   by decide!⟩

/-! ### The guarded calls -/

theorem queue_nonempty (q : Queue) (hwf : q.WF) (h : is_queue_empty q = false) :
    (Call.dequeue q).ok := by
  refine ⟨h, fun hn => ?_⟩
  rw [(is_queue_empty_wf q hwf).mpr hn] at h
  cases h

theorem get_next_customer_calls_ok (rng : Nat → Nat) (s : State) (hwf : QueuesWF s) :
    ∀ x ∈ get_next_customer_calls rng s, x.ok := by
  intro x hx
  unfold get_next_customer_calls at hx
  split_ifs at hx with h1 h2 h3 h4
  · rw [List.mem_singleton.mp hx]
    simp only [Bool.and_eq_true, Bool.not_eq_true'] at h1
    exact queue_nonempty _ hwf.1 h1.1
  · rw [List.mem_singleton.mp hx]
    simp only [Bool.and_eq_true, Bool.not_eq_true'] at h1
    exact queue_nonempty _ hwf.2 h1.2
  · rw [List.mem_singleton.mp hx]
    simp only [Bool.not_eq_true'] at h3
    exact queue_nonempty _ hwf.1 h3
  · rw [List.mem_singleton.mp hx]
    simp only [Bool.not_eq_true'] at h4
    exact queue_nonempty _ hwf.2 h4
  · simp at hx

theorem completion_dispatch_calls_ok (rng : Nat → Nat) (s : State) (w : Int)
    (hwf : QueuesWF s) (hw0 : 0 ≤ w) (hw : w < MAX_WINDOWS)
    (hopen : (s.windows w).is_open = true) (hidle : (s.windows w).is_busy = false) :
    ∀ x ∈ completion_dispatch_calls rng s w, x.ok := by
  intro x hx
  unfold completion_dispatch_calls at hx
  rcases List.mem_append.mp hx with hx | hx
  · exact get_next_customer_calls_ok rng s hwf x hx
  · split_ifs at hx with hid
    · rw [List.mem_singleton.mp hx]
      refine ⟨hw0, hw, ?_, ?_⟩
      · rw [get_next_customer_windows]; exact hopen
      · rw [get_next_customer_windows]; exact hidle
    · simp at hx

theorem arrival_dispatch_calls_ok (rng : Nat → Nat) (s : State) (hwf : QueuesWF s) :
    ∀ x ∈ arrival_dispatch_calls rng s, x.ok := by
  intro x hx
  unfold arrival_dispatch_calls at hx
  split_ifs at hx with hf
  · rcases find_idle_window_spec s with hn | ⟨h0, h1, hp, _⟩
    · exact absurd hn hf
    · simp only [Bool.and_eq_true, Bool.not_eq_true'] at hp
      exact completion_dispatch_calls_ok rng s _ hwf h0 h1 hp.1 hp.2 x hx
  · simp at hx

theorem handle_event_calls_ok (rng : Nat → Nat) (s : State) (e : NextEvent)
    (hwf : QueuesWF s) (hbo : BusyOpen s)
    (hev : e.next_event_type = 1 →
      0 ≤ e.next_event_window ∧ e.next_event_window < MAX_WINDOWS
      ∧ (s.windows e.next_event_window).is_busy = true) :
    ∀ x ∈ handle_event_calls rng s e, x.ok := by
  intro x hx
  unfold handle_event_calls at hx
  split_ifs at hx with h0 h1
  · exact arrival_dispatch_calls_ok rng _ (arrival_enqueue_measure s _ hwf).1 x hx
  · obtain ⟨hw0, hw, hb⟩ := hev h1
    have hfl := finish_service_flags s e.next_event_window e.next_event_window
    rcases List.mem_cons.mp hx with hx | hx
    · rw [hx]
      exact ⟨hw0, hw, hb⟩
    · exact completion_dispatch_calls_ok rng _ _ (finish_measure s _ hwf).1 hw0 hw
        (by rw [hfl.1]; exact hbo _ hw0 hw hb) (hfl.2.2 hw0 hw) x hx
  · simp at hx

theorem loop_body_calls_ok (rng : Nat → Nat) (s : State) (hwf : QueuesWF s)
    (hbo : BusyOpen s) : ∀ x ∈ loop_body_calls rng s, x.ok := by
  intro x hx
  unfold loop_body_calls at hx
  dsimp only at hx
  split_ifs at hx with hm
  · simp at hx
  · exact handle_event_calls_ok rng (advance_clock s (find_next_event s))
      (find_next_event s) hwf (account_clock s (find_next_event s).next_event_time hbo).1
      (event_window_busy s hm) x hx

/-- C22: the contract-violation branches are unreachable.  In every run of
`run_simulation`, every call of `dequeue` is made on a queue that is not empty
(its `size` is not 0 and it holds a node), every call of
`assign_customer_to_window` names one of the `MAX_WINDOWS` windows, open and idle
at the moment of the call, and every call of `finish_service` names one of the
`MAX_WINDOWS` windows, busy at the moment of the call.  This holds for every
parameter set and every array of customer records, in particular for validated
parameters and ids in `1 .. customer_count`. -/
theorem contract_branches_unreachable (rng : Nat → Nat) (s0 : State) :
    (∀ (k : Nat) (c : Call),
      c ∈ run_log rng (loop_body_calls rng) k (sim_start s0) → c.ok)
    ∧ (∀ (k : Nat) (q : Queue),
        Call.dequeue q ∈ run_log rng (loop_body_calls rng) k (sim_start s0) →
        is_queue_empty q = false ∧ q.nodes ≠ [])
    ∧ (∀ (k : Nat) (s : State) (w : Int) (c : Customer),
        Call.assign s w c ∈ run_log rng (loop_body_calls rng) k (sim_start s0) →
        0 ≤ w ∧ w < MAX_WINDOWS
          ∧ (s.windows w).is_open = true ∧ (s.windows w).is_busy = false)
    ∧ (∀ (k : Nat) (s : State) (w : Int),
        Call.finish s w ∈ run_log rng (loop_body_calls rng) k (sim_start s0) →
        0 ≤ w ∧ w < MAX_WINDOWS ∧ (s.windows w).is_busy = true) := by
  have key : ∀ (k : Nat) (c : Call),
      c ∈ run_log rng (loop_body_calls rng) k (sim_start s0) → c.ok := by
    intro k c hc
    exact run_log_forall rng (loop_body_calls rng) Call.ok
      (fun s => QueuesWF s ∧ BusyOpen s)
      (fun s hs _ => ⟨⟨(loop_body_measure rng s hs.1).1, (account_loop_body rng s hs.2).1⟩,
        loop_body_calls_ok rng s hs.1 hs.2⟩)
      k (sim_start s0) ⟨queues_wf_start s0, (account_start s0).1⟩ c hc
  exact ⟨key, fun k q h => key k _ h, fun k s w c h => key k _ h, fun k s w h => key k _ h⟩

/-- Witness for C22: the run of Scenario A makes six guarded calls (a dequeue and
an assignment at t = 1, a completion, a dequeue and an assignment at t = 6, a
completion at t = 11), and each of them meets its precondition. -/
theorem contract_branches_unreachable_witness :
    (run_log (fun _ => 0) (loop_body_calls (fun _ => 0)) 7
        (sim_start scenario_a_input)).length = 6
    ∧ ∀ c : Call,
        c ∈ run_log (fun _ => 0) (loop_body_calls (fun _ => 0)) 7
          (sim_start scenario_a_input) → c.ok :=
  ⟨by decide!, (contract_branches_unreachable (fun _ => 0) scenario_a_input).1 7⟩

/-! ### Arrivals and assignments of a run -/

theorem scan_arrivals_range_lowest (s : State) (e0 : NextEvent)
    (h0 : e0.next_event_type ≠ 0) :
    ∀ n : Nat,
      (∀ j : Nat, j < n → (s.customers j).arrival_time > s.current_time →
        ((List.range n).foldl
          (fun (e : NextEvent) (i : Nat) =>
            if (s.customers i).arrival_time > s.current_time
                ∧ (s.customers i).arrival_time < e.next_event_time then
              { e with
                next_event_time := (s.customers i).arrival_time
                next_event_type := 0
                next_event_customer_index := i }
            else e) e0).next_event_time ≤ (s.customers j).arrival_time)
      ∧ (((List.range n).foldl
          (fun (e : NextEvent) (i : Nat) =>
            if (s.customers i).arrival_time > s.current_time
                ∧ (s.customers i).arrival_time < e.next_event_time then
              { e with
                next_event_time := (s.customers i).arrival_time
                next_event_type := 0
                next_event_customer_index := i }
            else e) e0).next_event_type = 0 →
        ∃ i : Nat,
          ((List.range n).foldl
            (fun (e : NextEvent) (i : Nat) =>
              if (s.customers i).arrival_time > s.current_time
                  ∧ (s.customers i).arrival_time < e.next_event_time then
                { e with
                  next_event_time := (s.customers i).arrival_time
                  next_event_type := 0
                  next_event_customer_index := i }
              else e) e0).next_event_customer_index = (i : Int)
          ∧ ∀ j : Nat, j < i →
            (s.customers j).arrival_time ≠
              ((List.range n).foldl
                (fun (e : NextEvent) (i : Nat) =>
                  if (s.customers i).arrival_time > s.current_time
                      ∧ (s.customers i).arrival_time < e.next_event_time then
                    { e with
                      next_event_time := (s.customers i).arrival_time
                      next_event_type := 0
                      next_event_customer_index := i }
                  else e) e0).next_event_time) := by
  intro n
  induction n with
  | zero =>
    refine ⟨fun j hj => absurd hj (Nat.not_lt_zero j), fun h => absurd h ?_⟩
    simpa using h0
  | succ n ih =>
    rw [List.range_succ, List.foldl_append]
    simp only [List.foldl_cons, List.foldl_nil]
    generalize (List.range n).foldl
      (fun (e : NextEvent) (i : Nat) =>
        if (s.customers i).arrival_time > s.current_time
            ∧ (s.customers i).arrival_time < e.next_event_time then
          { e with
            next_event_time := (s.customers i).arrival_time
            next_event_type := 0
            next_event_customer_index := i }
        else e) e0 = r at ih ⊢
    obtain ⟨hA, hB⟩ := ih
    split_ifs with hc
    · refine ⟨fun j hj hp => ?_, fun _ => ⟨n, rfl, fun j hj heq => ?_⟩⟩
      · rcases Nat.lt_succ_iff_lt_or_eq.mp hj with hlt | heq
        · exact le_trans (le_of_lt hc.2) (hA j hlt hp)
        · rw [heq]
      · have hp : (s.customers j).arrival_time > s.current_time := by
          rw [heq]; exact hc.1
        have := hA j hj hp
        rw [heq] at this
        exact absurd hc.2 (not_lt.mpr this)
    · refine ⟨fun j hj hp => ?_, hB⟩
      rcases Nat.lt_succ_iff_lt_or_eq.mp hj with hlt | heq
      · exact hA j hlt hp
      · rw [heq] at hp ⊢
        by_contra hlt
        exact hc ⟨hp, not_le.mp hlt⟩

theorem scan_completions_type (s : State) (e : NextEvent) :
    (scan_completions s e).next_event_type = 1 ∨ scan_completions s e = e := by
  unfold scan_completions
  refine foldl_inv (fun r : NextEvent => r.next_event_type = 1 ∨ r = e) _ _ _
    (Or.inr rfl) ?_
  intro b a _ hb
  dsimp only
  split_ifs
  · exact Or.inl rfl
  · exact hb
  · exact hb

theorem find_next_event_lowest (s : State) (h : (find_next_event s).next_event_type = 0) :
    ∀ j : Int, 0 ≤ j → j < (find_next_event s).next_event_customer_index →
      (s.customers j).arrival_time ≠ (find_next_event s).next_event_time := by
  have hsc := scan_completions_type s (scan_arrivals s
    { next_event_time := s.params.simulation_time + 1
      next_event_type := -1
      next_event_window := -1
      next_event_customer_index := -1 })
  have hfe : find_next_event s = scan_completions s (scan_arrivals s
    { next_event_time := s.params.simulation_time + 1
      next_event_type := -1
      next_event_window := -1
      next_event_customer_index := -1 }) := rfl
  rw [← hfe] at hsc
  rcases hsc with h1 | heq
  · rw [h] at h1; cases h1
  · rw [heq] at h ⊢
    obtain ⟨_, hB⟩ := scan_arrivals_range_lowest s
      { next_event_time := s.params.simulation_time + 1
        next_event_type := -1
        next_event_window := -1
        next_event_customer_index := -1 } (by simp) s.params.customer_count.toNat
    obtain ⟨i, hi, hlow⟩ := hB h
    intro j hj0 hj
    have hjn : ((j.toNat : Nat) : Int) = j := by omega
    have := hlow j.toNat (by
      have h1 : (scan_arrivals s
        { next_event_time := s.params.simulation_time + 1
          next_event_type := -1
          next_event_window := -1
          next_event_customer_index := -1 }).next_event_customer_index = (i : Int) := hi
      omega)
    rw [hjn] at this
    exact this
theorem static_refl (s : State) : StaticRecords s s :=
  ⟨rfl, fun _ => ⟨rfl, rfl⟩⟩

theorem static_trans (s s' s'' : State) (h1 : StaticRecords s s')
    (h2 : StaticRecords s' s'') : StaticRecords s s'' :=
  ⟨h2.1.trans h1.1, fun i => ⟨((h2.2 i).1).trans (h1.2 i).1, ((h2.2 i).2).trans (h1.2 i).2⟩⟩

theorem static_of_customers (s s' : State) (hp : s'.params = s.params)
    (hc : s'.customers = s.customers) : StaticRecords s s' :=
  ⟨hp, fun i => by rw [hc]; exact ⟨rfl, rfl⟩⟩

theorem static_assign (s : State) (w : Int) (c : Customer) :
    StaticRecords s (assign_customer_to_window s w c) :=
  ⟨(assign_frame s w c).1,
    fun i => ⟨(assign_customers_static s w c i).1, (assign_customers_static s w c i).2.1⟩⟩

theorem static_finish (s : State) (w : Int) : StaticRecords s (finish_service s w) :=
  ⟨(finish_frame s w).1,
    fun i => ⟨(finish_customers_static s w i).1, (finish_customers_static s w i).2.1⟩⟩

theorem static_dispatch (rng : Nat → Nat) (s : State) (w : Int) :
    StaticRecords s (completion_dispatch rng s w) := by
  have h1 : StaticRecords s (get_next_customer rng s).2 :=
    static_of_customers _ _ (get_next_customer_params rng s)
      (get_next_customer_customers rng s)
  unfold completion_dispatch
  dsimp only
  split_ifs
  · exact static_trans _ _ _ h1 (static_assign _ _ _)
  · exact h1

theorem static_adjust (s : State) : StaticRecords s (adjust_windows s) :=
  static_of_customers _ _ (pool_change_adjust s).params_eq (pool_change_adjust s).customers_eq

theorem static_handle_event (rng : Nat → Nat) (s : State) (e : NextEvent) :
    StaticRecords s (handle_event rng s e) := by
  unfold handle_event
  split_ifs with h0 h1
  · unfold customer_arrival
    have he : ∀ s1 : State, arrival_dispatch rng s1
        = if find_idle_window s1 ≠ -1 then
            completion_dispatch rng s1 (find_idle_window s1)
          else s1 := fun _ => rfl
    have h1 : StaticRecords s (arrival_enqueue s (s.customers e.next_event_customer_index)) :=
      static_of_customers _ _ (arrival_enqueue_frame s _).2.2.1 (arrival_enqueue_frame s _).2.1
    refine static_trans _ _ _ (static_trans _ _ _ h1 ?_) (static_adjust _)
    rw [he]
    split_ifs
    · exact static_dispatch rng _ _
    · exact static_refl _
  · exact static_trans _ _ _
      (static_trans _ _ _ (static_finish s _) (static_dispatch rng _ _)) (static_adjust _)
  · exact static_refl s

theorem static_loop_body (rng : Nat → Nat) (s : State) :
    StaticRecords s (loop_body rng s).1 := by
  unfold loop_body
  dsimp only
  split_ifs with hm
  · exact static_of_customers _ _ rfl rfl
  · exact static_trans _ _ _
      (static_of_customers s (advance_clock s (find_next_event s)) rfl rfl)
      (static_handle_event rng _ _)

theorem loop_body_arrivals_spec (rng : Nat → Nat) (s : State) :
    ∀ a ∈ loop_body_arrivals s,
      loop_body_arrivals s = [a]
      ∧ (loop_body rng s).1.current_time = a.clock
      ∧ 0 ≤ a.index ∧ a.index < s.params.customer_count
      ∧ (s.customers a.index).arrival_time = a.clock
      ∧ s.current_time < a.clock
      ∧ a.customer = s.customers a.index
      ∧ ∀ j : Int, 0 ≤ j → j < a.index → (s.customers j).arrival_time ≠ a.clock := by
  intro a ha
  have hlb : loop_body rng s
      = if (find_next_event s).next_event_type = -1 then (drain s, true)
        else (handle_event rng (advance_clock s (find_next_event s))
          (find_next_event s), false) := rfl
  unfold loop_body_arrivals handle_event_arrivals at ha ⊢
  dsimp only at ha ⊢
  rw [hlb]
  split_ifs at ha ⊢ with hm h0
  · simp at ha
  · have hae := List.mem_singleton.mp ha
    rcases find_next_event_ok s with hm' | ⟨_, ht, hi0, hi, harr⟩ | ⟨h1, _⟩
    · exact absurd hm' hm
    · have hlow := find_next_event_lowest s h0
      rw [hae]
      refine ⟨rfl, ?_, hi0, hi, harr, ht, rfl, hlow⟩
      exact (handle_event_frame rng _ _).1
    · rw [h0] at h1; cases h1
  · simp at ha

theorem run_arrivals_spec (rng : Nat → Nat) :
    ∀ (k : Nat) (s : State), ∀ a ∈ run_log rng loop_body_arrivals k s,
      0 ≤ a.index ∧ a.index < s.params.customer_count
      ∧ (s.customers a.index).arrival_time = a.clock
      ∧ s.current_time < a.clock
      ∧ a.customer.id = (s.customers a.index).id
      ∧ a.customer.arrival_time = a.clock
      ∧ ∀ j : Int, 0 ≤ j → j < a.index → (s.customers j).arrival_time ≠ a.clock := by
  intro k
  induction k with
  | zero => intro s a ha; simp [run_log] at ha
  | succ k ih =>
    intro s a ha
    unfold run_log at ha
    split_ifs at ha with hc
    · rcases List.mem_append.mp ha with ha | ha
      · obtain ⟨_, _, h0, h1, h2, h3, h4, h5⟩ := loop_body_arrivals_spec rng s a ha
        refine ⟨h0, h1, h2, h3, ?_, ?_, h5⟩
        · rw [h4]
        · rw [h4]; exact h2
      · obtain ⟨h0, h1, h2, h3, h4, h5, h6⟩ := ih _ a ha
        obtain ⟨hp, hst⟩ := static_loop_body rng s
        have hclk := (loop_body_clock rng s hc).1
        refine ⟨h0, ?_, ?_, lt_trans hclk h3, ?_, h5, fun j hj0 hj => ?_⟩
        · rw [← hp]; exact h1
        · rw [← (hst a.index).2]; exact h2
        · rw [← (hst a.index).1]; exact h4
        · rw [← (hst j).2]; exact h6 j hj0 hj
    · simp at ha

theorem run_arrivals_pairwise (rng : Nat → Nat) :
    ∀ (k : Nat) (s : State),
      List.Pairwise (fun a b : Arrival => a.clock < b.clock)
        (run_log rng loop_body_arrivals k s) := by
  intro k
  induction k with
  | zero => intro s; simp [run_log]
  | succ k ih =>
    intro s
    unfold run_log
    split_ifs with hc
    · rw [List.pairwise_append]
      refine ⟨?_, ih _, fun a ha b hb => ?_⟩
      · cases hl : loop_body_arrivals s with
        | nil => exact List.Pairwise.nil
        | cons a l =>
          have := (loop_body_arrivals_spec rng s a (by rw [hl]; exact List.mem_cons_self a l)).1
          rw [← hl, this]
          exact List.pairwise_singleton _ _
      · have h1 := (loop_body_arrivals_spec rng s a ha).2.1
        have h2 := (run_arrivals_spec rng k _ b hb).2.2.2.1
        rw [h1] at h2
        exact h2
    · exact List.Pairwise.nil

theorem get_next_customer_calls_assigned (rng : Nat → Nat) (s : State) :
    (get_next_customer_calls rng s).flatMap Call.assigned = [] := by
  unfold get_next_customer_calls
  split_ifs <;> rfl

theorem completion_dispatch_calls_assigned (rng : Nat → Nat) (s : State) (w : Int) :
    (completion_dispatch_calls rng s w).flatMap Call.assigned
      = if (get_next_customer rng s).1.id ≠ -1 then [(get_next_customer rng s).1] else [] := by
  unfold completion_dispatch_calls
  rw [List.flatMap_append, get_next_customer_calls_assigned]
  split_ifs <;> rfl

theorem completion_dispatch_waiting (rng : Nat → Nat) (s : State) (w : Int) :
    waiting_customers (completion_dispatch rng s w)
      = waiting_customers (get_next_customer rng s).2 := by
  unfold completion_dispatch waiting_customers
  dsimp only
  split_ifs
  · rw [(assign_frame _ w _).2.2.1, (assign_frame _ w _).2.2.2.1]
  · rfl

theorem dispatch_subperm (rng : Nat → Nat) (s : State) (w : Int) (hwf : QueuesWF s) :
    ((completion_dispatch_calls rng s w).flatMap Call.assigned
        ++ waiting_customers (completion_dispatch rng s w)).Subperm (waiting_customers s) := by
  rw [completion_dispatch_calls_assigned, completion_dispatch_waiting]
  rcases get_next_customer_cases rng s hwf with ⟨_, _, hid, hs⟩ | ⟨c, rest, hq, hc, hq1, hq2⟩
      | ⟨c, rest, hq, hc, hq1, hq2⟩
  · rw [if_neg (by simpa using hid), hs]
    exact List.Subperm.refl _
  · have hw : waiting_customers s = c :: (rest ++ s.normal_queue.nodes) := by
      unfold waiting_customers; rw [hq]; rfl
    have hw' : waiting_customers (get_next_customer rng s).2 = rest ++ s.normal_queue.nodes := by
      unfold waiting_customers; rw [hq1, hq2]
    rw [hw, hw', hc]
    split_ifs
    · exact List.Subperm.refl _
    · exact (List.sublist_cons_self _ _).subperm
  · have hw : waiting_customers s = s.priority_queue.nodes ++ c :: rest := by
      unfold waiting_customers; rw [hq]
    have hw' : waiting_customers (get_next_customer rng s).2
        = s.priority_queue.nodes ++ rest := by
      unfold waiting_customers; rw [hq1, hq2]
    rw [hw, hw', hc]
    split_ifs
    · show (c :: (s.priority_queue.nodes ++ rest)).Subperm _
      exact (List.perm_middle.symm).subperm
    · show (s.priority_queue.nodes ++ rest).Subperm _
      exact ((List.Sublist.refl s.priority_queue.nodes).append
        (List.sublist_cons_self c rest)).subperm
theorem arrival_dispatch_subperm (rng : Nat → Nat) (s : State) (hwf : QueuesWF s) :
    ((arrival_dispatch_calls rng s).flatMap Call.assigned
        ++ waiting_customers (arrival_dispatch rng s)).Subperm (waiting_customers s) := by
  have he : arrival_dispatch rng s
      = if find_idle_window s ≠ -1 then completion_dispatch rng s (find_idle_window s)
        else s := rfl
  rw [he]
  unfold arrival_dispatch_calls
  split_ifs
  · exact dispatch_subperm rng s _ hwf
  · exact List.Subperm.refl _

theorem adjust_windows_waiting (s : State) :
    waiting_customers (adjust_windows s) = waiting_customers s := by
  unfold waiting_customers
  rw [(pool_change_adjust s).pq_eq, (pool_change_adjust s).nq_eq]

theorem arrival_enqueue_waiting (s : State) (c : Customer) :
    (waiting_customers (arrival_enqueue s c)).Perm (waiting_customers s ++ [c]) := by
  unfold arrival_enqueue waiting_customers
  split_ifs
  · show ((s.priority_queue.nodes ++ [c]) ++ s.normal_queue.nodes).Perm _
    rw [List.append_assoc, List.append_assoc]
    exact List.Perm.append_left _ List.perm_append_comm
  · show (s.priority_queue.nodes ++ (s.normal_queue.nodes ++ [c])).Perm _
    rw [List.append_assoc]

theorem handle_event_subperm (rng : Nat → Nat) (s : State) (e : NextEvent)
    (hwf : QueuesWF s) :
    ((handle_event_calls rng s e).flatMap Call.assigned
        ++ waiting_customers (handle_event rng s e)).Subperm
      (waiting_customers s ++ (handle_event_arrivals s e).map Arrival.customer) := by
  unfold handle_event_calls handle_event handle_event_arrivals
  split_ifs with h0 h1
  · unfold customer_arrival
    rw [adjust_windows_waiting]
    exact (arrival_dispatch_subperm rng _ (arrival_enqueue_measure s _ hwf).1).trans
      (arrival_enqueue_waiting s _).subperm
  · rw [adjust_windows_waiting]
    have hw : waiting_customers (finish_service s e.next_event_window)
        = waiting_customers s := by
      unfold waiting_customers
      rw [(finish_frame s _).2.2.1, (finish_frame s _).2.2.2.1]
    have := dispatch_subperm rng (finish_service s e.next_event_window) e.next_event_window
      (finish_measure s _ hwf).1
    rw [hw] at this
    simpa [List.flatMap_cons, Call.assigned] using this
  · simp only [List.flatMap_nil, List.nil_append, List.map_nil, List.append_nil]
    exact List.Subperm.refl _

theorem loop_body_subperm (rng : Nat → Nat) (s : State) (hwf : QueuesWF s) :
    (loop_body_assigned rng s ++ waiting_customers (loop_body rng s).1).Subperm
      (waiting_customers s ++ (loop_body_arrivals s).map Arrival.customer) := by
  unfold loop_body_assigned loop_body_calls loop_body loop_body_arrivals
  dsimp only
  split_ifs with hm
  · show (waiting_customers s).Subperm (waiting_customers s ++ [])
    rw [List.append_nil]
  · exact handle_event_subperm rng (advance_clock s (find_next_event s))
      (find_next_event s) hwf

theorem run_subperm (rng : Nat → Nat) :
    ∀ (k : Nat) (s : State), QueuesWF s →
      (run_log rng (loop_body_assigned rng) k s
          ++ waiting_customers (after_iterations rng k s)).Subperm
        (waiting_customers s
          ++ (run_log rng loop_body_arrivals k s).map Arrival.customer) := by
  intro k
  induction k with
  | zero =>
    intro s _
    show (waiting_customers s).Subperm (waiting_customers s ++ [])
    rw [List.append_nil]
  | succ k ih =>
    intro s hwf
    unfold run_log after_iterations
    split_ifs with hc
    · have h1 := loop_body_subperm rng s hwf
      have h2 := ih _ (loop_body_measure rng s hwf).1
      rw [List.map_append, List.append_assoc, ← List.append_assoc (waiting_customers s)]
      refine ((List.subperm_append_left _).mpr h2).trans ?_
      rw [← List.append_assoc]
      exact (List.subperm_append_right _).mpr h1
    · show (waiting_customers s).Subperm (waiting_customers s ++ [])
      rw [List.append_nil]

theorem subperm_map {α β : Type} (f : α → β) (l₁ l₂ : List α) (h : l₁.Subperm l₂) :
    (l₁.map f).Subperm (l₂.map f) := by
  obtain ⟨l, hp, hs⟩ := h
  exact ⟨l.map f, hp.map f, hs.map f⟩

theorem subperm_nodup {α : Type} (l₁ l₂ : List α) (h : l₁.Subperm l₂) (hd : l₂.Nodup) :
    l₁.Nodup := by
  obtain ⟨l, hp, hs⟩ := h
  exact hp.nodup_iff.mp (hd.sublist hs)

theorem run_assigned_subperm (rng : Nat → Nat) (k : Nat) (s0 : State) :
    (run_log rng (loop_body_assigned rng) k (sim_start s0)).Subperm
      ((run_log rng loop_body_arrivals k (sim_start s0)).map Arrival.customer) := by
  have h := run_subperm rng k (sim_start s0) (queues_wf_start s0)
  have h0 : waiting_customers (sim_start s0) = [] := rfl
  rw [h0, List.nil_append] at h
  exact (List.sublist_append_left _ _).subperm.trans h

theorem run_log_exit {α : Type} (rng : Nat → Nat) (f : State → List α) (k : Nat)
    (s : State) (h : ¬ (s.current_time < s.params.simulation_time)) :
    run_log rng f k s = [] := by
  cases k with
  | zero => rfl
  | succ k =>
    unfold run_log
    rw [if_neg h]

theorem run_log_add {α : Type} (rng : Nat → Nat) (f : State → List α) (k : Nat) :
    ∀ (j : Nat) (s : State),
      run_log rng f (j + k) s
        = run_log rng f j s ++ run_log rng f k (after_iterations rng j s) := by
  intro j
  induction j with
  | zero =>
    intro s
    rw [Nat.zero_add]
    rfl
  | succ j ih =>
    intro s
    rw [Nat.succ_add]
    unfold after_iterations
    rw [run_log, run_log]
    split_ifs with hc
    · rw [ih, List.append_assoc]
    · rw [run_log_exit rng f k s hc]
      rfl

theorem after_iterations_add (rng : Nat → Nat) (k : Nat) :
    ∀ (j : Nat) (s : State),
      after_iterations rng (j + k) s = after_iterations rng k (after_iterations rng j s) := by
  intro j
  induction j with
  | zero =>
    intro s
    rw [Nat.zero_add]
    rfl
  | succ j ih =>
    intro s
    rw [Nat.succ_add]
    rw [after_iterations, after_iterations]
    split_ifs with hc
    · exact ih _
    · exact (after_iterations_exit rng k s hc).symm

theorem after_iterations_clock_le (rng : Nat → Nat) :
    ∀ (j : Nat) (s : State), s.current_time ≤ (after_iterations rng j s).current_time := by
  intro j
  induction j with
  | zero => intro s; exact le_refl _
  | succ j ih =>
    intro s
    unfold after_iterations
    split_ifs with hc
    · exact le_trans (le_of_lt (loop_body_clock rng s hc).1) (ih _)
    · exact le_refl _

theorem arrivals_eq_of_clock (rng : Nat → Nat) (k : Nat) (s : State) (a b : Arrival)
    (ha : a ∈ run_log rng loop_body_arrivals k s)
    (hb : b ∈ run_log rng loop_body_arrivals k s) (h : a.clock = b.clock) : a = b := by
  by_contra hne
  have hp : List.Pairwise (fun a b : Arrival => a.clock ≠ b.clock)
      (run_log rng loop_body_arrivals k s) :=
    (run_arrivals_pairwise rng k s).imp (fun hlt => ne_of_lt hlt)
  exact hp.forall (fun _ _ hxy => hxy.symm) ha hb hne h

theorem arrivals_index_nodup (rng : Nat → Nat) (k : Nat) (s : State) :
    ((run_log rng loop_body_arrivals k s).map Arrival.index).Nodup := by
  rw [List.Nodup, List.pairwise_map]
  refine (run_arrivals_pairwise rng k s).imp_of_mem ?_
  intro a b ha hb hlt heq
  have h1 := (run_arrivals_spec rng k s a ha).2.2.1
  have h2 := (run_arrivals_spec rng k s b hb).2.2.1
  rw [heq, h2] at h1
  rw [h1] at hlt
  exact lt_irrefl _ hlt

/-- C25: arrivals that are not later than an earlier clock value are skipped.
In a run started at `current_time = 0`: every pass through the loop body calls
`customer_arrival`, and with it `enqueue`, at most once; the customer enqueued
has an index in `0 .. customer_count - 1`, the clock at the call equals the
customer's arrival time, and that clock value is positive and above the clock
at every loop test up to the pass of the call; the clock values of the calls
increase strictly along the run.  Therefore a customer with
`arrival_time ≤ 0` is never enqueued; two enqueued customers never share an
arrival time; no customer with a lower index has the arrival time of an
enqueued customer, so that a customer who shares the arrival time of an enqueued
customer has a higher index and is never enqueued; and every customer assigned
to a window is a copy of a record that was enqueued, with the id and arrival
time of that record. -/
theorem shadowed_arrivals_never_enqueued (rng : Nat → Nat) (s0 : State)
    (hstart : s0.current_time = 0) :
    (∀ s : State, (loop_body_arrivals s).length ≤ 1)
    ∧ (∀ (k : Nat) (a : Arrival), a ∈ run_log rng loop_body_arrivals k (sim_start s0) →
        0 ≤ a.index ∧ a.index < s0.params.customer_count
        ∧ a.clock = (s0.customers a.index).arrival_time
        ∧ a.customer.arrival_time = a.clock
        ∧ a.customer.id = (s0.customers a.index).id
        ∧ 0 < a.clock
        ∧ ∀ j : Int, 0 ≤ j → j < a.index → (s0.customers j).arrival_time ≠ a.clock)
    ∧ (∀ j k : Nat, run_log rng loop_body_arrivals (j + k) (sim_start s0)
        = run_log rng loop_body_arrivals j (sim_start s0)
          ++ run_log rng loop_body_arrivals k (after_iterations rng j (sim_start s0)))
    ∧ (∀ (j k : Nat) (a : Arrival),
        a ∈ run_log rng loop_body_arrivals k (after_iterations rng j (sim_start s0)) →
        ∀ i : Nat, i ≤ j → (after_iterations rng i (sim_start s0)).current_time < a.clock)
    ∧ (∀ k : Nat, List.Pairwise (fun a b : Arrival => a.clock < b.clock)
        (run_log rng loop_body_arrivals k (sim_start s0)))
    ∧ (∀ (k : Nat) (i : Int), (s0.customers i).arrival_time ≤ 0 →
        ∀ a : Arrival, a ∈ run_log rng loop_body_arrivals k (sim_start s0) → a.index ≠ i)
    ∧ (∀ (k : Nat) (a b : Arrival),
        a ∈ run_log rng loop_body_arrivals k (sim_start s0) →
        b ∈ run_log rng loop_body_arrivals k (sim_start s0) →
        (s0.customers a.index).arrival_time = (s0.customers b.index).arrival_time → a = b)
    ∧ (∀ (k : Nat) (a : Arrival) (j : Int),
        a ∈ run_log rng loop_body_arrivals k (sim_start s0) →
        0 ≤ j → j ≠ a.index →
        (s0.customers j).arrival_time = (s0.customers a.index).arrival_time →
        a.index < j
        ∧ ∀ b : Arrival, b ∈ run_log rng loop_body_arrivals k (sim_start s0) → b.index ≠ j)
    ∧ (∀ (k : Nat) (c : Customer),
        c ∈ run_log rng (loop_body_assigned rng) k (sim_start s0) →
        ∃ a : Arrival, a ∈ run_log rng loop_body_arrivals k (sim_start s0)
          ∧ c = a.customer) := by
  have hspec : ∀ (k : Nat) (a : Arrival),
      a ∈ run_log rng loop_body_arrivals k (sim_start s0) →
      0 ≤ a.index ∧ a.index < s0.params.customer_count
      ∧ a.clock = (s0.customers a.index).arrival_time
      ∧ a.customer.arrival_time = a.clock
      ∧ a.customer.id = (s0.customers a.index).id
      ∧ 0 < a.clock
      ∧ ∀ j : Int, 0 ≤ j → j < a.index → (s0.customers j).arrival_time ≠ a.clock := by
    intro k a ha
    obtain ⟨h0, h1, h2, h3, h4, h5, h6⟩ := run_arrivals_spec rng k (sim_start s0) a ha
    have h3' : s0.current_time < a.clock := h3
    rw [hstart] at h3'
    exact ⟨h0, h1, h2.symm, h5, h4, h3', h6⟩
  have heq : ∀ (k : Nat) (a b : Arrival),
      a ∈ run_log rng loop_body_arrivals k (sim_start s0) →
      b ∈ run_log rng loop_body_arrivals k (sim_start s0) →
      (s0.customers a.index).arrival_time = (s0.customers b.index).arrival_time → a = b := by
    intro k a b ha hb h
    apply arrivals_eq_of_clock rng k _ a b ha hb
    rw [(hspec k a ha).2.2.1, (hspec k b hb).2.2.1]
    exact h
  refine ⟨?_, hspec, ?_, ?_, ?_, ?_, heq, ?_, ?_⟩
  · intro s
    cases hl : loop_body_arrivals s with
    | nil => simp
    | cons a l =>
      have := (loop_body_arrivals_spec rng s a (by rw [hl]; exact List.mem_cons_self a l)).1
      rw [← hl, this]
      simp
  · intro j k
    exact run_log_add rng loop_body_arrivals k j (sim_start s0)
  · intro j k a ha i hij
    have h1 := (run_arrivals_spec rng k _ a ha).2.2.2.1
    have h2 : after_iterations rng j (sim_start s0)
        = after_iterations rng (j - i) (after_iterations rng i (sim_start s0)) := by
      rw [← after_iterations_add]
      congr 1
      omega
    have h3 := after_iterations_clock_le rng (j - i) (after_iterations rng i (sim_start s0))
    rw [← h2] at h3
    exact lt_of_le_of_lt h3 h1
  · intro k
    exact run_arrivals_pairwise rng k (sim_start s0)
  · intro k i hi a ha hai
    obtain ⟨_, _, h2, _, _, h5, _⟩ := hspec k a ha
    rw [h2, hai] at h5
    exact absurd h5 (not_lt.mpr hi)
  · intro k a j ha hj0 hja hsame
    obtain ⟨_, _, h2, _, _, _, hlow⟩ := hspec k a ha
    have hlt : a.index < j := by
      rcases lt_trichotomy j a.index with h | h | h
      · exact absurd (hsame.trans h2.symm) (hlow j hj0 h)
      · exact absurd h hja
      · exact h
    refine ⟨hlt, fun b hb hbj => ?_⟩
    have := heq k b a hb ha (by rw [hbj]; exact hsame)
    rw [this] at hbj
    exact hja hbj.symm
  · intro k c hc
    have hsub := (run_assigned_subperm rng k s0).subset hc
    obtain ⟨a, ha, hac⟩ := List.mem_map.mp hsub
    exact ⟨a, ha, hac.symm⟩

/-- Witness for C25: two customers arrive together at t = 1.  The run enqueues
the customer at index 0 once, at clock 1, and assigns that customer (id 1); the
customer at index 1 is never enqueued.  In Scenario A the customer at index 0
arrives at t = 0 and is never enqueued; the other two are. -/
theorem shadowed_arrivals_never_enqueued_witness :
    shared_arrival_input.current_time = 0
    ∧ ((shared_arrival_input.customers 0).arrival_time = 1
        ∧ (shared_arrival_input.customers 1).arrival_time = 1)
    ∧ (run_log (fun _ => 0) loop_body_arrivals 5 (sim_start shared_arrival_input)).map
        (fun a => (a.index, a.clock)) = [(0, 1)]
    ∧ (run_log (fun _ => 0) (loop_body_assigned (fun _ => 0)) 5
        (sim_start shared_arrival_input)).map Customer.id = [1]
    ∧ (run_simulation (fun _ => 0) 5 shared_arrival_input).isSome = true
    ∧ (∀ a : Arrival,
        a ∈ run_log (fun _ => 0) loop_body_arrivals 5 (sim_start shared_arrival_input) →
        ∀ b : Arrival,
        b ∈ run_log (fun _ => 0) loop_body_arrivals 5 (sim_start shared_arrival_input) →
        (shared_arrival_input.customers a.index).arrival_time
          = (shared_arrival_input.customers b.index).arrival_time → a = b)
    ∧ (scenario_a_input.customers 0).arrival_time ≤ 0
    ∧ (run_log (fun _ => 0) loop_body_arrivals 7 (sim_start scenario_a_input)).map
        (fun a => (a.index, a.clock)) = [(1, 1), (2, 2)]
    ∧ ∀ a : Arrival,
        a ∈ run_log (fun _ => 0) loop_body_arrivals 7 (sim_start scenario_a_input) →
        a.index ≠ 0 :=
  ⟨by decide!, by decide!, by decide!, by decide!, by decide!,
   fun a ha b hb => (shadowed_arrivals_never_enqueued (fun _ => 0) shared_arrival_input
      (by decide!)).2.2.2.2.2.2.1 5 a b ha hb,
   by decide!, by decide!,
   (shadowed_arrivals_never_enqueued (fun _ => 0) scenario_a_input
      (by decide!)).2.2.2.2.2.1 7 0 (by decide!)⟩

/-! ### Ids and service times along a run -/

theorem assign_record_static (s : State) (w : Int) (c : Customer) (i : Int) :
    ((assign_customer_to_window s w c).customers i).id = (s.customers i).id
    ∧ ((assign_customer_to_window s w c).customers i).service_time
        = (s.customers i).service_time := by
  unfold assign_customer_to_window
  split_ifs
  · by_cases hi : i = c.id - 1
    · subst hi; simp
    · simp [Function.update_noteq hi]
  · exact ⟨rfl, rfl⟩

theorem finish_record_static (s : State) (w : Int) (i : Int) :
    ((finish_service s w).customers i).id = (s.customers i).id
    ∧ ((finish_service s w).customers i).service_time = (s.customers i).service_time := by
  unfold finish_service
  split_ifs
  · by_cases hi : i = (s.windows w).current_customer.id - 1
    · subst hi; simp
    · simp [Function.update_noteq hi]
  · exact ⟨rfl, rfl⟩

theorem listed_clock (n : Int) (s : State) (dt t : ℚ) (h : ListedInv n s) :
    ListedInv n { credit_idle s dt with current_time := t } := by
  refine ⟨h.count_eq, h.wf, h.records, h.waiting, fun w hw0 hw hb => ?_⟩
  obtain ⟨h1, _, _, h4, _⟩ := credit_idle_window s dt w
  have hb' : (s.windows w).is_busy = true := h1 ▸ hb
  have := h.serving w hw0 hw hb'
  show ((credit_idle s dt).windows w).current_customer.listed n
  rw [h4]
  exact this

theorem listed_enqueue (n : Int) (s : State) (i : Int) (h : ListedInv n s)
    (hi0 : 0 ≤ i) (hi : i < n) : ListedInv n (arrival_enqueue s (s.customers i)) := by
  obtain ⟨hw, hc, hp, _, _⟩ := arrival_enqueue_frame s (s.customers i)
  refine ⟨by rw [hp]; exact h.count_eq, (arrival_enqueue_measure s _ h.wf).1, ?_, ?_, ?_⟩
  · rw [hc]; exact h.records
  · intro c hcm
    have := (arrival_enqueue_waiting s (s.customers i)).subset hcm
    rcases List.mem_append.mp this with hm | hm
    · exact h.waiting c hm
    · rw [List.mem_singleton.mp hm]
      exact h.records i hi0 hi
  · rw [hw]; exact h.serving

theorem listed_dequeue (n : Int) (rng : Nat → Nat) (s : State) (h : ListedInv n s) :
    ListedInv n (get_next_customer rng s).2
    ∧ ((get_next_customer rng s).1.id ≠ -1 → (get_next_customer rng s).1.listed n) := by
  have hsub : ∀ c : Customer, c ∈ waiting_customers (get_next_customer rng s).2 →
      c ∈ waiting_customers s := by
    intro c hc
    have h1 := dispatch_subperm rng s 0 h.wf
    rw [completion_dispatch_waiting] at h1
    exact h1.subset (List.mem_append_right _ hc)
  constructor
  · refine ⟨by rw [get_next_customer_params]; exact h.count_eq,
      (get_next_customer_measure rng s h.wf).1, ?_, fun c hc => h.waiting c (hsub c hc), ?_⟩
    · rw [get_next_customer_customers]; exact h.records
    · rw [get_next_customer_windows]; exact h.serving
  · intro hid
    apply h.waiting
    have h1 := dispatch_subperm rng s 0 h.wf
    rw [completion_dispatch_calls_assigned, if_pos hid] at h1
    exact h1.subset (List.mem_append_left _ (List.mem_singleton.mpr rfl))

theorem listed_assign (n : Int) (s : State) (w : Int) (c : Customer) (h : ListedInv n s)
    (hc : c.listed n) : ListedInv n (assign_customer_to_window s w c) := by
  obtain ⟨hp, _, hpq, hnq, _, hwin, hno⟩ := assign_frame s w c
  by_cases hw : w ≥ 0 ∧ w < MAX_WINDOWS
  · refine ⟨by rw [hp]; exact h.count_eq, ?_, ?_, ?_, ?_⟩
    · unfold QueuesWF; rw [hpq, hnq]; exact h.wf
    · intro i hi0 hi
      obtain ⟨h1, h2⟩ := assign_record_static s w c i
      have := h.records i hi0 hi
      exact ⟨by rw [h1]; exact this.1, by rw [h1]; exact this.2.1, by rw [h2]; exact this.2.2⟩
    · intro c' hc'
      apply h.waiting
      unfold waiting_customers at hc' ⊢
      rw [hpq, hnq] at hc'
      exact hc'
    · intro w' hw0' hw' hb
      by_cases hww : w' = w
      · subst hww
        rw [(assign_window s w' c hw.1 hw.2).1]
        exact hc
      · rw [hwin w' hww] at hb ⊢
        exact h.serving w' hw0' hw' hb
  · rw [hno hw]; exact h

theorem listed_finish (n : Int) (s : State) (w : Int) (h : ListedInv n s) :
    ListedInv n (finish_service s w) := by
  obtain ⟨hp, _, hpq, hnq, _, _⟩ := finish_frame s w
  refine ⟨by rw [hp]; exact h.count_eq, ?_, ?_, ?_, ?_⟩
  · unfold QueuesWF; rw [hpq, hnq]; exact h.wf
  · intro i hi0 hi
    obtain ⟨h1, h2⟩ := finish_record_static s w i
    have := h.records i hi0 hi
    exact ⟨by rw [h1]; exact this.1, by rw [h1]; exact this.2.1, by rw [h2]; exact this.2.2⟩
  · intro c' hc'
    apply h.waiting
    unfold waiting_customers at hc' ⊢
    rw [hpq, hnq] at hc'
    exact hc'
  · intro w' hw0' hw' hb
    by_cases hww : w' = w
    · subst hww
      rw [(finish_service_flags s w' w').2.2 hw0' hw'] at hb
      cases hb
    · rw [(finish_service_flags s w w').2.1 hww] at hb ⊢
      exact h.serving w' hw0' hw' hb

theorem listed_pool_change (n : Int) (s s' : State) (hpc : PoolChange s s')
    (h : ListedInv n s) : ListedInv n s' := by
  refine ⟨by rw [hpc.params_eq]; exact h.count_eq, ?_, ?_, ?_, ?_⟩
  · unfold QueuesWF; rw [hpc.pq_eq, hpc.nq_eq]; exact h.wf
  · rw [hpc.customers_eq]; exact h.records
  · intro c hc
    apply h.waiting
    unfold waiting_customers at hc ⊢
    rw [hpc.pq_eq, hpc.nq_eq] at hc
    exact hc
  · intro w hw0 hw hb
    obtain ⟨h1, _, h3, _, _⟩ := pool_change_window s s' hpc w
    rw [h1] at hb
    rw [h3]
    exact h.serving w hw0 hw hb

theorem listed_dispatch (n : Int) (rng : Nat → Nat) (s : State) (w : Int)
    (h : ListedInv n s) :
    ListedInv n (completion_dispatch rng s w)
    ∧ ∀ x ∈ completion_dispatch_calls rng s w, x.listed n := by
  obtain ⟨h1, h2⟩ := listed_dequeue n rng s h
  constructor
  · unfold completion_dispatch
    dsimp only
    split_ifs with hid
    · exact listed_assign n _ w _ h1 (h2 hid)
    · exact h1
  · intro x hx
    unfold completion_dispatch_calls at hx
    rcases List.mem_append.mp hx with hx | hx
    · unfold get_next_customer_calls at hx
      split_ifs at hx <;> first
        | (rw [List.mem_singleton.mp hx]; exact trivial)
        | (simp at hx)
    · split_ifs at hx with hid
      · rw [List.mem_singleton.mp hx]
        exact h2 hid
      · simp at hx

theorem listed_arrival_dispatch (n : Int) (rng : Nat → Nat) (s : State)
    (h : ListedInv n s) :
    ListedInv n (arrival_dispatch rng s)
    ∧ ∀ x ∈ arrival_dispatch_calls rng s, x.listed n := by
  have he : arrival_dispatch rng s
      = if find_idle_window s ≠ -1 then completion_dispatch rng s (find_idle_window s)
        else s := rfl
  rw [he]
  unfold arrival_dispatch_calls
  split_ifs
  · exact listed_dispatch n rng s _ h
  · exact ⟨h, fun x hx => by simp at hx⟩

theorem listed_handle_event (n : Int) (rng : Nat → Nat) (s : State) (e : NextEvent)
    (h : ListedInv n s)
    (h0 : e.next_event_type = 0 →
      0 ≤ e.next_event_customer_index ∧ e.next_event_customer_index < n)
    (h1 : e.next_event_type = 1 →
      0 ≤ e.next_event_window ∧ e.next_event_window < MAX_WINDOWS
      ∧ (s.windows e.next_event_window).is_busy = true) :
    ListedInv n (handle_event rng s e)
    ∧ ∀ x ∈ handle_event_calls rng s e, x.listed n := by
  unfold handle_event handle_event_calls
  split_ifs with ht0 ht1
  · obtain ⟨hi0, hi⟩ := h0 ht0
    obtain ⟨hinv, hcalls⟩ := listed_arrival_dispatch n rng _
      (listed_enqueue n s e.next_event_customer_index h hi0 hi)
    exact ⟨listed_pool_change n _ _ (pool_change_adjust _) hinv, hcalls⟩
  · obtain ⟨hw0, hw, hb⟩ := h1 ht1
    obtain ⟨hinv, hcalls⟩ := listed_dispatch n rng _ e.next_event_window
      (listed_finish n s e.next_event_window h)
    refine ⟨listed_pool_change n _ _ (pool_change_adjust _) hinv, fun x hx => ?_⟩
    rcases List.mem_cons.mp hx with hx | hx
    · rw [hx]
      exact h.serving _ hw0 hw hb
    · exact hcalls x hx
  · exact ⟨h, fun x hx => by simp at hx⟩

theorem listed_loop_body (n : Int) (rng : Nat → Nat) (s : State) (h : ListedInv n s) :
    ListedInv n (loop_body rng s).1
    ∧ ∀ x ∈ loop_body_calls rng s, x.listed n := by
  unfold loop_body loop_body_calls
  dsimp only
  split_ifs with hm
  · exact ⟨listed_clock n s _ _ h, fun x hx => by simp at hx⟩
  · apply listed_handle_event n rng _ _
      (listed_clock n s ((find_next_event s).next_event_time - s.current_time)
        (find_next_event s).next_event_time h)
    · intro ht0
      rcases find_next_event_ok s with hm' | ⟨_, _, hi0, hi, _⟩ | ⟨ht1, _⟩
      · exact absurd hm' hm
      · rw [h.count_eq] at hi
        exact ⟨hi0, hi⟩
      · rw [ht0] at ht1; cases ht1
    · exact event_window_busy s hm

theorem listed_start (s0 : State)
    (hrec : ∀ i : Int, 0 ≤ i → i < s0.params.customer_count →
      (s0.customers i).listed s0.params.customer_count) :
    ListedInv s0.params.customer_count (sim_start s0) := by
  refine ⟨rfl, queues_wf_start s0, hrec, ?_, ?_⟩
  · intro c hc
    have h0 : waiting_customers (sim_start s0) = [] := rfl
    rw [h0] at hc
    cases hc
  · intro w hw0 hw hb
    simp only [sim_start, init_windows] at hb
    rw [if_pos ⟨hw0, hw⟩] at hb
    simp at hb

/-! ### Termination -/

theorem loop_body_step (rng : Nat → Nat) (s : State) :
    ((loop_body rng s).2 = true
      ∧ (find_next_event s).next_event_type = -1
      ∧ (loop_body rng s).1.current_time = s.params.simulation_time)
    ∨ ((loop_body rng s).2 = false
      ∧ s.current_time < (loop_body rng s).1.current_time
      ∧ ((∃ i : Int, 0 ≤ i ∧ i < s.params.customer_count
            ∧ (loop_body rng s).1.current_time = (s.customers i).arrival_time)
          ∨ (∃ w : Int, 0 ≤ w ∧ w < MAX_WINDOWS ∧ (s.windows w).is_busy = true
            ∧ (loop_body rng s).1.current_time
              = (s.windows w).busy_start + (s.windows w).current_customer.service_time))) := by
  by_cases hm : (find_next_event s).next_event_type = -1
  · have hlb : loop_body rng s = (drain s, true) := by
      unfold loop_body
      dsimp only
      rw [if_pos hm]
    rw [hlb]
    exact Or.inl ⟨rfl, hm, rfl⟩
  · have hlb : loop_body rng s
        = (handle_event rng (advance_clock s (find_next_event s)) (find_next_event s),
            false) := by
      unfold loop_body
      dsimp only
      rw [if_neg hm]
    have ht : (handle_event rng (advance_clock s (find_next_event s))
        (find_next_event s)).current_time = (find_next_event s).next_event_time :=
      (handle_event_frame rng _ _).1
    rw [hlb]
    refine Or.inr ⟨rfl, ?_⟩
    show s.current_time < (handle_event rng (advance_clock s (find_next_event s))
        (find_next_event s)).current_time ∧ _
    rw [ht]
    rcases find_next_event_ok s with hm' | ⟨_, hlt, hi0, hi, harr⟩ | ⟨_, hlt, hw0, hw, hb, hfin⟩
    · exact absurd hm' hm
    · exact ⟨hlt, Or.inl ⟨_, hi0, hi, harr.symm⟩⟩
    · exact ⟨hlt, Or.inr ⟨_, hw0, hw, hb, hfin.symm⟩⟩

/-- C24 (as amended): for a list of customers with ids in `1 .. customer_count`
and positive service durations, and every parameter set, `run_simulation`
terminates: `2 * customer_count + 1` passes through the loop body suffice, after
which the loop test fails.  Each pass made from a state that passes the loop
test either is the drained step, which finds no event, sets the clock to
`simulation_time` and leaves the loop, or moves the clock to a strictly later
time that is the arrival time of a customer in `0 .. customer_count - 1` or the
completion time `busy_start + service_time` of the customer of a busy window.
Each customer arrival is applied at most once: no index is enqueued twice.
Each customer is assigned at most once: the customers assigned are, counted
with multiplicity, among the copies enqueued; with ids that differ from record
to record no id is assigned twice.  Every customer handed to
`assign_customer_to_window`, and every customer whose service `finish_service`
ends, has an id in `1 .. customer_count`, so that the record `customers[id - 1]`
written for it is one of the records of the list, and a positive service
duration. -/
theorem run_simulation_halts (rng : Nat → Nat) (s0 : State)
    (hids : ∀ i : Int, 0 ≤ i → i < s0.params.customer_count →
      1 ≤ (s0.customers i).id ∧ (s0.customers i).id ≤ s0.params.customer_count)
    (hserv : ∀ i : Int, 0 ≤ i → i < s0.params.customer_count →
      0 < (s0.customers i).service_time) :
    (∃ s', run_simulation rng (2 * s0.params.customer_count.toNat + 1) s0 = some s')
    ∧ ¬ ((after_iterations rng (2 * s0.params.customer_count.toNat + 1)
            (sim_start s0)).current_time
          < (after_iterations rng (2 * s0.params.customer_count.toNat + 1)
            (sim_start s0)).params.simulation_time)
    ∧ (∀ s : State, s.current_time < s.params.simulation_time →
        ((loop_body rng s).2 = true
          ∧ (find_next_event s).next_event_type = -1
          ∧ (loop_body rng s).1.current_time = s.params.simulation_time)
        ∨ ((loop_body rng s).2 = false
          ∧ s.current_time < (loop_body rng s).1.current_time
          ∧ ((∃ i : Int, 0 ≤ i ∧ i < s.params.customer_count
                ∧ (loop_body rng s).1.current_time = (s.customers i).arrival_time)
              ∨ (∃ w : Int, 0 ≤ w ∧ w < MAX_WINDOWS ∧ (s.windows w).is_busy = true
                ∧ (loop_body rng s).1.current_time
                  = (s.windows w).busy_start
                    + (s.windows w).current_customer.service_time))))
    ∧ (∀ k : Nat,
        ((run_log rng loop_body_arrivals k (sim_start s0)).map Arrival.index).Nodup)
    ∧ (∀ k : Nat,
        (run_log rng (loop_body_assigned rng) k (sim_start s0)).Subperm
          ((run_log rng loop_body_arrivals k (sim_start s0)).map Arrival.customer))
    ∧ ((∀ i j : Int, 0 ≤ i → i < s0.params.customer_count →
          0 ≤ j → j < s0.params.customer_count →
          (s0.customers i).id = (s0.customers j).id → i = j) →
        ∀ k : Nat,
          ((run_log rng (loop_body_assigned rng) k (sim_start s0)).map Customer.id).Nodup)
    ∧ (∀ (k : Nat) (s : State) (w : Int) (c : Customer),
        Call.assign s w c ∈ run_log rng (loop_body_calls rng) k (sim_start s0) →
        0 ≤ c.id - 1 ∧ c.id - 1 < s0.params.customer_count ∧ 0 < c.service_time)
    ∧ (∀ (k : Nat) (s : State) (w : Int),
        Call.finish s w ∈ run_log rng (loop_body_calls rng) k (sim_start s0) →
        0 ≤ (s.windows w).current_customer.id - 1
        ∧ (s.windows w).current_customer.id - 1 < s0.params.customer_count
        ∧ 0 < (s.windows w).current_customer.service_time) := by
  have key : ∀ (k : Nat) (x : Call),
      x ∈ run_log rng (loop_body_calls rng) k (sim_start s0) →
      x.listed s0.params.customer_count := by
    intro k x hx
    exact run_log_forall rng (loop_body_calls rng) (Call.listed s0.params.customer_count)
      (ListedInv s0.params.customer_count)
      (fun s hs _ => listed_loop_body s0.params.customer_count rng s hs)
      k (sim_start s0)
      (listed_start s0 (fun i hi0 hi => ⟨(hids i hi0 hi).1, (hids i hi0 hi).2, hserv i hi0 hi⟩))
      x hx
  refine ⟨run_simulation_terminates rng s0, ?_, fun s _ => loop_body_step rng s,
    fun k => arrivals_index_nodup rng k _, fun k => run_assigned_subperm rng k s0, ?_, ?_, ?_⟩
  · obtain ⟨s', hs'⟩ := run_simulation_terminates rng s0
    obtain ⟨heq, hx⟩ := run_loop_eq_after rng _ _ s' hs'
    rw [← heq]
    exact hx
  · intro hinj k
    have hsub := subperm_map Customer.id _ _ (run_assigned_subperm rng k s0)
    refine subperm_nodup _ _ hsub ?_
    rw [List.map_map]
    refine List.Nodup.map_on ?_ (List.Nodup.of_map _ (arrivals_index_nodup rng k _))
    intro a ha b hb hab
    obtain ⟨ha0, ha1, ha2, _, ha4, _⟩ := run_arrivals_spec rng k (sim_start s0) a ha
    obtain ⟨hb0, hb1, hb2, _, hb4, _⟩ := run_arrivals_spec rng k (sim_start s0) b hb
    have hidx : a.index = b.index := by
      apply hinj a.index b.index ha0 ha1 hb0 hb1
      have h1 : a.customer.id = (s0.customers a.index).id := ha4
      have h2 : b.customer.id = (s0.customers b.index).id := hb4
      rw [← h1, ← h2]
      exact hab
    apply arrivals_eq_of_clock rng k _ a b ha hb
    rw [← ha2, ← hb2, hidx]
  · intro k s w c hc
    obtain ⟨h1, h2, h3⟩ := key k _ hc
    exact ⟨by omega, by omega, h3⟩
  · intro k s w hc
    obtain ⟨h1, h2, h3⟩ := key k _ hc
    exact ⟨by omega, by omega, h3⟩

/-- Witness for C24: Scenario A (ids 1, 2, 3, service durations 5) ends within
`2 * 3 + 1` passes; the arrivals applied are those of the customers at index 1
and 2, once each, and the customers assigned are the customers 2 and 3, once
each. -/
theorem run_simulation_halts_witness :
    (∃ s', run_simulation (fun _ => 0)
        (2 * scenario_a_input.params.customer_count.toNat + 1) scenario_a_input = some s')
    ∧ 2 * scenario_a_input.params.customer_count.toNat + 1 = 7
    ∧ (List.range 3).map (fun (i : Nat) => ((scenario_a_input.customers i).id,
        (scenario_a_input.customers i).service_time)) = [(1, 5), (2, 5), (3, 5)]
    ∧ (run_log (fun _ => 0) loop_body_arrivals 7 (sim_start scenario_a_input)).map
        Arrival.index = [1, 2]
    ∧ (run_log (fun _ => 0) (loop_body_assigned (fun _ => 0)) 7
        (sim_start scenario_a_input)).map Customer.id = [2, 3] :=
  ⟨(run_simulation_halts (fun _ => 0) scenario_a_input
      (by
        intro i hi0 hi
        have hn : scenario_a_input.params.customer_count = 3 := by decide!
        rw [hn] at hi ⊢
        have hi' : i = 0 ∨ i = 1 ∨ i = 2 := by omega
        rcases hi' with h | h | h <;> subst h <;> decide!)
      (by
        intro i hi0 hi
        have hn : scenario_a_input.params.customer_count = 3 := by decide!
        rw [hn] at hi
        have hi' : i = 0 ∨ i = 1 ∨ i = 2 := by omega
        rcases hi' with h | h | h <;> subst h <;> decide!)).1,
   by decide!, by decide!, by decide!, by decide!⟩

/-- Counterexample to C24 as stated: with a duration of 10 and one customer
(id 1, service duration 5) who arrives at t = 11, the only pass through the loop
body is the drained step.  It
moves the clock from 0 to 10, which is not the arrival time of the customer, and
no window is busy, so it is not a completion time either. -/
theorem drained_step_counterexample :
    (sim_start scenario_d_quiet).current_time = 0
    ∧ (sim_start scenario_d_quiet).current_time
        < (sim_start scenario_d_quiet).params.simulation_time
    ∧ (loop_body (fun _ => 0) (sim_start scenario_d_quiet)).1.current_time = 10
    ∧ (sim_start scenario_d_quiet).params.customer_count = 1
    ∧ ((sim_start scenario_d_quiet).customers 0).arrival_time = 11
    ∧ ((sim_start scenario_d_quiet).customers 0).id = 1
    ∧ ((sim_start scenario_d_quiet).customers 0).service_time = 5
    ∧ (List.range MAX_WINDOWS).all
        (fun (w : Nat) => !((sim_start scenario_d_quiet).windows w).is_busy) = true
    ∧ ¬ ((∃ i : Int, 0 ≤ i ∧ i < (sim_start scenario_d_quiet).params.customer_count
            ∧ (loop_body (fun _ => 0) (sim_start scenario_d_quiet)).1.current_time
              = ((sim_start scenario_d_quiet).customers i).arrival_time)
          ∨ (∃ w : Int, 0 ≤ w ∧ w < MAX_WINDOWS
            ∧ ((sim_start scenario_d_quiet).windows w).is_busy = true
            ∧ (loop_body (fun _ => 0) (sim_start scenario_d_quiet)).1.current_time
              = ((sim_start scenario_d_quiet).windows w).busy_start
                + ((sim_start scenario_d_quiet).windows w).current_customer.service_time)) := by
  refine ⟨by decide!, by decide!, by decide!, by decide!, by decide!, by decide!,
    by decide!, by decide!, ?_⟩
  rintro (⟨i, hi0, hi, h⟩ | ⟨w, hw0, hw, hb, _⟩)
  · have hn : (sim_start scenario_d_quiet).params.customer_count = 1 := by decide!
    rw [hn] at hi
    have : i = 0 := by omega
    subst this
    exact absurd h (by decide!)
  · have hidle : ((sim_start scenario_d_quiet).windows w).is_busy = false := by
      simp only [sim_start, init_windows]
      rw [if_pos ⟨hw0, hw⟩]
    rw [hidle] at hb
    cases hb

/-! ### Booking of idle and busy time, pass by pass -/

theorem credit_idle_total (s : State) (dt : ℚ) (w : Int) (hw0 : 0 ≤ w)
    (hw : w < MAX_WINDOWS) :
    ((credit_idle s dt).windows w).total_idle_time
      = if (s.windows w).is_open = true ∧ (s.windows w).is_busy = false then
          (s.windows w).total_idle_time + dt
        else (s.windows w).total_idle_time := by
  simp only [credit_idle]
  by_cases h : (s.windows w).is_open = true ∧ (s.windows w).is_busy = false
  · rw [if_pos ⟨hw0, hw, h.1, h.2⟩, if_pos h]
  · rw [if_neg (fun hc => h ⟨hc.2.2.1, hc.2.2.2⟩), if_neg h]

theorem assign_booking (s : State) (j : Int) (c : Customer) (w : Int) :
    ((assign_customer_to_window s j c).windows w).total_idle_time
        = (s.windows w).total_idle_time
    ∧ ((assign_customer_to_window s j c).windows w).total_busy_time
        = (s.windows w).total_busy_time
    ∧ ((assign_customer_to_window s j c).windows w = s.windows w
        ∨ (((assign_customer_to_window s j c).windows w).is_busy = true
          ∧ ((assign_customer_to_window s j c).windows w).busy_start = s.current_time)) := by
  unfold assign_customer_to_window
  split_ifs with hj
  · by_cases hwj : w = j
    · subst hwj
      simp
    · simp [Function.update_noteq hwj]
  · exact ⟨rfl, rfl, Or.inl rfl⟩

theorem finish_booking (s : State) (j : Int) (w : Int) :
    ((finish_service s j).windows w).total_idle_time = (s.windows w).total_idle_time
    ∧ ((finish_service s j).windows w).busy_start = (s.windows w).busy_start
    ∧ ((finish_service s j).windows w).total_busy_time
        = (if w = j ∧ 0 ≤ j ∧ j < MAX_WINDOWS ∧ (s.windows j).is_busy = true then
            (s.windows w).total_busy_time + (s.current_time - (s.windows w).busy_start)
          else (s.windows w).total_busy_time)
    ∧ (((finish_service s j).windows w).is_busy = true →
        (s.windows w).is_busy = true
        ∧ ¬ (w = j ∧ 0 ≤ j ∧ j < MAX_WINDOWS ∧ (s.windows j).is_busy = true)) := by
  by_cases hj : j ≥ 0 ∧ j < MAX_WINDOWS ∧ (s.windows j).is_busy = true
  · have hfs : (finish_service s j).windows
        = Function.update s.windows j
            { s.windows j with
              is_busy := false
              total_busy_time := (s.windows j).total_busy_time
                + (s.current_time - (s.windows j).busy_start)
              busy_end := s.current_time } := by
      unfold finish_service
      rw [if_pos hj]
    rw [hfs]
    by_cases hwj : w = j
    · subst hwj
      rw [if_pos ⟨rfl, hj.1, hj.2.1, hj.2.2⟩]
      simp
    · rw [if_neg (fun hc => hwj hc.1)]
      simp [Function.update_noteq hwj, hwj]
  · have hfs : finish_service s j = s := by
      unfold finish_service
      rw [if_neg hj]
    rw [hfs, if_neg (fun hc => hj ⟨hc.2.1, hc.2.2.1, hc.2.2.2⟩)]
    exact ⟨rfl, rfl, rfl, fun hb => ⟨hb, fun hc => hj ⟨hc.2.1, hc.2.2.1, hc.2.2.2⟩⟩⟩

theorem dispatch_booking (rng : Nat → Nat) (s : State) (j : Int) (w : Int) :
    ((completion_dispatch rng s j).windows w).total_idle_time
        = (s.windows w).total_idle_time
    ∧ ((completion_dispatch rng s j).windows w).total_busy_time
        = (s.windows w).total_busy_time
    ∧ ((completion_dispatch rng s j).windows w = s.windows w
        ∨ (((completion_dispatch rng s j).windows w).is_busy = true
          ∧ ((completion_dispatch rng s j).windows w).busy_start = s.current_time)) := by
  have hwin := get_next_customer_windows rng s
  have ht := get_next_customer_time rng s
  unfold completion_dispatch
  dsimp only
  split_ifs
  · obtain ⟨h1, h2, h3⟩ := assign_booking (get_next_customer rng s).2 j
      (get_next_customer rng s).1 w
    rw [hwin] at h1 h2 h3
    rw [ht] at h3
    exact ⟨h1, h2, h3⟩
  · rw [hwin]
    exact ⟨rfl, rfl, Or.inl rfl⟩

theorem arrival_dispatch_booking (rng : Nat → Nat) (s : State) (w : Int) :
    ((arrival_dispatch rng s).windows w).total_idle_time = (s.windows w).total_idle_time
    ∧ ((arrival_dispatch rng s).windows w).total_busy_time = (s.windows w).total_busy_time
    ∧ ((arrival_dispatch rng s).windows w = s.windows w
        ∨ (((arrival_dispatch rng s).windows w).is_busy = true
          ∧ ((arrival_dispatch rng s).windows w).busy_start = s.current_time)) := by
  have he : arrival_dispatch rng s
      = if find_idle_window s ≠ -1 then completion_dispatch rng s (find_idle_window s)
        else s := rfl
  rw [he]
  split_ifs
  · exact dispatch_booking rng s _ w
  · exact ⟨rfl, rfl, Or.inl rfl⟩

theorem handle_event_booking (rng : Nat → Nat) (s : State) (e : NextEvent) (w : Int)
    (hev : e.next_event_type = 1 →
      0 ≤ e.next_event_window ∧ e.next_event_window < MAX_WINDOWS
      ∧ (s.windows e.next_event_window).is_busy = true) :
    ((handle_event rng s e).windows w).total_idle_time = (s.windows w).total_idle_time
    ∧ ((handle_event rng s e).windows w).total_busy_time
        = (if e.next_event_type = 1 ∧ e.next_event_window = w then
            (s.windows w).total_busy_time + (s.current_time - (s.windows w).busy_start)
          else (s.windows w).total_busy_time)
    ∧ (((handle_event rng s e).windows w).is_busy = true →
        ((handle_event rng s e).windows w).busy_start = s.current_time
        ∨ ((s.windows w).is_busy = true
          ∧ ¬ (e.next_event_type = 1 ∧ e.next_event_window = w)
          ∧ ((handle_event rng s e).windows w).busy_start = (s.windows w).busy_start)) := by
  by_cases h0 : e.next_event_type = 0
  · have hhe : handle_event rng s e
        = adjust_windows (arrival_dispatch rng
            (arrival_enqueue s (s.customers e.next_event_customer_index))) := by
      unfold handle_event
      rw [if_pos h0]
      rfl
    rw [hhe]
    obtain ⟨a1, a2, a3, a4, a5⟩ := pool_change_window _ _
      (pool_change_adjust (arrival_dispatch rng
        (arrival_enqueue s (s.customers e.next_event_customer_index)))) w
    obtain ⟨b1, b2, b3⟩ := arrival_dispatch_booking rng
      (arrival_enqueue s (s.customers e.next_event_customer_index)) w
    obtain ⟨hwin, _, _, ht, _⟩ :=
      arrival_enqueue_frame s (s.customers e.next_event_customer_index)
    rw [hwin] at b1 b2 b3
    rw [ht] at b3
    have hne : ¬ (e.next_event_type = 1 ∧ e.next_event_window = w) := by
      intro hc
      rw [h0] at hc
      exact absurd hc.1 (by decide)
    rw [if_neg hne]
    refine ⟨a5.trans b1, a4.trans b2, fun hb => ?_⟩
    rw [a1] at hb
    rw [a2]
    rcases b3 with heq | ⟨_, hs⟩
    · rw [heq] at hb ⊢
      exact Or.inr ⟨hb, hne, rfl⟩
    · exact Or.inl hs
  by_cases h1 : e.next_event_type = 1
  · have hhe : handle_event rng s e
        = adjust_windows (completion_dispatch rng
            (finish_service s e.next_event_window) e.next_event_window) := by
      unfold handle_event
      rw [if_neg h0, if_pos h1]
    rw [hhe]
    obtain ⟨hw0, hw, hbusy⟩ := hev h1
    obtain ⟨a1, a2, a3, a4, a5⟩ := pool_change_window _ _
      (pool_change_adjust (completion_dispatch rng
        (finish_service s e.next_event_window) e.next_event_window)) w
    obtain ⟨b1, b2, b3⟩ := dispatch_booking rng
      (finish_service s e.next_event_window) e.next_event_window w
    obtain ⟨c1, c2, c3, c4⟩ := finish_booking s e.next_event_window w
    have ht : (finish_service s e.next_event_window).current_time = s.current_time :=
      (finish_frame s _).2.1
    rw [ht] at b3
    refine ⟨a5.trans (b1.trans c1), ?_, fun hb => ?_⟩
    · rw [a4, b2, c3]
      by_cases hwe : e.next_event_window = w
      · rw [if_pos ⟨hwe.symm, hw0, hw, hbusy⟩, if_pos ⟨h1, hwe⟩]
      · rw [if_neg (fun hc => hwe hc.1.symm), if_neg (fun hc => hwe hc.2)]
    · rw [a1] at hb
      rw [a2]
      rcases b3 with heq | ⟨_, hs⟩
      · rw [heq] at hb ⊢
        obtain ⟨hsb, hnot⟩ := c4 hb
        refine Or.inr ⟨hsb, fun hc => hnot ⟨hc.2.symm, hw0, hw, hbusy⟩, c2⟩
      · exact Or.inl hs
  · have hhe : handle_event rng s e = s := by
      unfold handle_event
      rw [if_neg h0, if_neg h1]
    have hne : ¬ (e.next_event_type = 1 ∧ e.next_event_window = w) := fun hc => h1 hc.1
    rw [hhe, if_neg hne]
    exact ⟨rfl, rfl, fun hb => Or.inr ⟨hb, hne, rfl⟩⟩

theorem loop_body_booking (rng : Nat → Nat) (s : State) (w : Int) (hw0 : 0 ≤ w)
    (hw : w < MAX_WINDOWS) :
    ((loop_body rng s).1.windows w).total_idle_time
        = (if (s.windows w).is_open = true ∧ (s.windows w).is_busy = false then
            (s.windows w).total_idle_time + ((loop_body rng s).1.current_time - s.current_time)
          else (s.windows w).total_idle_time)
    ∧ ((loop_body rng s).1.windows w).total_busy_time
        = (if (find_next_event s).next_event_type = 1
              ∧ (find_next_event s).next_event_window = w then
            (s.windows w).total_busy_time
              + ((loop_body rng s).1.current_time - (s.windows w).busy_start)
          else (s.windows w).total_busy_time)
    ∧ ((find_next_event s).next_event_type = 1
          ∧ (find_next_event s).next_event_window = w → (s.windows w).is_busy = true)
    ∧ (((loop_body rng s).1.windows w).is_busy = true →
        ((loop_body rng s).1.windows w).busy_start = (loop_body rng s).1.current_time
        ∨ ((s.windows w).is_busy = true
          ∧ ¬ ((find_next_event s).next_event_type = 1
                ∧ (find_next_event s).next_event_window = w)
          ∧ ((loop_body rng s).1.windows w).busy_start = (s.windows w).busy_start)) := by
  have hbusy : (find_next_event s).next_event_type = 1
      ∧ (find_next_event s).next_event_window = w → (s.windows w).is_busy = true := by
    intro hc
    rcases find_next_event_ok s with hm | ⟨h0, _⟩ | ⟨_, _, _, _, hb, _⟩
    · rw [hc.1] at hm; cases hm
    · rw [hc.1] at h0; cases h0
    · rw [hc.2] at hb; exact hb
  by_cases hm : (find_next_event s).next_event_type = -1
  · have hlb : (loop_body rng s).1 = drain s := by
      unfold loop_body
      dsimp only
      rw [if_pos hm]
    rw [hlb]
    have hne : ¬ ((find_next_event s).next_event_type = 1
        ∧ (find_next_event s).next_event_window = w) := by
      intro hc
      rw [hm] at hc
      exact absurd hc.1 (by decide)
    obtain ⟨h1, _, h3, _, h5⟩ :=
      credit_idle_window s (s.params.simulation_time - s.current_time) w
    refine ⟨credit_idle_total s _ w hw0 hw, ?_, hbusy, fun hb => ?_⟩
    · rw [if_neg hne]
      exact h5
    · exact Or.inr ⟨h1 ▸ hb, hne, h3⟩
  · have hlb : (loop_body rng s).1
        = handle_event rng (advance_clock s (find_next_event s)) (find_next_event s) := by
      unfold loop_body
      dsimp only
      rw [if_neg hm]
    rw [hlb]
    obtain ⟨h1, _, h3, _, h5⟩ :=
      credit_idle_window s ((find_next_event s).next_event_time - s.current_time) w
    obtain ⟨a1, a2, a3⟩ := handle_event_booking rng (advance_clock s (find_next_event s))
      (find_next_event s) w (event_window_busy s hm)
    have ht : (handle_event rng (advance_clock s (find_next_event s))
        (find_next_event s)).current_time = (find_next_event s).next_event_time :=
      (handle_event_frame rng _ _).1
    have hidle := credit_idle_total s
      ((find_next_event s).next_event_time - s.current_time) w hw0 hw
    refine ⟨?_, ?_, hbusy, fun hb => ?_⟩
    · show ((handle_event rng (advance_clock s (find_next_event s))
          (find_next_event s)).windows w).total_idle_time = _
      rw [a1]
      show ((credit_idle s ((find_next_event s).next_event_time
          - s.current_time)).windows w).total_idle_time
        = if (s.windows w).is_open = true ∧ (s.windows w).is_busy = false then
            (s.windows w).total_idle_time
              + ((handle_event rng (advance_clock s (find_next_event s))
                  (find_next_event s)).current_time - s.current_time)
          else (s.windows w).total_idle_time
      rw [ht]
      exact hidle
    · show ((handle_event rng (advance_clock s (find_next_event s))
          (find_next_event s)).windows w).total_busy_time
        = if (find_next_event s).next_event_type = 1
              ∧ (find_next_event s).next_event_window = w then
            (s.windows w).total_busy_time
              + ((handle_event rng (advance_clock s (find_next_event s))
                  (find_next_event s)).current_time - (s.windows w).busy_start)
          else (s.windows w).total_busy_time
      rw [a2, ht]
      show (if (find_next_event s).next_event_type = 1
              ∧ (find_next_event s).next_event_window = w then
            ((credit_idle s ((find_next_event s).next_event_time
                - s.current_time)).windows w).total_busy_time
              + ((find_next_event s).next_event_time
                - ((credit_idle s ((find_next_event s).next_event_time
                    - s.current_time)).windows w).busy_start)
          else ((credit_idle s ((find_next_event s).next_event_time
                - s.current_time)).windows w).total_busy_time) = _
      rw [h5, h3]
    · have hb' : ((handle_event rng (advance_clock s (find_next_event s))
          (find_next_event s)).windows w).is_busy = true := hb
      rcases a3 hb' with hs | ⟨hsb, hnot, hsame⟩
      · left
        show ((handle_event rng (advance_clock s (find_next_event s))
          (find_next_event s)).windows w).busy_start
          = (handle_event rng (advance_clock s (find_next_event s))
              (find_next_event s)).current_time
        rw [ht]
        exact hs
      · right
        refine ⟨h1 ▸ hsb, hnot, ?_⟩
        show ((handle_event rng (advance_clock s (find_next_event s))
          (find_next_event s)).windows w).busy_start = (s.windows w).busy_start
        rw [hsame]
        exact h3
theorem after_iterations_step (rng : Nat → Nat) (k : Nat) (s : State)
    (hc : (after_iterations rng k s).current_time
      < (after_iterations rng k s).params.simulation_time) :
    after_iterations rng (k + 1) s = (loop_body rng (after_iterations rng k s)).1 := by
  rw [after_iterations_add rng 1 k s]
  show (if (after_iterations rng k s).current_time
        < (after_iterations rng k s).params.simulation_time then
      (loop_body rng (after_iterations rng k s)).1
    else after_iterations rng k s) = _
  rw [if_pos hc]

/-- C2 (as amended): how the open time of a window is booked.  In a run started
at `current_time = 0` with validated parameters, for each of the `MAX_WINDOWS`
windows: both totals are 0 on entry to the loop.  A pass through the loop body
that moves the clock from `t` to `t'` adds `t' - t` to `total_idle_time` exactly
when the window is open and idle at the start of the pass; it adds
`t' - busy_start` to `total_busy_time` exactly when it completes the service of
the window, and `busy_start` is the clock at which that service was assigned;
the totals change in no other way.  A busy window is open, and an open window
is one of the first `max_windows` windows.  So every stretch of open time is
booked once, an idle stretch when it passes and a busy stretch, as a whole, when
the service completes; the elapsed part of a service that is still in progress
when the run ends is in neither total.  The run ends, in the state of a loop
test. -/
theorem busy_idle_booking (rng : Nat → Nat) (s0 : State)
    (hstart : s0.current_time = 0) (hv : ValidParams s0.params)
    (w : Int) (hw0 : 0 ≤ w) (hw : w < MAX_WINDOWS) :
    ((sim_start s0).current_time = 0
      ∧ ((sim_start s0).windows w).total_busy_time = 0
      ∧ ((sim_start s0).windows w).total_idle_time = 0
      ∧ ((sim_start s0).windows w).is_busy = false)
    ∧ (∀ (k : Nat) (s s' : State),
        s = after_iterations rng k (sim_start s0) →
        s' = after_iterations rng (k + 1) (sim_start s0) →
        s.current_time < s.params.simulation_time →
        s.current_time < s'.current_time
        ∧ (s'.windows w).total_idle_time
            = (if (s.windows w).is_open = true ∧ (s.windows w).is_busy = false then
                (s.windows w).total_idle_time + (s'.current_time - s.current_time)
              else (s.windows w).total_idle_time)
        ∧ (s'.windows w).total_busy_time
            = (if (find_next_event s).next_event_type = 1
                  ∧ (find_next_event s).next_event_window = w then
                (s.windows w).total_busy_time
                  + (s'.current_time - (s.windows w).busy_start)
              else (s.windows w).total_busy_time)
        ∧ ((find_next_event s).next_event_type = 1
              ∧ (find_next_event s).next_event_window = w → (s.windows w).is_busy = true)
        ∧ ((s.windows w).is_busy = true → (s.windows w).is_open = true)
        ∧ ((s.windows w).is_open = true → w < s0.params.max_windows)
        ∧ ((s'.windows w).is_busy = true →
            (s'.windows w).busy_start = s'.current_time
            ∨ ((s.windows w).is_busy = true
              ∧ ¬ ((find_next_event s).next_event_type = 1
                    ∧ (find_next_event s).next_event_window = w)
              ∧ (s'.windows w).busy_start = (s.windows w).busy_start)))
    ∧ (∃ s', run_simulation rng (2 * s0.params.customer_count.toNat + 1) s0 = some s')
    ∧ (∀ (fuel : Nat) (s' : State), run_simulation rng fuel s0 = some s' →
        s' = after_iterations rng fuel (sim_start s0)
        ∧ ¬ (s'.current_time < s'.params.simulation_time)) := by
  obtain ⟨hbo, _⟩ := account_start s0
  refine ⟨⟨hstart, ?_, ?_, ?_⟩, ?_, run_simulation_terminates rng s0,
    fun fuel s' hrun => run_loop_eq_after rng fuel _ s' hrun⟩
  · simp only [sim_start, init_windows]
    rw [if_pos ⟨hw0, hw⟩]
  · simp only [sim_start, init_windows]
    rw [if_pos ⟨hw0, hw⟩]
  · simp only [sim_start, init_windows]
    rw [if_pos ⟨hw0, hw⟩]
  · intro k s s' hs hs' hc
    subst hs
    rw [after_iterations_step rng k _ hc] at hs'
    subst hs'
    obtain ⟨h1, h2, h3, h4⟩ :=
      loop_body_booking rng (after_iterations rng k (sim_start s0)) w hw0 hw
    have hpool := pool_inv_reached rng s0 hv _
      (reached_after_iterations rng s0 hv k _ Reached.start)
    exact ⟨(loop_body_clock rng _ hc).1, h1, h2, h3,
      busy_open_after rng k _ hbo w hw0 hw, hpool.open_lt_max w hw0 hw, h4⟩

/-- Witness for C2: window 0 in Scenario A.  The first pass moves the clock from
0 to 1 with the window open and idle, and books 1 as idle time; the run ends
with 10 booked as busy and 90 as idle. -/
theorem busy_idle_booking_witness :
    (scenario_a_input.current_time = 0 ∧ ValidParams scenario_a_input.params)
    ∧ ((sim_start scenario_a_input).current_time = 0
      ∧ ((sim_start scenario_a_input).windows 0).total_busy_time = 0
      ∧ ((sim_start scenario_a_input).windows 0).total_idle_time = 0
      ∧ ((sim_start scenario_a_input).windows 0).is_busy = false)
    ∧ ((after_iterations (fun _ => 0) 1 (sim_start scenario_a_input)).current_time = 1
      ∧ ((after_iterations (fun _ => 0) 1 (sim_start scenario_a_input)).windows 0).total_idle_time
          = 1)
    ∧ (run_simulation (fun _ => 0) 7 scenario_a_input).map
        (fun s => ((s.windows 0).total_busy_time, (s.windows 0).total_idle_time,
                   (s.windows 0).is_busy))
      = some (10, 90, false) :=
  ⟨⟨by decide!, by decide⟩,
   (busy_idle_booking (fun _ => 0) scenario_a_input (by decide!) (by decide)
      0 (by decide) (by decide)).1,
   by decide!, by decide!⟩

end BankQueue
